import Mathlib

/-!
The getdns resolver of libvmod-dynamic (`src/dyn_resolver_getdns.c`)

A shallow embedding of the address and SRV lookups and of their answer
walkers, followed by theorems about them.

Conventions of the embedding.

* The getdns response is an opaque typed tree in C.  Here a dict is a
  structure whose fields are `Option`s (`none`: the name is absent, the
  accessor fails), a list is a `List`, a pointer that may be `NULL` is an
  `Option`.
* An accessor returns `Except Nat α`: `.error c` carries the non-zero
  `getdns_return_t` the accessor hands back, `.ok v` stands for
  `GETDNS_RETURN_GOOD` together with the value stored through the out
  parameter.  An out parameter is left untouched on failure.
* `size_t` indices are `Nat`.  `state->reply++` only runs under
  `reply < n_replies` and `state->answer++` only under `answer < n_answers`
  or right after `answer = 0`, so no increment can wrap.
* A loop is a function that is structurally recursive on a fuel argument; the
  callers pass a bound computed from the state, and the totality theorems show
  that the bound is never used up.
* An assertion failure (`AN`, `AZ`, `assert`, `INCOMPL`) aborts the process:
  outcome `fatal`.
-/

namespace Dynamic

/-! ## Return codes -/

/-- The type `getdns_return_t` as this file uses it.  `code n` is the numeric
code `n` of the engine (`code 0` is `GETDNS_RETURN_GOOD`; a response status
assigned to `ret` is `code status`).  `NO_ANSWERS` and `NO_SERVBYNAME` are the
two codes that `dyn_getdns.h` adds to the engine's enumeration; their numeric
values are not part of the sources at hand, so they are kept symbolic and
distinct from every engine code. -/
inductive getdns_return_t where
  | code (n : Nat)
  | NO_ANSWERS
  | NO_SERVBYNAME
  deriving DecidableEq, Repr

/-- The success code. -/
def GETDNS_RETURN_GOOD : getdns_return_t := .code 0

/-- The initial value of `ret` in the lookups. -/
def GETDNS_RETURN_GENERIC_ERROR : getdns_return_t := .code 1

/-- Good status, no answer in any reply scanned. -/
def GETDNS_RETURN_NO_ANSWERS : getdns_return_t := .NO_ANSWERS

/-- The service name is not in the service table. -/
def GETDNS_RETURN_NO_SERVBYNAME : getdns_return_t := .NO_SERVBYNAME

/-- Engine code: index beyond the list. -/
def GETDNS_RETURN_NO_SUCH_LIST_ITEM : Nat := 304

/-- Engine code: name absent from the dict. -/
def GETDNS_RETURN_NO_SUCH_DICT_NAME : Nat := 305

/-- Engine code: `NULL` list or dict. -/
def GETDNS_RETURN_INVALID_PARAMETER : Nat := 311

/-- The response status of a good answer. -/
def GETDNS_RESPSTATUS_GOOD : Nat := 900

/-- The record type SRV. -/
def GETDNS_RRTYPE_SRV : Nat := 33

/-! ## The response tree -/

/-- Bytes of a `getdns_bindata`; `size` is the length of the list. -/
abbrev getdns_bindata := List Nat

/-- One resource record (`rr`), with the names the walkers read. -/
structure Record where
  type : Option Nat := none
  ttl : Option Nat := none
  ipv6_address : Option getdns_bindata := none
  ipv4_address : Option getdns_bindata := none
  target : Option getdns_bindata := none
  port : Option Nat := none
  priority : Option Nat := none
  weight : Option Nat := none
  deriving DecidableEq, Repr

/-- One reply of `/replies_tree`; `answer` is its `/answer` list. -/
structure Reply where
  answer : Option (List Record)
  deriving DecidableEq, Repr

/-- The response dict: `/status` and `/replies_tree`. -/
structure Response where
  status : Option Nat
  replies_tree : Option (List Reply)
  deriving DecidableEq, Repr

/-! ## Engine accessors -/

/-- Accessor `getdns_list_get_dict(list, index, &out)`. -/
def getdns_list_get_dict {α : Type} (list : Option (List α)) (index : Nat) : Except Nat α :=
  match list with
  | none => .error GETDNS_RETURN_INVALID_PARAMETER
  | some l =>
    match l[index]? with
    | none => .error GETDNS_RETURN_NO_SUCH_LIST_ITEM
    | some d => .ok d

/-- Accessor `getdns_list_get_length(list, &out)`. -/
def getdns_list_get_length {α : Type} (list : Option (List α)) : Except Nat Nat :=
  match list with
  | none => .error GETDNS_RETURN_INVALID_PARAMETER
  | some l => .ok l.length

/-- Accessors `getdns_dict_get_list`, `getdns_dict_get_int` and
`getdns_dict_get_bindata`, applied to the field the name selects. -/
def getdns_dict_get {α : Type} (field : Option α) : Except Nat α :=
  match field with
  | none => .error GETDNS_RETURN_NO_SUCH_DICT_NAME
  | some v => .ok v

/-- Accessor on a dict pointer that may be `NULL` (the response of a lookup). -/
def getdns_dict_get_opt {δ α : Type} (dict : Option δ) (name : δ → Option α) : Except Nat α :=
  match dict with
  | none => .error GETDNS_RETURN_INVALID_PARAMETER
  | some d => getdns_dict_get (name d)

/-! ## The pool, as far as a lookup sees it -/

/-- The C struct `dynamic_resolver_context`: `context` is the engine handle. -/
structure dynamic_resolver_context where
  context : Option Nat
  deriving DecidableEq, Repr

/-- The C struct `dynamic_resolver`: the free queue `contexts`, the count, and
`freeptr`, the pointer `vmod_resolver__fini` hands to `free`. -/
structure dynamic_resolver where
  n_contexts : Int
  vcl_name : Option String := none
  contexts : List dynamic_resolver_context
  freeptr : Option Nat := none
  deriving DecidableEq, Repr

/-- Modelled from the spec: `dyn_getdns_get_context` is declared in
`dyn_getdns.h` and its body is not among the sources.  "acquire() blocks the
calling thread until a context is free": the head of the free queue is lent,
and `none` stands for the caller waiting on an empty queue. -/
def dyn_getdns_get_context (r : dynamic_resolver) :
    Option (dynamic_resolver_context × dynamic_resolver) :=
  match r.contexts with
  | [] => none
  | c :: rest => some (c, { r with contexts := rest })

/-- Modelled from the spec: `dyn_getdns_rel_context` is declared in
`dyn_getdns.h` and its body is not among the sources.  "release(context)
returns exactly one previously leased context to the free queue": the context
is put at the tail of the queue of the pool it was leased from. -/
def dyn_getdns_rel_context (r : dynamic_resolver) (c : dynamic_resolver_context) :
    dynamic_resolver :=
  { r with contexts := r.contexts ++ [c] }

/-! ## Walk states -/

/-- The C struct `dyn_getdns_srv_state`. -/
structure dyn_getdns_srv_state where
  context : Option dynamic_resolver_context := none
  response : Option Response := none
  replies : Option (List Reply) := none
  answers : Option (List Record) := none
  n_replies : Nat := 0
  n_answers : Nat := 0
  reply : Nat := 0
  answer : Nat := 0
  deriving DecidableEq, Repr

/-- The C struct `dyn_getdns_addr_state`: the same fields, then `port`. -/
structure dyn_getdns_addr_state extends dyn_getdns_srv_state where
  port : Nat := 0
  deriving DecidableEq, Repr

/-- The caller's cursor token `*answerp`: `NULL` before the first pull,
`&state->answer` while iterating, the address of `getdns_last` when done, or
any other pointer. -/
inductive Token where
  | NULL
  | state_answer
  | getdns_last
  | other (p : Nat)
  deriving DecidableEq, Repr

/-! ## What is outside: libc, the engine calls, the host -/

/-- The environment of a lookup.
* `htons`: host to network byte order on 16 bits;
* `getservbyname_r service`: the return value and `servent->s_port`, an
  `int` that `state->port` takes on 16 bits (`none`: `servent` was set to
  `NULL`);
* `getdns_address_sync context node`, `getdns_service_sync context service`:
  the return code and the response pointer stored;
* `getdns_convert_dns_name_to_fqdn target`. -/
structure Env where
  htons : Nat → Nat
  getservbyname_r : String → Int × Option Nat
  getdns_address_sync : Nat → String → Nat × Option Response
  getdns_service_sync : Nat → String → Nat × Option Response
  getdns_convert_dns_name_to_fqdn : getdns_bindata → Except Nat String

/-- The libc predicate `isspace` in the C locale. -/
def isspace (c : Char) : Bool :=
  c.toNat = 32 || (9 ≤ c.toNat && c.toNat ≤ 13)

/-- Digits of `atoi`: accumulate while the next character is a digit. -/
def atoi_digits : List Char → Int → Int
  | [], acc => acc
  | c :: cs, acc =>
    if c.isDigit then atoi_digits cs (acc * 10 + ((c.toNat : Int) - 48)) else acc

/-- The libc function `atoi`: skip white space, read an optional sign, then
the leading digits; `0` when there are none.  (Values outside `int` are
undefined in C; the theorems that use `atoi` say so.) -/
def atoi (s : String) : Int :=
  match s.toList.dropWhile isspace with
  | [] => 0
  | c :: cs =>
    if c = '-' then - atoi_digits cs 0
    else if c = '+' then atoi_digits cs 0
    else atoi_digits (c :: cs) 0

/-- Conversion of an `int` to `uint16_t`. -/
def to_uint16 (i : Int) : Nat := (i % 65536).toNat

/-! ## Lookup -/

/-- How a lookup ends: an assertion failed; the caller waits for a context;
a loop ran out of fuel (never, see the totality theorems); or the function
returned `ret` with `*priv = state` and the pool as it left it. -/
inductive LookupResult (σ : Type) where
  | fatal
  | blocked
  | timeout
  | returned (ret : getdns_return_t) (priv : σ) (r : dynamic_resolver)
  deriving DecidableEq, Repr

/-- The `do ... while (state->n_answers == 0 && state->reply < state->n_replies)`
loop of both lookups (lines 139-153 and 345-359).  `none`: out of fuel. -/
def lookup_scan : Nat → dyn_getdns_srv_state → Option (getdns_return_t × dyn_getdns_srv_state)
  | 0, _ => none
  | fuel + 1, state =>
    match getdns_list_get_dict state.replies state.reply with
    | .error e => some (.code e, { state with reply := state.reply + 1 })
    | .ok reply =>
      let state := { state with reply := state.reply + 1 }
      match getdns_dict_get reply.answer with
      | .error e => some (.code e, state)
      | .ok answers =>
        let state := { state with answers := some answers, answer := 0 }
        match getdns_list_get_length state.answers with
        | .error e => some (.code e, state)
        | .ok n =>
          let state := { state with n_answers := n }
          if state.n_answers = 0 ∧ state.reply < state.n_replies then
            lookup_scan fuel state
          else
            some (GETDNS_RETURN_GOOD, state)

/-- The part both lookups share word for word, from the read of `/status` to
the label `out` (lines 118-156 and 324-362).  `none`: out of fuel. -/
def lookup_replies (state : dyn_getdns_srv_state) :
    Option (getdns_return_t × dyn_getdns_srv_state) :=
  match getdns_dict_get_opt state.response Response.status with
  | .error e => some (.code e, state)
  | .ok status =>
    if status ≠ GETDNS_RESPSTATUS_GOOD then some (.code status, state)
    else
      match getdns_dict_get_opt state.response Response.replies_tree with
      | .error e => some (.code e, state)
      | .ok replies =>
        let state := { state with replies := some replies }
        match getdns_list_get_length state.replies with
        | .error e => some (.code e, state)
        | .ok n =>
          let state := { state with n_replies := n }
          if state.n_replies = 0 then some (GETDNS_RETURN_NO_ANSWERS, state)
          else
            match lookup_scan state.n_replies state with
            | none => none
            | some (ret, state) =>
              if ret ≠ GETDNS_RETURN_GOOD then some (ret, state)
              else if state.n_answers = 0 then some (GETDNS_RETURN_NO_ANSWERS, state)
              else some (ret, state)

/-- Lines 96-106 of `getdns_lookup`: the port from the service token.
`none`: `servent` is `NULL` after a call that returned `0`, and reading
`servent->s_port` faults; `.error ret`: the `goto out` with
`GETDNS_RETURN_NO_SERVBYNAME`; `.ok port`: the value of `state->port`. -/
def lookup_port (env : Env) (service : String) : Option (Except getdns_return_t Nat) :=
  let port := to_uint16 (atoi service)
  if port ≠ 0 then
    some (.ok (env.htons port))
  else if (env.getservbyname_r service).1 ≠ 0 then
    some (.error GETDNS_RETURN_NO_SERVBYNAME)
  else
    match (env.getservbyname_r service).2 with
    | none => none
    | some s_port => some (.ok (s_port % 65536))

/-- The function `getdns_lookup` (lines 73-161). -/
def getdns_lookup (env : Env) (r : dynamic_resolver) (node service : String) :
    LookupResult dyn_getdns_addr_state :=
  let state : dyn_getdns_addr_state := {}
  match lookup_port env service with
  | none => .fatal
  | some (.error ret) => .returned ret state r
  | some (.ok port) =>
    let state := { state with port := port }
    match dyn_getdns_get_context r with
    | none => .blocked
    | some (c, r) =>
      match c.context with
      | none => .fatal
      | some context =>
        let state := { state with context := some c }
        let q := env.getdns_address_sync context node
        let state := { state with response := q.2 }
        if q.1 ≠ 0 then .returned (.code q.1) state r
        else
          match lookup_replies state.todyn_getdns_srv_state with
          | none => .timeout
          | some (ret, s) => .returned ret { state with todyn_getdns_srv_state := s } r

/-- The function `getdns_srv_lookup` (lines 294-367). -/
def getdns_srv_lookup (env : Env) (r : dynamic_resolver) (service : String) :
    LookupResult dyn_getdns_srv_state :=
  let state : dyn_getdns_srv_state := {}
  match dyn_getdns_get_context r with
  | none => .blocked
  | some (c, r) =>
    match c.context with
    | none => .fatal
    | some context =>
      let state := { state with context := some c }
      let q := env.getdns_service_sync context service
      let state := { state with response := q.2 }
      if q.1 ≠ 0 then .returned (.code q.1) state r
      else
        match lookup_replies state with
        | none => .timeout
        | some (ret, s) => .returned ret s r

/-! ## The answer walkers -/

/-- The caller's `struct res_info`, as far as `getdns_result` writes it. -/
inductive sa_family where
  | AF_INET
  | AF_INET6
  deriving DecidableEq, Repr

/-- A socket address: `sin_family`/`sin6_family`, `sin_port`/`sin6_port`
(network byte order) and the bytes of `sin_addr`/`sin6_addr`. -/
structure suckaddr where
  family : sa_family
  port : Nat
  addr : List Nat
  deriving DecidableEq, Repr

/-- The host's `VSA_Build(info->suckbuf, &sa, sizeof sa)`: for the families
`AF_INET` and `AF_INET6` with the matching structure size it copies the socket
address into the buffer and returns the buffer, never `NULL`. -/
def VSA_Build (sa : suckaddr) : Option suckaddr := some sa

/-- The C struct `res_info`: `sa` and `ttl`. -/
structure res_info where
  sa : Option suckaddr := none
  ttl : Nat := 0
  deriving DecidableEq, Repr

/-- The C struct `srv_info`. -/
structure srv_info where
  target : Option String := none
  port : Nat := 0
  priority : Nat := 0
  weight : Nat := 0
  ttl : Nat := 0
  deriving DecidableEq, Repr

/-- How a pull ends: an assertion failed; the loop ran out of fuel (never, see
the totality theorems); the function returned `NULL`; or it returned `info`.
The last two carry the caller's buffer, the state and `*answerp` as the
function left them. -/
inductive PullResult (ι σ : Type) where
  | fatal
  | timeout
  | null (info : ι) (state : σ) (answerp : Token)
  | item (info : ι) (state : σ) (answerp : Token)
  deriving DecidableEq, Repr

/-- The block "advance to next reply when out of answers" of both walkers
(lines 196-213 and 402-419).  `.error state`: one of its three `break`s was
taken. -/
def next_reply (state : dyn_getdns_srv_state) : Except dyn_getdns_srv_state dyn_getdns_srv_state :=
  if state.answer ≥ state.n_answers then
    match getdns_list_get_dict state.replies state.reply with
    | .error _ => .error { state with reply := state.reply + 1 }
    | .ok reply =>
      let state := { state with reply := state.reply + 1 }
      match getdns_dict_get reply.answer with
      | .error _ => .error state
      | .ok answers =>
        let state := { state with answers := some answers, answer := 0 }
        match getdns_list_get_length state.answers with
        | .error _ => .error state
        | .ok n => .ok { state with n_answers := n }
  else .ok state

/-- How the `do ... while` loop of a walker ends: `AZ(ret)` failed on reading a
record; out of fuel; the loop was left with `ret != 0` (a `break` of the
advance block, or the loop condition became false); or record `rr` was
selected with the fields `sel` read from it. -/
inductive WalkExit (β : Type) where
  | fatal
  | timeout
  | done (state : dyn_getdns_srv_state)
  | found (state : dyn_getdns_srv_state) (rr : Record) (fields : β)
  deriving DecidableEq, Repr

/-- The loop `do { ... } while (state->answer < state->n_answers ||
state->reply < state->n_replies)` of both walkers (lines 194-225 and 400-449).
The two loops differ in the fields they read from the record: `sel rr = none`
is the path on which the address walker falls through both failed reads and
the SRV walker takes one of its `continue`s, both reaching the loop condition;
`sel rr = some fields` leaves the loop with that record. -/
def walk_loop {β : Type} (sel : Record → Option β) : Nat → dyn_getdns_srv_state → WalkExit β
  | 0, _ => .timeout
  | fuel + 1, state =>
    match next_reply state with
    | .error state => .done state
    | .ok state =>
      match getdns_list_get_dict state.answers state.answer with
      | .error _ => .fatal
      | .ok rr =>
        let state := { state with answer := state.answer + 1 }
        match sel rr with
        | some fields => .found state rr fields
        | none =>
          if state.answer < state.n_answers ∨ state.reply < state.n_replies then
            walk_loop sel fuel state
          else
            .done state

/-- The answer list of a reply, empty when the reply has none. -/
def Reply.records (reply : Reply) : List Record := reply.answer.getD []

/-- The records from the cursor on: the rest of the current answer list, then
the answer lists of the replies not yet fetched. -/
def pending (state : dyn_getdns_srv_state) : List Record :=
  (state.answers.getD []).drop state.answer
    ++ ((state.replies.getD []).drop state.reply).flatMap Reply.records

/-- The fuel a walker passes to its loop: one more than the records from the
cursor on. -/
def walk_fuel (state : dyn_getdns_srv_state) : Nat := (pending state).length + 1

/-- Lines 218-223: read `/rdata/ipv6_address`, and `/rdata/ipv4_address` if
that fails. -/
def addr_fields (rr : Record) : Option getdns_bindata :=
  match getdns_dict_get rr.ipv6_address with
  | .ok addr => some addr
  | .error _ =>
    match getdns_dict_get rr.ipv4_address with
    | .ok addr => some addr
    | .error _ => none

/-- Lines 425-438: `type` must be readable and equal `GETDNS_RRTYPE_SRV`,
`/rdata/target` and `/rdata/port` must be readable; each failure is a
`continue`. -/
def srv_fields (rr : Record) : Option (getdns_bindata × Nat) :=
  match getdns_dict_get rr.type with
  | .error _ => none
  | .ok rrtype =>
    if rrtype ≠ GETDNS_RRTYPE_SRV then none
    else
      match getdns_dict_get rr.target with
      | .error _ => none
      | .ok target =>
        match getdns_dict_get rr.port with
        | .error _ => none
        | .ok port => some (target, port)

/-- A read `(void) getdns_dict_get_int(rr, name, &out)`: `out` keeps its old
value when the name is absent. -/
def get_int_or_keep (field : Option Nat) (old : Nat) : Nat :=
  match getdns_dict_get field with
  | .ok v => v
  | .error _ => old

/-- The function `getdns_result` (lines 165-259). -/
def getdns_result (info : res_info) (state : dyn_getdns_addr_state) (answerp : Token) :
    PullResult res_info dyn_getdns_addr_state :=
  if answerp = .getdns_last then .null info state answerp
  else if state.answer ≥ state.n_answers ∧ state.reply ≥ state.n_replies then
    .null info state .getdns_last
  else
    let answerp := if answerp = .NULL then Token.state_answer else answerp
    if answerp ≠ .state_answer then .fatal
    else
      match walk_loop addr_fields (walk_fuel state.todyn_getdns_srv_state)
          state.todyn_getdns_srv_state with
      | .fatal => .fatal
      | .timeout => .timeout
      | .done s => .null info { state with todyn_getdns_srv_state := s } .getdns_last
      | .found s rr addr =>
        let state := { state with todyn_getdns_srv_state := s }
        let info := { info with ttl := get_int_or_keep rr.ttl info.ttl }
        if addr.length = 4 then
          let info := { info with
            sa := VSA_Build { family := .AF_INET, port := state.port, addr := addr } }
          if info.sa ≠ none then .item info state answerp else .null info state answerp
        else if addr.length = 16 then
          let info := { info with
            sa := VSA_Build { family := .AF_INET6, port := state.port, addr := addr } }
          if info.sa ≠ none then .item info state answerp else .null info state answerp
        else .fatal

/-- The function `getdns_srv_result` (lines 369-453). -/
def getdns_srv_result (env : Env) (info : srv_info) (state : dyn_getdns_srv_state)
    (answerp : Token) : PullResult srv_info dyn_getdns_srv_state :=
  if info.target ≠ none then .fatal
  else
    let info : srv_info := {}
    if answerp = .getdns_last then .null info state answerp
    else if state.answer ≥ state.n_answers ∧ state.reply ≥ state.n_replies then
      .null info state .getdns_last
    else
      let answerp := if answerp = .NULL then Token.state_answer else answerp
      if answerp ≠ .state_answer then .fatal
      else
        match walk_loop srv_fields (walk_fuel state) state with
        | .fatal => .fatal
        | .timeout => .timeout
        | .done state => .null info state .getdns_last
        | .found state rr (target, port) =>
          let info := { info with port := port }
          match env.getdns_convert_dns_name_to_fqdn target with
          | .error _ => .fatal
          | .ok fqdn =>
            let info := { info with target := some fqdn }
            let info := { info with priority := get_int_or_keep rr.priority info.priority }
            let info := { info with weight := get_int_or_keep rr.weight info.weight }
            let info := { info with ttl := get_int_or_keep rr.ttl info.ttl }
            .item info state answerp

/-! ## Callers and reference behaviour -/

/-- What the caller of a pull sees. -/
inductive Pulled (ι : Type) where
  | fatal
  | timeout
  | eos
  | item (info : ι)
  deriving DecidableEq, Repr

/-- A caller that pulls `n` times from `getdns_result` with one result buffer,
handing back the token of the pull before; it stops when the process
aborts. -/
def getdns_pulls : Nat → res_info → dyn_getdns_addr_state → Token → List (Pulled res_info)
  | 0, _, _, _ => []
  | n + 1, info, state, answerp =>
    match getdns_result info state answerp with
    | .fatal => [.fatal]
    | .timeout => [.timeout]
    | .null info state answerp => .eos :: getdns_pulls n info state answerp
    | .item info state answerp => .item info :: getdns_pulls n info state answerp

/-- A caller that pulls `n` times from `getdns_srv_result`; it takes the
target of each result (`info->target = NULL` again) before the next pull. -/
def getdns_srv_pulls (env : Env) : Nat → srv_info → dyn_getdns_srv_state → Token →
    List (Pulled srv_info)
  | 0, _, _, _ => []
  | n + 1, info, state, answerp =>
    match getdns_srv_result env info state answerp with
    | .fatal => [.fatal]
    | .timeout => [.timeout]
    | .null info state answerp => .eos :: getdns_srv_pulls env n info state answerp
    | .item info state answerp =>
      .item info :: getdns_srv_pulls env n { info with target := none } state answerp

/-- A record carries an IPv6 or an IPv4 address field. -/
def Record.has_address (rr : Record) : Bool :=
  rr.ipv6_address.isSome || rr.ipv4_address.isSome

/-- The address a result is built from: the IPv6 field, else the IPv4 one. -/
def Record.address (rr : Record) : getdns_bindata :=
  match rr.ipv6_address with
  | some a => a
  | none => rr.ipv4_address.getD []

/-- Reference for `n` pulls over address records `rrs` (each carries an
address): one result per record in order, with the record's address, the port
of the lookup and the record's ttl (the buffer's ttl when it has none); an
address of a length other than 4 or 16 aborts; after the last record every
pull is an end of sequence. -/
def expected_pulls (port : Nat) : Nat → Nat → List Record → List (Pulled res_info)
  | 0, _, _ => []
  | n + 1, ttl, [] => .eos :: expected_pulls port n ttl []
  | n + 1, ttl, rr :: rest =>
    let ttl := rr.ttl.getD ttl
    if rr.address.length = 4 then
      .item { sa := some { family := .AF_INET, port := port, addr := rr.address }, ttl := ttl }
        :: expected_pulls port n ttl rest
    else if rr.address.length = 16 then
      .item { sa := some { family := .AF_INET6, port := port, addr := rr.address }, ttl := ttl }
        :: expected_pulls port n ttl rest
    else [.fatal]

/-- A record the SRV walker accepts: its type is SRV and its target and port
are readable. -/
def Record.is_srv (rr : Record) : Bool :=
  rr.type = some GETDNS_RRTYPE_SRV && rr.target.isSome && rr.port.isSome

/-- Reference for `n` pulls over accepted SRV records `rrs`: one result per
record in order, with the converted target, the record's port, and its
priority, weight and ttl (zero when absent); a target that does not convert
aborts; after the last record every pull is an end of sequence. -/
def expected_srv_pulls (env : Env) : Nat → List Record → List (Pulled srv_info)
  | 0, _ => []
  | n + 1, [] => .eos :: expected_srv_pulls env n []
  | n + 1, rr :: rest =>
    match env.getdns_convert_dns_name_to_fqdn (rr.target.getD []) with
    | .error _ => [.fatal]
    | .ok fqdn =>
      .item { target := some fqdn, port := rr.port.getD 0, priority := rr.priority.getD 0
              weight := rr.weight.getD 0, ttl := rr.ttl.getD 0 }
        :: expected_srv_pulls env n rest

/-- A reply with at least one answer. -/
def Reply.nonempty (reply : Reply) : Bool :=
  match reply.answer with
  | some (_ :: _) => true
  | _ => false

/-! ## Pool construction and teardown -/

/-- Conversion of a `VCL_INT` (64 bits) to `int`. -/
def to_int (v : Int) : Int := (v + 2147483648) % 4294967296 - 2147483648

/-- The host and the engine, as pool construction calls them.
* `ALLOC_OBJ`: whether the object was allocated (`r != NULL`);
* `REPLACE_vcl_name`: whether `r->vcl_name` is not `NULL` after `REPLACE`;
* `malloc`: the pointer `malloc` returns for the context array;
* `getdns_context_create i set_from_os`: the code of the call for slot `i`
  and the handle it stored in `rctx[i].context`;
* `pthread_mutex_init`, `pthread_cond_init`: their return values. -/
structure InitEnv where
  ALLOC_OBJ : Bool
  REPLACE_vcl_name : Bool
  malloc : Option Nat
  getdns_context_create : Nat → Bool → Nat × Option Nat
  pthread_mutex_init : Nat
  pthread_cond_init : Nat

/-- What pool construction and teardown do to the outside, in order. -/
inductive PoolEvent where
  | VRT_fail (msg : String)
  | getdns_context_create (slot : Nat)
  | getdns_context_destroy (context : Option Nat)
  | free (p : Option Nat)
  | free_vcl_name
  | FREE_OBJ
  deriving DecidableEq, Repr

/-- How pool construction or teardown ends: an assertion failed, or it
returned with `*rp` and the events as it left them. -/
inductive PoolResult where
  | fatal
  | returned (rp : Option dynamic_resolver) (events : List PoolEvent)
  deriving DecidableEq, Repr

/-- The loop `for (i = 0; i < parallel; i++)` of `vmod_resolver__init` (lines
95-105), with `remaining = parallel - i` iterations to go: the value of `i`
when the loop is left, the queue and the events. -/
def create_contexts (env : InitEnv) (set_from_os : Bool) :
    Nat → Nat → List dynamic_resolver_context → List PoolEvent →
      Nat × List dynamic_resolver_context × List PoolEvent
  | 0, i, contexts, events => (i, contexts, events)
  | remaining + 1, i, contexts, events =>
    let created := env.getdns_context_create i set_from_os
    let events := events ++ [.getdns_context_create i]
    if created.1 ≠ 0 then
      (i, contexts, events ++ [.VRT_fail "dynamic.resolver context init failed"])
    else
      create_contexts env set_from_os remaining (i + 1) (contexts ++ [⟨created.2⟩]) events

/-- The loop `while (i < parallel && --i >= 0) getdns_context_destroy(rctx[i].context)`
(lines 122-123), entered with `i < parallel`; slot `j` of the array holds
`rctx[j]`. -/
def destroy_contexts (rctx : List dynamic_resolver_context) : Nat → List PoolEvent
  | 0 => []
  | i + 1 => .getdns_context_destroy ((rctx[i]?).bind (·.context)) :: destroy_contexts rctx i

/-- The value of `var` when `VSTAILQ_FOREACH(var, head, field)` is left: the
macro is `for (var = first; var != NULL; var = next(var))`, over a queue whose
element `j` is at address `base + j`; the body of the loop in
`vmod_resolver__init`, `CHECK_OBJ_NOTNULL`, passes on every element, whose
magic `INIT_OBJ` has set. -/
def VSTAILQ_FOREACH_var (base : Nat) : Nat → List dynamic_resolver_context → Option Nat
  | _, [] => none
  | j, _ :: rest => VSTAILQ_FOREACH_var base (j + 1) rest

/-- The function `vmod_resolver__init` (lines 58-129); `rp` is `*rp` on
entry. -/
def vmod_resolver__init (env : InitEnv) (rp : Option dynamic_resolver) (vcl_name : String)
    (set_from_os : Bool) (parallel : Int) : PoolResult :=
  if rp ≠ none then .fatal
  else if parallel < 1 then
    .returned rp [.VRT_fail "dynamic.resolver parallel must be 1 or higher"]
  else if env.ALLOC_OBJ = false then
    .returned rp [.VRT_fail "dynamic.resolver obj alloc failed"]
  else if env.REPLACE_vcl_name = false then
    .returned rp [.VRT_fail "dynamic.resolver dup vcl_name failed", .FREE_OBJ]
  else
    match env.malloc with
    | none =>
      .returned rp [.VRT_fail "dynamic.resolver alloc rctx failed", .free_vcl_name, .FREE_OBJ]
    | some base =>
      let rctx : Option Nat := some base
      let loop := create_contexts env set_from_os parallel.toNat 0 [] []
      if (loop.1 : Int) < parallel then
        .returned rp
          (loop.2.2 ++ destroy_contexts loop.2.1 loop.1 ++ [.free rctx, .free_vcl_name, .FREE_OBJ])
      else if env.pthread_mutex_init ≠ 0 then .fatal
      else if env.pthread_cond_init ≠ 0 then .fatal
      else
        let rctx := VSTAILQ_FOREACH_var base 0 loop.2.1
        .returned
          (some
            { n_contexts := to_int parallel, vcl_name := some vcl_name
              contexts := loop.2.1, freeptr := rctx })
          loop.2.2

/-- The function `vmod_resolver__fini` (lines 131-158); `rp` is `*rp` on
entry.  The destroy calls of the condition variable and the mutex succeed. -/
def vmod_resolver__fini (rp : Option dynamic_resolver) : PoolResult :=
  match rp with
  | none => .returned none []
  | some r =>
    let events := r.contexts.map fun rctx => PoolEvent.getdns_context_destroy rctx.context
    if to_int r.contexts.length ≠ r.n_contexts then .fatal
    else .returned none (events ++ [.free r.freeptr, .free_vcl_name, .FREE_OBJ])

/-! ## Finalize -/

/-- How a finalize ends: an assertion failed; or it returned with `*priv` as
it left it, the responses it handed to `getdns_dict_destroy` in order, and the
pool after its call of `dyn_getdns_rel_context`. -/
inductive FiniResult (σ : Type) where
  | fatal
  | done (priv : Option σ) (destroyed : List Response) (r : dynamic_resolver)
  deriving DecidableEq, Repr

/-- The function `getdns_fini` (lines 261-277), on the pool `r` the context of
the state was leased from.  `priv = none`: `*priv` is `NULL`. -/
def getdns_fini (r : dynamic_resolver) (priv : Option dyn_getdns_addr_state) :
    FiniResult dyn_getdns_addr_state :=
  match priv with
  | none => .fatal
  | some state =>
    match state.context with
    | none => .fatal
    | some context =>
      match state.response with
      | none => .fatal
      | some response => .done none [response] (dyn_getdns_rel_context r context)

/-- The function `getdns_srv_fini` (lines 455-471). -/
def getdns_srv_fini (r : dynamic_resolver) (priv : Option dyn_getdns_srv_state) :
    FiniResult dyn_getdns_srv_state :=
  match priv with
  | none => .fatal
  | some state =>
    match state.context with
    | none => .fatal
    | some context =>
      match state.response with
      | none => .fatal
      | some response => .done none [response] (dyn_getdns_rel_context r context)

/-- The state after a caller has made the pulls of `getdns_result` with the
buffers and tokens of `args`, one after the other; `none` when one of them did
not return. -/
def getdns_after_pulls : List (res_info × Token) → dyn_getdns_addr_state →
    Option dyn_getdns_addr_state
  | [], state => some state
  | (info, answerp) :: rest, state =>
    match getdns_result info state answerp with
    | .null _ state _ => getdns_after_pulls rest state
    | .item _ state _ => getdns_after_pulls rest state
    | _ => none

/-- The state after the pulls of `getdns_srv_result` with the buffers and
tokens of `args`; `none` when one of them did not return. -/
def getdns_srv_after_pulls (env : Env) : List (srv_info × Token) → dyn_getdns_srv_state →
    Option dyn_getdns_srv_state
  | [], state => some state
  | (info, answerp) :: rest, state =>
    match getdns_srv_result env info state answerp with
    | .null _ state _ => getdns_srv_after_pulls env rest state
    | .item _ state _ => getdns_srv_after_pulls env rest state
    | _ => none

/-! ## Concrete inputs -/

/-- Byte swap: `htons` of a little-endian host. -/
def ex_htons (x : Nat) : Nat := (x % 256) * 256 + x / 256

/-- An environment whose engine answers every query with `resp`, and whose
service table knows `http` only. -/
def ex_env (resp : Response) : Env where
  htons := ex_htons
  getservbyname_r := fun s => if s = "http" then (0, some (ex_htons 80)) else (2, none)
  getdns_address_sync := fun _ _ => (0, some resp)
  getdns_service_sync := fun _ _ => (0, some resp)
  getdns_convert_dns_name_to_fqdn := fun b => if b = [] then .error 1 else .ok "srv.example."

/-- A pool with one free context. -/
def ex_pool : dynamic_resolver := { n_contexts := 1, contexts := [⟨some 1⟩] }

/-- The same pool with its context lent. -/
def ex_pool_lent : dynamic_resolver := { n_contexts := 1, contexts := [] }

/-- Address record `A1`. -/
def ex_A1 : Record := { type := some 1, ttl := some 300, ipv4_address := some [192, 0, 2, 1] }

/-- Address record `A2`, with an IPv6 address. -/
def ex_A2 : Record :=
  { type := some 28, ttl := some 60
    ipv6_address := some [32, 1, 13, 184, 0, 0, 0, 0, 0, 0, 0, 0, 0, 0, 0, 2] }

/-- Address record `A3`. -/
def ex_A3 : Record := { type := some 1, ttl := some 120, ipv4_address := some [192, 0, 2, 3] }

/-- A record that is neither an address nor an SRV record. -/
def ex_CNAME : Record := { type := some 5, ttl := some 30 }

/-- The response of the spec's example: replies `[[], [A1, A2], [A3]]`. -/
def ex_response : Response :=
  { status := some 900
    replies_tree := some [⟨some []⟩, ⟨some [ex_A1, ex_A2]⟩, ⟨some [ex_A3]⟩] }

/-- The state `getdns_lookup` leaves for `ex_response` and service `8080`. -/
def ex_state : dyn_getdns_addr_state :=
  { context := some ⟨some 1⟩, response := some ex_response
    replies := ex_response.replies_tree, answers := some [ex_A1, ex_A2]
    n_replies := 3, n_answers := 2, reply := 2, answer := 0
    port := ex_htons 8080 }

/-- A well-formed SRV record. -/
def ex_SRV : Record :=
  { type := some 33, ttl := some 60, target := some [3, 115, 105, 112, 0]
    port := some 5060, priority := some 10, weight := some 5 }

/-- An SRV record without port. -/
def ex_SRV_no_port : Record := { type := some 33, ttl := some 60, target := some [1, 98, 0] }

/-- A response with an empty reply after a non-empty one: `[[A1], [], [A3]]`. -/
def ex_response_gap : Response :=
  { status := some 900
    replies_tree := some [⟨some [ex_A1]⟩, ⟨some []⟩, ⟨some [ex_A3]⟩] }

/-- The state `getdns_lookup` leaves for `ex_response_gap` and service `8080`. -/
def ex_state_gap : dyn_getdns_addr_state :=
  { context := some ⟨some 1⟩, response := some ex_response_gap
    replies := ex_response_gap.replies_tree, answers := some [ex_A1]
    n_replies := 3, n_answers := 1, reply := 1, answer := 0
    port := ex_htons 8080 }

/-- The same shape with SRV records: `[[SRV], [], [SRV]]`. -/
def ex_srv_response_gap : Response :=
  { status := some 900
    replies_tree := some [⟨some [ex_SRV]⟩, ⟨some []⟩, ⟨some [ex_SRV]⟩] }

/-- The state `getdns_srv_lookup` leaves for `ex_srv_response_gap`. -/
def ex_srv_state_gap : dyn_getdns_srv_state :=
  { context := some ⟨some 1⟩, response := some ex_srv_response_gap
    replies := ex_srv_response_gap.replies_tree, answers := some [ex_SRV]
    n_replies := 3, n_answers := 1, reply := 1, answer := 0 }

/-- The cursor of `ex_state` after its three results. -/
def ex_state_done : dyn_getdns_addr_state :=
  { ex_state with answers := some [ex_A3], n_answers := 1, reply := 3, answer := 1 }

/-- The response of the spec's SRV example: one reply
`[non-SRV, well-formed SRV, SRV missing port]`. -/
def ex_srv_response : Response :=
  { status := some 900
    replies_tree := some [⟨some [ex_CNAME, ex_SRV, ex_SRV_no_port]⟩] }

/-- The state `getdns_srv_lookup` leaves for `ex_srv_response`. -/
def ex_srv_state : dyn_getdns_srv_state :=
  { context := some ⟨some 1⟩, response := some ex_srv_response
    replies := ex_srv_response.replies_tree
    answers := some [ex_CNAME, ex_SRV, ex_SRV_no_port]
    n_replies := 1, n_answers := 3, reply := 1, answer := 0 }

/-- The cursor of `ex_srv_state` after all its records. -/
def ex_srv_state_done : dyn_getdns_srv_state := { ex_srv_state with answer := 3 }

/-- A good response whose replies are all empty: `[[], []]`. -/
def ex_response_empty : Response :=
  { status := some 900, replies_tree := some [⟨some []⟩, ⟨some []⟩] }

/-- A response with status `GETDNS_RESPSTATUS_NO_NAME`. -/
def ex_response_no_name : Response :=
  { status := some 901, replies_tree := some [⟨some [ex_A1]⟩] }

/-- An address record without ttl field. -/
def ex_A_no_ttl : Record := { type := some 1, ipv4_address := some [192, 0, 2, 9] }

/-- A cursor on `ex_A_no_ttl`, after the result for `ex_A1`. -/
def ex_state_no_ttl : dyn_getdns_addr_state :=
  { context := some ⟨some 1⟩
    replies := some [⟨some [ex_A1, ex_A_no_ttl]⟩], answers := some [ex_A1, ex_A_no_ttl]
    n_replies := 1, n_answers := 2, reply := 1, answer := 1
    port := ex_htons 8080 }

/-- An SRV record with target and port only. -/
def ex_SRV_bare : Record := { type := some 33, target := some [1, 99, 0], port := some 443 }

/-- A cursor before `[ex_SRV_no_port, ex_SRV_bare]`. -/
def ex_srv_state_bare : dyn_getdns_srv_state :=
  { context := some ⟨some 1⟩
    replies := some [⟨some [ex_SRV_no_port, ex_SRV_bare]⟩]
    answers := some [ex_SRV_no_port, ex_SRV_bare]
    n_replies := 1, n_answers := 2, reply := 1, answer := 0 }

/-- A record with an IPv6 and an IPv4 address field. -/
def ex_A_both : Record :=
  { type := some 28, ttl := some 60
    ipv6_address := some [32, 1, 13, 184, 0, 0, 0, 0, 0, 0, 0, 0, 0, 0, 0, 7]
    ipv4_address := some [192, 0, 2, 7] }

/-- A cursor on `ex_A_both`. -/
def ex_state_both : dyn_getdns_addr_state :=
  { context := some ⟨some 1⟩
    replies := some [⟨some [ex_A_both]⟩], answers := some [ex_A_both]
    n_replies := 1, n_answers := 1, reply := 1, answer := 0
    port := ex_htons 8080 }

/-- The cursor of `ex_state` after the results for `A1` and `A2`. -/
def ex_state_mid : dyn_getdns_addr_state := { ex_state with answer := 2 }

/-- The cursor of `ex_state` after the result for `A3`. -/
def ex_state_last : dyn_getdns_addr_state :=
  { ex_state with answers := some [ex_A3], n_answers := 1, reply := 3, answer := 1 }

/-- An environment whose engine calls fail with code 1 and no response. -/
def ex_env_failing : Env :=
  { ex_env ex_response with
    getdns_address_sync := fun _ _ => (1, none)
    getdns_service_sync := fun _ _ => (1, none) }

/-- The state `getdns_lookup` leaves for `ex_response_empty` and service `8080`. -/
def ex_state_empty : dyn_getdns_addr_state :=
  { context := some ⟨some 1⟩, response := some ex_response_empty
    replies := ex_response_empty.replies_tree, answers := some []
    n_replies := 2, n_answers := 0, reply := 2, answer := 0
    port := ex_htons 8080 }

/-- A host where every allocation succeeds and context creation succeeds
except at slot `fail_at`; slot `i` gets the handle `100 + i`. -/
def ex_init_env (fail_at : Option Nat) : InitEnv where
  ALLOC_OBJ := true
  REPLACE_vcl_name := true
  malloc := some 4096
  getdns_context_create := fun i _ => if fail_at = some i then (1, none) else (0, some (100 + i))
  pthread_mutex_init := 0
  pthread_cond_init := 0

/-- The pool `vmod_resolver__init` hands out for `parallel = 3`. -/
def ex_pool3 : dynamic_resolver :=
  { n_contexts := 3, vcl_name := some "r1"
    contexts := [⟨some 100⟩, ⟨some 101⟩, ⟨some 102⟩], freeptr := none }

/-! ## Predicates of the claims -/

/-- A service token that parses as an integer, in the words of the spec: a
non-empty string of decimal digits. -/
def parses_as_integer (s : String) : Bool :=
  !s.toList.isEmpty && s.toList.all Char.isDigit

/-- The cursor is on the first answer of the first reply that has one: reply
`k` of the reply list holds the non-empty answer list `y :: answers`, every
reply before it is empty, the state holds that list with its length, answer
index `0` and reply index `k + 1`; the advance block of a pull leaves the
state as it is and the read of the pull yields `y`. -/
def first_answer_cursor (state : dyn_getdns_srv_state) : Prop :=
  ∃ replies k y answers,
    state.replies = some replies ∧ state.n_replies = replies.length ∧
    replies[k]? = some ⟨some (y :: answers)⟩ ∧ (∀ i < k, replies[i]? = some ⟨some []⟩) ∧
    state.answers = some (y :: answers) ∧ state.n_answers = (y :: answers).length ∧
    state.answer = 0 ∧ state.reply = k + 1 ∧
    next_reply state = .ok state ∧
    getdns_list_get_dict state.answers state.answer = .ok y

/-- The checks of a lookup in their order, on the pair `q` (code, response)
the engine call produced and the result `res` of the lookup: (1) a code other
than `0` is returned as it is; (2) a status other than
`GETDNS_RESPSTATUS_GOOD` is returned as the code; (3) zero replies and (4)
only empty replies give `GETDNS_RETURN_NO_ANSWERS`; (5) success implies that
all four passed, for a response status that is not the number `0` (the
engine's statuses are 900 and up; `0` assigned to `ret` would read as
success). -/
def checks_in_order {σ : Type} (q : Nat × Option Response) (res : LookupResult σ)
    (r1 : dynamic_resolver) : Prop :=
  (q.1 ≠ 0 → ∃ state, res = .returned (.code q.1) state r1) ∧
  (q.1 = 0 → ∀ resp status, q.2 = some resp → resp.status = some status →
    status ≠ GETDNS_RESPSTATUS_GOOD → ∃ state, res = .returned (.code status) state r1) ∧
  (q.1 = 0 → ∀ resp, q.2 = some resp → resp.status = some GETDNS_RESPSTATUS_GOOD →
    resp.replies_tree = some [] → ∃ state, res = .returned GETDNS_RETURN_NO_ANSWERS state r1) ∧
  (q.1 = 0 → ∀ resp replies, q.2 = some resp → resp.status = some GETDNS_RESPSTATUS_GOOD →
    resp.replies_tree = some replies → replies ≠ [] → (∀ x ∈ replies, x.answer = some []) →
    ∃ state, res = .returned GETDNS_RETURN_NO_ANSWERS state r1) ∧
  ((∃ state, res = .returned GETDNS_RETURN_GOOD state r1) →
    q.2.bind Response.status ≠ some 0 →
    q.1 = 0 ∧ ∃ resp replies, q.2 = some resp ∧ resp.status = some GETDNS_RESPSTATUS_GOOD ∧
      resp.replies_tree = some replies ∧ replies ≠ [] ∧ ∃ x ∈ replies, x.nonempty = true)

/-- The results among what a caller saw. -/
def results {ι : Type} (pulled : List (Pulled ι)) : List ι :=
  pulled.filterMap fun p =>
    match p with
    | .item info => some info
    | _ => none

/-- The cursor of `b` is at or after the cursor of `a`, in the order of the
walk: by reply index, then by answer index. -/
def cursor_le (a b : dyn_getdns_srv_state) : Prop :=
  a.reply < b.reply ∨ (a.reply = b.reply ∧ a.answer ≤ b.answer)

/-- The cursor of `b` is after the cursor of `a`. -/
def cursor_lt (a b : dyn_getdns_srv_state) : Prop :=
  a.reply < b.reply ∨ (a.reply = b.reply ∧ a.answer < b.answer)

instance cursor_le_decidable (a b : dyn_getdns_srv_state) : Decidable (cursor_le a b) := by
  unfold cursor_le; infer_instance

instance cursor_lt_decidable (a b : dyn_getdns_srv_state) : Decidable (cursor_lt a b) := by
  unfold cursor_lt; infer_instance

/-- State `b` holds the context, the response and the reply list of `a`. -/
def same_lease (a b : dyn_getdns_srv_state) : Prop :=
  b.context = a.context ∧ b.response = a.response ∧ b.replies = a.replies ∧
    b.n_replies = a.n_replies

/-- The cursor of `state` is inside a well-formed walk over `replies`, with
`answers` its current answer list: the lengths are those of the lists, the
indices are within them, and every reply not yet fetched has a non-empty
answer list. -/
structure Positioned (state : dyn_getdns_srv_state) (replies : List Reply)
    (answers : List Record) : Prop where
  replies_eq : state.replies = some replies
  n_replies_eq : state.n_replies = replies.length
  answers_eq : state.answers = some answers
  n_answers_eq : state.n_answers = answers.length
  reply_le : state.reply ≤ replies.length
  answer_le : state.answer ≤ answers.length
  rest_nonempty : ∀ x ∈ replies.drop state.reply, ∃ l, x.answer = some l ∧ l ≠ []

/-! ## Lemmas on the walker loop and the lookup scan -/

theorem pending_of_positioned {state : dyn_getdns_srv_state} {replies : List Reply}
    {answers : List Record} (h : Positioned state replies answers) :
    pending state = answers.drop state.answer
      ++ (replies.drop state.reply).flatMap Reply.records := by
  simp [pending, h.replies_eq, h.answers_eq]

theorem flatMap_records_eq_nil {l : List Reply}
    (h : ∀ x ∈ l, ∃ a, x.answer = some a ∧ a ≠ []) :
    l.flatMap Reply.records = [] ↔ l = [] := by
  constructor
  · intro hnil
    cases l with
    | nil => rfl
    | cons x xs =>
      obtain ⟨a, ha, hne⟩ := h x (by simp)
      simp [List.flatMap_cons, Reply.records, ha, hne] at hnil
  · rintro rfl; rfl

theorem pending_eq_nil_iff {state : dyn_getdns_srv_state} {replies : List Reply}
    {answers : List Record} (h : Positioned state replies answers) :
    pending state = [] ↔ (state.answer ≥ state.n_answers ∧ state.reply ≥ state.n_replies) := by
  rw [pending_of_positioned h, List.append_eq_nil, flatMap_records_eq_nil h.rest_nonempty,
    List.drop_eq_nil_iff, List.drop_eq_nil_iff, h.n_answers_eq, h.n_replies_eq]

theorem walk_loop_step {β : Type} (sel : Record → Option β)
    {state : dyn_getdns_srv_state} {replies : List Reply} {answers : List Record}
    {x : Record} {rest : List Record}
    (h : Positioned state replies answers) (hp : pending state = x :: rest) :
    ∃ state1 answers1, Positioned state1 replies answers1 ∧ pending state1 = rest ∧
      state1.context = state.context ∧ state1.response = state.response ∧
      ∀ fuel, walk_loop sel (fuel + 1) state =
        match sel x with
        | some fields => .found state1 x fields
        | none => if rest = [] then .done state1 else walk_loop sel fuel state1 := by
  rw [pending_of_positioned h] at hp
  by_cases hj : state.answer < answers.length
  · -- the current answer list still has a record
    rw [List.drop_eq_getElem_cons hj, List.cons_append] at hp
    obtain ⟨hx, hrest⟩ := List.cons.inj hp
    have h1 : Positioned { state with answer := state.answer + 1 } replies answers :=
      { h with answer_le := hj }
    refine ⟨{ state with answer := state.answer + 1 }, answers, h1, ?_, rfl, rfl, ?_⟩
    · rw [pending_of_positioned h1]; exact hrest
    · intro fuel
      have hnil := pending_eq_nil_iff h1
      rw [pending_of_positioned h1] at hnil
      have hnext : next_reply state = .ok state := by
        simp [next_reply, h.n_answers_eq, hj]
      have hget : getdns_list_get_dict state.answers state.answer = .ok x := by
        simp [getdns_list_get_dict, h.answers_eq, List.getElem?_eq_getElem hj, hx]
      rw [walk_loop, hnext]
      simp only [hget]
      cases sel x with
      | some f => rfl
      | none =>
        simp only
        by_cases hr : rest = []
        · have := hnil.mp (by rw [← hr]; exact hrest); simp only at this
          rw [if_neg (by omega), if_pos hr]
        · have : ¬ (state.answer + 1 ≥ state.n_answers ∧ state.reply ≥ state.n_replies) := by
            intro hc; exact hr (by rw [← hrest]; exact hnil.mpr hc)
          rw [if_pos (by omega), if_neg hr]
  · -- the next reply is fetched
    have hj' : state.answer = answers.length := le_antisymm h.answer_le (not_lt.mp hj)
    rw [List.drop_eq_nil_of_le (not_lt.mp hj), List.nil_append] at hp
    have hk : state.reply < replies.length := by
      by_contra hk
      rw [List.drop_eq_nil_of_le (not_lt.mp hk)] at hp
      simp at hp
    rw [List.drop_eq_getElem_cons hk, List.flatMap_cons] at hp
    obtain ⟨l, hl, hne⟩ := h.rest_nonempty replies[state.reply]
      (by rw [List.drop_eq_getElem_cons hk]; exact List.mem_cons_self _ _)
    obtain ⟨y, l', rfl⟩ := List.exists_cons_of_ne_nil hne
    simp only [Reply.records, hl, Option.getD_some, List.cons_append] at hp
    obtain ⟨hx, hrest⟩ := List.cons.inj hp
    subst hx
    have hdrop : ∀ z ∈ List.drop (state.reply + 1) replies, ∃ l, z.answer = some l ∧ l ≠ [] := by
      intro z hz
      exact h.rest_nonempty z
        (by rw [List.drop_eq_getElem_cons hk]; exact List.mem_cons_of_mem _ hz)
    have h1 : Positioned
        { state with
          reply := state.reply + 1, answers := some (y :: l')
          answer := 1, n_answers := (y :: l').length } replies (y :: l') :=
      { replies_eq := h.replies_eq, n_replies_eq := h.n_replies_eq, answers_eq := rfl,
        n_answers_eq := rfl, reply_le := hk, answer_le := by simp, rest_nonempty := hdrop }
    refine ⟨_, _, h1, ?_, rfl, rfl, ?_⟩
    · rw [pending_of_positioned h1]; simpa [Reply.records] using hrest
    · intro fuel
      have hnil := pending_eq_nil_iff h1
      have hp1 : pending
          { state with
            reply := state.reply + 1, answers := some (y :: l')
            answer := 1, n_answers := (y :: l').length } = rest := by
        rw [pending_of_positioned h1]; simpa [Reply.records] using hrest
      rw [hp1] at hnil
      have hnext : next_reply state = .ok
          { state with
            reply := state.reply + 1, answers := some (y :: l')
            answer := 0, n_answers := (y :: l').length } := by
        simp [next_reply, h.n_answers_eq, hj', getdns_list_get_dict, h.replies_eq,
          List.getElem?_eq_getElem hk, getdns_dict_get, hl, getdns_list_get_length]
      rw [walk_loop, hnext]
      simp only [getdns_list_get_dict, List.getElem?_cons_zero]
      cases sel y with
      | some f => rfl
      | none =>
        simp only
        by_cases hr : rest = []
        · have := hnil.mp hr; simp only at this
          rw [if_neg (by simp only [List.length_cons] at this ⊢; omega), if_pos hr]
        · have : ¬ ((1:Nat) ≥ (y :: l').length ∧ state.reply + 1 ≥ state.n_replies) := by
            intro hc; exact hr (hnil.mpr hc)
          rw [if_pos (by simp only [List.length_cons] at this ⊢; omega), if_neg hr]

theorem walk_loop_none {β : Type} (sel : Record → Option β) {replies : List Reply} :
    ∀ (L : List Record) (state : dyn_getdns_srv_state) (answers : List Record) (fuel : Nat),
      Positioned state replies answers → pending state = L → L ≠ [] → L.length ≤ fuel →
      (∀ y ∈ L, sel y = none) →
      ∃ state1 answers1, walk_loop sel fuel state = .done state1 ∧
        Positioned state1 replies answers1 ∧ pending state1 = [] ∧
        state1.context = state.context ∧ state1.response = state.response := by
  intro L
  induction L with
  | nil => intro _ _ _ _ _ hne; exact absurd rfl hne
  | cons x rest ih =>
    intro state answers fuel h hp _ hfuel hsel
    obtain ⟨state1, answers1, h1, hp1, hc, hr, hstep⟩ := walk_loop_step sel h hp
    cases fuel with
    | zero => simp at hfuel
    | succ fuel =>
      rw [hstep fuel, hsel x (by simp)]
      simp only
      by_cases hrest : rest = []
      · rw [if_pos hrest]
        exact ⟨state1, answers1, rfl, h1, by rw [hp1, hrest], hc, hr⟩
      · rw [if_neg hrest]
        obtain ⟨state2, answers2, hloop, h2, hp2, hc2, hr2⟩ :=
          ih state1 answers1 fuel h1 hp1 hrest (by simpa using hfuel)
            (fun y hy => hsel y (List.mem_cons_of_mem _ hy))
        exact ⟨state2, answers2, hloop, h2, hp2, hc2.trans hc, hr2.trans hr⟩

theorem walk_loop_some {β : Type} (sel : Record → Option β) {replies : List Reply}
    {x : Record} {fields : β} {rest : List Record} (hx : sel x = some fields) :
    ∀ (pre : List Record) (state : dyn_getdns_srv_state) (answers : List Record) (fuel : Nat),
      Positioned state replies answers → pending state = pre ++ x :: rest →
      (pre ++ x :: rest).length ≤ fuel → (∀ y ∈ pre, sel y = none) →
      ∃ state1 answers1, walk_loop sel fuel state = .found state1 x fields ∧
        Positioned state1 replies answers1 ∧ pending state1 = rest ∧
        state1.context = state.context ∧ state1.response = state.response := by
  intro pre
  induction pre with
  | nil =>
    intro state answers fuel h hp hfuel _
    obtain ⟨state1, answers1, h1, hp1, hc, hr, hstep⟩ := walk_loop_step sel h hp
    cases fuel with
    | zero => simp at hfuel
    | succ fuel =>
      rw [hstep fuel, hx]
      exact ⟨state1, answers1, rfl, h1, hp1, hc, hr⟩
  | cons p pre ih =>
    intro state answers fuel h hp hfuel hsel
    obtain ⟨state1, answers1, h1, hp1, hc, hr, hstep⟩ := walk_loop_step sel h hp
    cases fuel with
    | zero => simp at hfuel
    | succ fuel =>
      rw [hstep fuel, hsel p (by simp)]
      simp only
      rw [if_neg (by simp)]
      obtain ⟨state2, answers2, hloop, h2, hp2, hc2, hr2⟩ :=
        ih state1 answers1 fuel h1 hp1 (by simpa using hfuel)
          (fun y hy => hsel y (List.mem_cons_of_mem _ hy))
      exact ⟨state2, answers2, hloop, h2, hp2, hc2.trans hc, hr2.trans hr⟩

/-- Either no record of a list is selected, or the list splits at the first
selected one. -/
theorem first_selected {β : Type} (sel : Record → Option β) (L : List Record) :
    (∀ y ∈ L, sel y = none) ∨
      ∃ pre x fields rest, L = pre ++ x :: rest ∧ (∀ y ∈ pre, sel y = none) ∧
        sel x = some fields := by
  induction L with
  | nil => left; simp
  | cons a L ih =>
    cases ha : sel a with
    | some f => right; exact ⟨[], a, f, L, rfl, by simp, ha⟩
    | none =>
      rcases ih with h | ⟨pre, x, f, rest, hL, hpre, hx⟩
      · left; intro y hy
        rcases List.mem_cons.mp hy with rfl | hy
        · exact ha
        · exact h y hy
      · right
        refine ⟨a :: pre, x, f, rest, by rw [hL]; rfl, ?_, hx⟩
        intro y hy
        rcases List.mem_cons.mp hy with rfl | hy
        · exact ha
        · exact hpre y hy

theorem addr_fields_eq_none {rr : Record} : addr_fields rr = none ↔ rr.has_address = false := by
  cases h6 : rr.ipv6_address <;> cases h4 : rr.ipv4_address <;>
    simp [addr_fields, getdns_dict_get, Record.has_address, h6, h4]

theorem addr_fields_eq_some {rr : Record} {a : getdns_bindata} (h : addr_fields rr = some a) :
    rr.has_address = true ∧ rr.address = a := by
  cases h6 : rr.ipv6_address <;> cases h4 : rr.ipv4_address <;>
    simp_all [addr_fields, getdns_dict_get, Record.has_address, Record.address]

theorem get_int_or_keep_eq (field : Option Nat) (old : Nat) :
    get_int_or_keep field old = field.getD old := by
  cases field <;> rfl

theorem filter_none_of_unselected {L : List Record} (h : ∀ y ∈ L, addr_fields y = none) :
    L.filter Record.has_address = [] := by
  rw [List.filter_eq_nil_iff]
  intro y hy
  simp [addr_fields_eq_none.mp (h y hy)]

theorem filter_split_at_selected {pre rest : List Record} {x : Record} {a : getdns_bindata}
    (hpre : ∀ y ∈ pre, addr_fields y = none) (hx : addr_fields x = some a) :
    (pre ++ x :: rest).filter Record.has_address = x :: rest.filter Record.has_address := by
  rw [List.filter_append, filter_none_of_unselected hpre, List.nil_append,
    List.filter_cons_of_pos (addr_fields_eq_some hx).1]

/-- One pull of `getdns_result` on a positioned cursor, by the address records
still pending. -/
theorem getdns_result_positioned {replies : List Reply} {answers : List Record}
    (info : res_info) (state : dyn_getdns_addr_state) (answerp : Token)
    (h : Positioned state.todyn_getdns_srv_state replies answers)
    (htok : answerp = .NULL ∨ answerp = .state_answer) :
    ((pending state.todyn_getdns_srv_state).filter Record.has_address = [] →
        ∃ state1, getdns_result info state answerp = .null info state1 .getdns_last) ∧
    (∀ x more, (pending state.todyn_getdns_srv_state).filter Record.has_address = x :: more →
        ∃ state1 answers1, Positioned state1.todyn_getdns_srv_state replies answers1 ∧
          (pending state1.todyn_getdns_srv_state).filter Record.has_address = more ∧
          state1.port = state.port ∧ state1.context = state.context ∧
          state1.response = state.response ∧
          getdns_result info state answerp =
            if x.address.length = 4 then
              .item { sa := some { family := .AF_INET, port := state.port, addr := x.address },
                      ttl := x.ttl.getD info.ttl } state1 .state_answer
            else if x.address.length = 16 then
              .item { sa := some { family := .AF_INET6, port := state.port, addr := x.address },
                      ttl := x.ttl.getD info.ttl } state1 .state_answer
            else .fatal) := by
  have hne : answerp ≠ .getdns_last := by rcases htok with rfl | rfl <;> simp
  have htok' : (if answerp = .NULL then Token.state_answer else answerp) = .state_answer := by
    rcases htok with rfl | rfl <;> simp
  by_cases hnil : pending state.todyn_getdns_srv_state = []
  · have hpre := (pending_eq_nil_iff h).mp hnil
    constructor
    · intro _
      exact ⟨state, by simp [getdns_result, hne, hpre]⟩
    · intro x more hf
      rw [hnil] at hf; simp at hf
  · have hpre : ¬ (state.answer ≥ state.n_answers ∧ state.reply ≥ state.n_replies) :=
      fun hc => hnil ((pending_eq_nil_iff h).mpr hc)
    have hfuel : (pending state.todyn_getdns_srv_state).length
        ≤ walk_fuel state.todyn_getdns_srv_state := by simp [walk_fuel]
    rcases first_selected addr_fields (pending state.todyn_getdns_srv_state) with
      hall | ⟨pre, x, a, rest, hL, hpre', hx⟩
    · obtain ⟨s1, a1, hloop, _, _, _, _⟩ :=
        walk_loop_none addr_fields _ _ _ (walk_fuel state.todyn_getdns_srv_state) h rfl hnil
          hfuel hall
      constructor
      · intro _
        refine ⟨{ state with todyn_getdns_srv_state := s1 }, ?_⟩
        simp only [getdns_result, if_neg hne, if_neg hpre, htok', hloop]
        simp
      · intro y more hf
        rw [filter_none_of_unselected hall] at hf; simp at hf
    · obtain ⟨s1, a1, hloop, h1, hp1, hc1, hr1⟩ :=
        walk_loop_some addr_fields hx pre _ _ (walk_fuel state.todyn_getdns_srv_state) h hL
          (hL ▸ hfuel) hpre'
      have hfilter := @filter_split_at_selected pre rest x a hpre' hx
      rw [← hL] at hfilter
      constructor
      · intro hf; rw [hfilter] at hf; simp at hf
      · intro y more hf
        rw [hfilter] at hf
        obtain ⟨rfl, rfl⟩ := List.cons.inj hf
        refine ⟨{ state with todyn_getdns_srv_state := s1 }, a1, h1, by rw [hp1], rfl,
          hc1, hr1, ?_⟩
        have ha := (addr_fields_eq_some hx).2
        subst ha
        simp only [getdns_result, if_neg hne, if_neg hpre, htok', hloop]
        simp [VSA_Build, get_int_or_keep_eq]

theorem drop_succ_of_drop_cons {α : Type} {l : List α} {k : Nat} {x : α} {tail : List α}
    (h : l.drop k = x :: tail) : l[k]? = some x ∧ l.drop (k + 1) = tail := by
  constructor
  · have := List.getElem?_drop (L := l) (i := k) (j := 0)
    rw [h] at this
    simpa using this.symm
  · have := List.drop_drop 1 k l
    rw [h] at this
    simpa using this.symm

theorem lookup_scan_step {state : dyn_getdns_srv_state} {replies : List Reply}
    {x : Reply} {tail : List Reply} (hr : state.replies = some replies)
    (hd : replies.drop state.reply = x :: tail) (fuel : Nat) :
    lookup_scan (fuel + 1) state =
      match x.answer with
      | none => some (.code GETDNS_RETURN_NO_SUCH_DICT_NAME,
          { state with reply := state.reply + 1 })
      | some l =>
        if l.length = 0 ∧ state.reply + 1 < state.n_replies then
          lookup_scan fuel
            { state with
              reply := state.reply + 1, answers := some l
              answer := 0, n_answers := l.length }
        else
          some (GETDNS_RETURN_GOOD,
            { state with
              reply := state.reply + 1, answers := some l
              answer := 0, n_answers := l.length }) := by
  have hget := (drop_succ_of_drop_cons hd).1
  rw [lookup_scan]
  simp only [getdns_list_get_dict, hr, hget]
  cases hx : x.answer with
  | none => simp [getdns_dict_get]
  | some l => simp [getdns_dict_get, getdns_list_get_length]

theorem length_of_drop_eq {α : Type} {l : List α} {k : Nat} {x : α} {tail : List α}
    (h : l.drop k = x :: tail) : l.length = k + tail.length + 1 := by
  have := congrArg List.length h
  rw [List.length_drop, List.length_cons] at this
  omega

theorem lookup_scan_first_nonempty {replies : List Reply} {y : Record} {l : List Record}
    {post : List Reply} :
    ∀ (pre : List Reply) (state : dyn_getdns_srv_state) (fuel : Nat),
      state.replies = some replies → state.n_replies = replies.length →
      replies.drop state.reply = pre ++ ⟨some (y :: l)⟩ :: post →
      (∀ x ∈ pre, x.answer = some []) → pre.length < fuel →
      lookup_scan fuel state = some (GETDNS_RETURN_GOOD,
        { state with
          reply := state.reply + pre.length + 1, answers := some (y :: l)
          answer := 0, n_answers := (y :: l).length }) := by
  intro pre
  induction pre with
  | nil =>
    intro state fuel hr _ hd _ hfuel
    obtain ⟨fuel, rfl⟩ : ∃ f, fuel = f + 1 := ⟨fuel - 1, by simp at hfuel; omega⟩
    rw [lookup_scan_step hr hd]
    simp
  | cons p pre ih =>
    intro state fuel hr hn hd hpre hfuel
    obtain ⟨fuel, rfl⟩ : ∃ f, fuel = f + 1 := ⟨fuel - 1, by simp at hfuel; omega⟩
    rw [List.cons_append] at hd
    have hlen := length_of_drop_eq hd
    rw [lookup_scan_step hr hd, hpre p (by simp)]
    simp only [List.length_nil, true_and]
    rw [if_pos (by rw [hn, hlen]; simp)]
    have hs := ih
      { state with
        reply := state.reply + 1, answers := some []
        answer := 0, n_answers := 0 } fuel hr hn (drop_succ_of_drop_cons hd).2
      (fun x hx => hpre x (List.mem_cons_of_mem _ hx)) (by simpa using hfuel)
    rw [hs]
    simp only [List.length_cons]
    congr 3
    omega

theorem lookup_scan_all_empty {replies : List Reply} :
    ∀ (tail : List Reply) (x : Reply) (state : dyn_getdns_srv_state) (fuel : Nat),
      state.replies = some replies → state.n_replies = replies.length →
      replies.drop state.reply = x :: tail →
      (∀ z ∈ x :: tail, z.answer = some []) → tail.length < fuel →
      ∃ state1, lookup_scan fuel state = some (GETDNS_RETURN_GOOD, state1) ∧
        state1.n_answers = 0 ∧ state1.context = state.context ∧
        state1.response = state.response := by
  intro tail
  induction tail with
  | nil =>
    intro x state fuel hr hn hd hall hfuel
    obtain ⟨fuel, rfl⟩ : ∃ f, fuel = f + 1 := ⟨fuel - 1, by simp at hfuel; omega⟩
    have hlen := length_of_drop_eq hd
    rw [lookup_scan_step hr hd, hall x (by simp)]
    simp only [List.length_nil, true_and]
    rw [if_neg (by rw [hn, hlen]; simp)]
    exact ⟨_, rfl, rfl, rfl, rfl⟩
  | cons t tail ih =>
    intro x state fuel hr hn hd hall hfuel
    obtain ⟨fuel, rfl⟩ : ∃ f, fuel = f + 1 := ⟨fuel - 1, by simp at hfuel; omega⟩
    have hlen := length_of_drop_eq hd
    rw [lookup_scan_step hr hd, hall x (by simp)]
    simp only [List.length_nil, true_and]
    rw [if_pos (by rw [hn, hlen]; simp)]
    obtain ⟨s1, hs1, hn1, hc1, hr1⟩ := ih t
      { state with
        reply := state.reply + 1, answers := some []
        answer := 0, n_answers := 0 } fuel hr hn (drop_succ_of_drop_cons hd).2
      (fun z hz => hall z (List.mem_cons_of_mem _ hz)) (by simpa using hfuel)
    exact ⟨s1, hs1, hn1, hc1, hr1⟩

theorem lookup_scan_no_answer_list {replies : List Reply} {post : List Reply} :
    ∀ (pre : List Reply) (state : dyn_getdns_srv_state) (fuel : Nat),
      state.replies = some replies → state.n_replies = replies.length →
      replies.drop state.reply = pre ++ ⟨none⟩ :: post →
      (∀ x ∈ pre, x.answer = some []) → pre.length < fuel →
      ∃ state1, lookup_scan fuel state
          = some (.code GETDNS_RETURN_NO_SUCH_DICT_NAME, state1) ∧
        state1.context = state.context ∧ state1.response = state.response := by
  intro pre
  induction pre with
  | nil =>
    intro state fuel hr _ hd _ hfuel
    obtain ⟨fuel, rfl⟩ : ∃ f, fuel = f + 1 := ⟨fuel - 1, by simp at hfuel; omega⟩
    rw [lookup_scan_step hr hd]
    exact ⟨_, rfl, rfl, rfl⟩
  | cons p pre ih =>
    intro state fuel hr hn hd hpre hfuel
    obtain ⟨fuel, rfl⟩ : ∃ f, fuel = f + 1 := ⟨fuel - 1, by simp at hfuel; omega⟩
    rw [List.cons_append] at hd
    have hlen := length_of_drop_eq hd
    rw [lookup_scan_step hr hd, hpre p (by simp)]
    simp only [List.length_nil, true_and]
    rw [if_pos (by rw [hn, hlen]; simp)]
    exact ih
      { state with
        reply := state.reply + 1, answers := some []
        answer := 0, n_answers := 0 } fuel hr hn (drop_succ_of_drop_cons hd).2
      (fun x hx => hpre x (List.mem_cons_of_mem _ hx)) (by simpa using hfuel)

/-- Every list of replies is of one of three shapes: all answer lists present
and empty; a first reply without an answer list after empty ones; a first
reply with a non-empty answer list after empty ones. -/
theorem replies_shape (replies : List Reply) :
    (∀ x ∈ replies, x.answer = some []) ∨
    (∃ pre post, replies = pre ++ ⟨none⟩ :: post ∧ ∀ x ∈ pre, x.answer = some []) ∨
    (∃ pre y l post, replies = pre ++ ⟨some (y :: l)⟩ :: post ∧
      ∀ x ∈ pre, x.answer = some []) := by
  induction replies with
  | nil => left; simp
  | cons a rs ih =>
    rcases a with ⟨_ | _ | ⟨y, l⟩⟩
    · right; left; exact ⟨[], rs, rfl, by simp⟩
    · rcases ih with h | ⟨pre, post, rfl, hpre⟩ | ⟨pre, y, l, post, rfl, hpre⟩
      · left; intro x hx
        rcases List.mem_cons.mp hx with rfl | hx
        · rfl
        · exact h x hx
      · right; left
        refine ⟨⟨some []⟩ :: pre, post, rfl, ?_⟩
        intro x hx
        rcases List.mem_cons.mp hx with rfl | hx
        · rfl
        · exact hpre x hx
      · right; right
        refine ⟨⟨some []⟩ :: pre, y, l, post, rfl, ?_⟩
        intro x hx
        rcases List.mem_cons.mp hx with rfl | hx
        · rfl
        · exact hpre x hx
    · right; right; exact ⟨[], y, l, rs, rfl, by simp⟩

theorem getdns_dict_get_opt_some {δ α : Type} {dict : Option δ} {d : δ} {name : δ → Option α}
    {v : α} (hd : dict = some d) (hv : name d = some v) :
    getdns_dict_get_opt dict name = .ok v := by
  simp [getdns_dict_get_opt, hd, getdns_dict_get, hv]

theorem lookup_replies_first_nonempty {state : dyn_getdns_srv_state} {resp : Response}
    {pre post : List Reply} {y : Record} {l : List Record}
    (hresp : state.response = some resp) (hstatus : resp.status = some GETDNS_RESPSTATUS_GOOD)
    (htree : resp.replies_tree = some (pre ++ ⟨some (y :: l)⟩ :: post))
    (hpre : ∀ x ∈ pre, x.answer = some []) (h0 : state.reply = 0) :
    lookup_replies state = some (GETDNS_RETURN_GOOD,
      { state with
        replies := some (pre ++ ⟨some (y :: l)⟩ :: post)
        n_replies := (pre ++ ⟨some (y :: l)⟩ :: post).length
        reply := pre.length + 1, answers := some (y :: l)
        answer := 0, n_answers := (y :: l).length }) := by
  have hscan := @lookup_scan_first_nonempty (pre ++ ⟨some (y :: l)⟩ :: post)
    y l post pre
    { state with
      replies := some (pre ++ ⟨some (y :: l)⟩ :: post)
      n_replies := (pre ++ ⟨some (y :: l)⟩ :: post).length }
    (pre ++ ⟨some (y :: l)⟩ :: post).length rfl rfl (by simp [h0]) hpre (by simp)
  have h1 := getdns_dict_get_opt_some hresp hstatus
  have h2 := getdns_dict_get_opt_some hresp htree
  simp only [lookup_replies, h1, h2, getdns_list_get_length]
  simp only [ne_eq, not_true_eq_false, if_false]
  rw [if_neg (by simp), hscan]
  simp [GETDNS_RETURN_GOOD, h0]

theorem lookup_replies_all_empty {state : dyn_getdns_srv_state} {resp : Response}
    {replies : List Reply}
    (hresp : state.response = some resp) (hstatus : resp.status = some GETDNS_RESPSTATUS_GOOD)
    (htree : resp.replies_tree = some replies)
    (hall : ∀ x ∈ replies, x.answer = some []) (h0 : state.reply = 0) :
    ∃ state1, lookup_replies state = some (GETDNS_RETURN_NO_ANSWERS, state1) ∧
      state1.context = state.context ∧ state1.response = state.response := by
  have h1 := getdns_dict_get_opt_some hresp hstatus
  have h2 := getdns_dict_get_opt_some hresp htree
  simp only [lookup_replies, h1, h2, getdns_list_get_length]
  simp only [ne_eq, not_true_eq_false, if_false]
  cases replies with
  | nil =>
    simp only [List.length_nil, if_true]
    exact ⟨_, rfl, rfl, rfl⟩
  | cons x tail =>
    obtain ⟨s1, hs1, hn1, hc1, hr1⟩ := @lookup_scan_all_empty (x :: tail) tail x
      { state with replies := some (x :: tail), n_replies := (x :: tail).length }
      (x :: tail).length rfl rfl (by simp [h0]) hall (by simp)
    rw [if_neg (by simp), hs1]
    exact ⟨s1, by simp [hn1], hc1, hr1⟩

theorem lookup_replies_no_answer_list {state : dyn_getdns_srv_state} {resp : Response}
    {pre post : List Reply}
    (hresp : state.response = some resp) (hstatus : resp.status = some GETDNS_RESPSTATUS_GOOD)
    (htree : resp.replies_tree = some (pre ++ ⟨none⟩ :: post))
    (hpre : ∀ x ∈ pre, x.answer = some []) (h0 : state.reply = 0) :
    ∃ state1, lookup_replies state
      = some (.code GETDNS_RETURN_NO_SUCH_DICT_NAME, state1) := by
  obtain ⟨s1, hs1, _, _⟩ := @lookup_scan_no_answer_list (pre ++ ⟨none⟩ :: post)
    post pre
    { state with
      replies := some (pre ++ ⟨none⟩ :: post)
      n_replies := (pre ++ ⟨none⟩ :: post).length }
    (pre ++ ⟨none⟩ :: post).length rfl rfl (by simp [h0]) hpre (by simp)
  have h1 := getdns_dict_get_opt_some hresp hstatus
  have h2 := getdns_dict_get_opt_some hresp htree
  simp only [lookup_replies, h1, h2, getdns_list_get_length]
  simp only [ne_eq, not_true_eq_false, if_false]
  rw [if_neg (by simp), hs1]
  exact ⟨s1, by simp [GETDNS_RETURN_GOOD, GETDNS_RETURN_NO_SUCH_DICT_NAME]⟩

theorem lookup_replies_bad_status {state : dyn_getdns_srv_state} {resp : Response} {status : Nat}
    (hresp : state.response = some resp) (hstatus : resp.status = some status)
    (hbad : status ≠ GETDNS_RESPSTATUS_GOOD) :
    lookup_replies state = some (.code status, state) := by
  simp [lookup_replies, getdns_dict_get_opt_some hresp hstatus, hbad]

/-- The lookup's scan never runs out of fuel. -/
theorem lookup_scan_total :
    ∀ (fuel : Nat) (state : dyn_getdns_srv_state),
      0 < fuel → state.n_replies ≤ state.reply + fuel → lookup_scan fuel state ≠ none := by
  intro fuel
  induction fuel with
  | zero => intro _ h; exact absurd h (by simp)
  | succ fuel ih =>
    intro state _ hle
    rw [lookup_scan]
    cases getdns_list_get_dict state.replies state.reply with
    | error e => simp
    | ok reply =>
      simp only
      cases getdns_dict_get reply.answer with
      | error e => simp
      | ok answers =>
        simp only
        cases getdns_list_get_length (some answers) with
        | error e => simp
        | ok n =>
          simp only
          split
          · rename_i hc
            have hlt : state.reply + 1 < state.n_replies := hc.2
            refine ih _ (by omega) ?_
            show state.n_replies ≤ state.reply + 1 + fuel
            omega
          · simp

theorem lookup_replies_total (state : dyn_getdns_srv_state) (h0 : state.reply = 0) :
    lookup_replies state ≠ none := by
  rw [lookup_replies]
  cases getdns_dict_get_opt state.response Response.status with
  | error e => simp
  | ok status =>
    simp only
    split
    · simp
    · cases getdns_dict_get_opt state.response Response.replies_tree with
      | error e => simp
      | ok replies =>
        simp only
        cases getdns_list_get_length (some replies) with
        | error e => simp
        | ok n =>
          simp only
          split
          · simp
          · rename_i hn
            have := lookup_scan_total n
              { state with replies := some replies, n_replies := n }
              (Nat.pos_of_ne_zero hn) (by simp [h0])
            cases hs : lookup_scan n
              { state with replies := some replies, n_replies := n } with
            | none => exact absurd hs this
            | some p =>
              obtain ⟨ret, s⟩ := p
              simp only
              split_ifs <;> exact Option.some_ne_none _

theorem code_ne_good {n : Nat} (h : n ≠ 0) : getdns_return_t.code n ≠ GETDNS_RETURN_GOOD := by
  simpa [GETDNS_RETURN_GOOD] using h

/-- What a successful run of the shared part of the lookups implies. -/
theorem lookup_replies_good_inv {state s : dyn_getdns_srv_state} (h0 : state.reply = 0)
    (h : lookup_replies state = some (GETDNS_RETURN_GOOD, s)) :
    (∃ resp, state.response = some resp ∧ resp.status = some 0 ∧ s = state) ∨
    ∃ resp pre y l post, state.response = some resp ∧
      resp.status = some GETDNS_RESPSTATUS_GOOD ∧
      resp.replies_tree = some (pre ++ ⟨some (y :: l)⟩ :: post) ∧
      (∀ x ∈ pre, x.answer = some []) ∧
      s = { state with
            replies := some (pre ++ ⟨some (y :: l)⟩ :: post)
            n_replies := (pre ++ ⟨some (y :: l)⟩ :: post).length
            reply := pre.length + 1, answers := some (y :: l)
            answer := 0, n_answers := (y :: l).length } := by
  rcases Option.eq_none_or_eq_some state.response with hresp | ⟨resp, hresp⟩
  · simp [lookup_replies, getdns_dict_get_opt, hresp, GETDNS_RETURN_GOOD,
      GETDNS_RETURN_INVALID_PARAMETER] at h
  rcases Option.eq_none_or_eq_some resp.status with hstatus | ⟨status, hstatus⟩
  · simp [lookup_replies, getdns_dict_get_opt, hresp, getdns_dict_get, hstatus,
      GETDNS_RETURN_GOOD, GETDNS_RETURN_NO_SUCH_DICT_NAME] at h
  by_cases hgood : status = GETDNS_RESPSTATUS_GOOD
  · subst hgood
    rcases Option.eq_none_or_eq_some resp.replies_tree with htree | ⟨replies, htree⟩
    · have h2 : getdns_dict_get_opt state.response Response.replies_tree
          = .error GETDNS_RETURN_NO_SUCH_DICT_NAME := by
        simp [getdns_dict_get_opt, hresp, getdns_dict_get, htree]
      simp [lookup_replies, getdns_dict_get_opt_some hresp hstatus, h2, GETDNS_RETURN_GOOD,
        GETDNS_RETURN_NO_SUCH_DICT_NAME] at h
    · rcases replies_shape replies with hall | ⟨pre, post, rfl, hpre⟩ |
        ⟨pre, y, l, post, rfl, hpre⟩
      · obtain ⟨s1, hs1, _, _⟩ := lookup_replies_all_empty hresp hstatus htree hall h0
        rw [hs1] at h
        simp [GETDNS_RETURN_GOOD, GETDNS_RETURN_NO_ANSWERS] at h
      · obtain ⟨s1, hs1⟩ := lookup_replies_no_answer_list hresp hstatus htree hpre h0
        rw [hs1] at h
        simp [GETDNS_RETURN_GOOD, GETDNS_RETURN_NO_SUCH_DICT_NAME] at h
      · rw [lookup_replies_first_nonempty hresp hstatus htree hpre h0] at h
        simp only [Option.some.injEq, Prod.mk.injEq, true_and] at h
        exact Or.inr ⟨resp, pre, y, l, post, hresp, hstatus, htree, hpre, h.symm⟩
  · rw [lookup_replies_bad_status hresp hstatus hgood] at h
    simp only [Option.some.injEq, Prod.mk.injEq, GETDNS_RETURN_GOOD,
      getdns_return_t.code.injEq] at h
    exact Or.inl ⟨resp, hresp, by rw [hstatus, h.1], h.2.symm⟩

/-- The address lookup once the port is resolved and a context is leased. -/
theorem getdns_lookup_at_query {env : Env} {r r1 : dynamic_resolver} {node service : String}
    {port ctx : Nat} {c : dynamic_resolver_context}
    (hport : lookup_port env service = some (.ok port))
    (hctx : dyn_getdns_get_context r = some (c, r1)) (hc : c.context = some ctx) :
    getdns_lookup env r node service =
      if (env.getdns_address_sync ctx node).1 ≠ 0 then
        .returned (.code (env.getdns_address_sync ctx node).1)
          { context := some c, response := (env.getdns_address_sync ctx node).2, port := port }
          r1
      else
        match lookup_replies
          { context := some c, response := (env.getdns_address_sync ctx node).2 } with
        | none => .timeout
        | some (ret, s) => .returned ret { todyn_getdns_srv_state := s, port := port } r1 := by
  simp only [getdns_lookup, hport, hctx, hc]

/-- The SRV lookup once a context is leased. -/
theorem getdns_srv_lookup_at_query {env : Env} {r r1 : dynamic_resolver} {service : String}
    {ctx : Nat} {c : dynamic_resolver_context}
    (hctx : dyn_getdns_get_context r = some (c, r1)) (hc : c.context = some ctx) :
    getdns_srv_lookup env r service =
      if (env.getdns_service_sync ctx service).1 ≠ 0 then
        .returned (.code (env.getdns_service_sync ctx service).1)
          { context := some c, response := (env.getdns_service_sync ctx service).2 } r1
      else
        match lookup_replies
          { context := some c, response := (env.getdns_service_sync ctx service).2 } with
        | none => .timeout
        | some (ret, s) => .returned ret s r1 := by
  simp only [getdns_srv_lookup, hctx, hc]

/-- A successful address lookup went through every stage. -/
theorem getdns_lookup_good_inv {env : Env} {r r1 : dynamic_resolver} {node service : String}
    {state : dyn_getdns_addr_state}
    (h : getdns_lookup env r node service = .returned GETDNS_RETURN_GOOD state r1) :
    ∃ port c ctx s, lookup_port env service = some (.ok port) ∧
      dyn_getdns_get_context r = some (c, r1) ∧ c.context = some ctx ∧
      (env.getdns_address_sync ctx node).1 = 0 ∧
      lookup_replies { context := some c, response := (env.getdns_address_sync ctx node).2 }
        = some (GETDNS_RETURN_GOOD, s) ∧
      state = { todyn_getdns_srv_state := s, port := port } := by
  cases hport : lookup_port env service with
  | none => simp [getdns_lookup, hport] at h
  | some p =>
    cases p with
    | error ret =>
      have hne : ret = GETDNS_RETURN_NO_SERVBYNAME := by
        unfold lookup_port at hport
        simp only at hport
        split_ifs at hport
        · simp at hport
        · simpa using hport.symm
        · split at hport <;> simp at hport
      simp [getdns_lookup, hport, hne, GETDNS_RETURN_NO_SERVBYNAME, GETDNS_RETURN_GOOD] at h
    | ok port =>
      cases hctx : dyn_getdns_get_context r with
      | none => simp [getdns_lookup, hport, hctx] at h
      | some p =>
        obtain ⟨c, r2⟩ := p
        cases hc : c.context with
        | none => simp [getdns_lookup, hport, hctx, hc] at h
        | some ctx =>
          rw [getdns_lookup_at_query hport hctx hc] at h
          by_cases hq : (env.getdns_address_sync ctx node).1 = 0
          · rw [if_neg (by simpa using hq)] at h
            cases hl : lookup_replies
              { context := some c, response := (env.getdns_address_sync ctx node).2 } with
            | none => rw [hl] at h; simp at h
            | some p =>
              obtain ⟨ret, s⟩ := p
              rw [hl] at h
              simp only [LookupResult.returned.injEq] at h
              obtain ⟨rfl, rfl, rfl⟩ := h
              exact ⟨port, c, ctx, s, rfl, rfl, hc, hq, hl, rfl⟩
          · rw [if_pos hq] at h
            simp only [LookupResult.returned.injEq] at h
            exact absurd h.1 (code_ne_good hq)

/-- A successful SRV lookup went through every stage. -/
theorem getdns_srv_lookup_good_inv {env : Env} {r r1 : dynamic_resolver} {service : String}
    {state : dyn_getdns_srv_state}
    (h : getdns_srv_lookup env r service = .returned GETDNS_RETURN_GOOD state r1) :
    ∃ c ctx, dyn_getdns_get_context r = some (c, r1) ∧ c.context = some ctx ∧
      (env.getdns_service_sync ctx service).1 = 0 ∧
      lookup_replies { context := some c, response := (env.getdns_service_sync ctx service).2 }
        = some (GETDNS_RETURN_GOOD, state) := by
  cases hctx : dyn_getdns_get_context r with
  | none => simp [getdns_srv_lookup, hctx] at h
  | some p =>
    obtain ⟨c, r2⟩ := p
    cases hc : c.context with
    | none => simp [getdns_srv_lookup, hctx, hc] at h
    | some ctx =>
      rw [getdns_srv_lookup_at_query hctx hc] at h
      by_cases hq : (env.getdns_service_sync ctx service).1 = 0
      · rw [if_neg (by simpa using hq)] at h
        cases hl : lookup_replies
          { context := some c, response := (env.getdns_service_sync ctx service).2 } with
        | none => rw [hl] at h; simp at h
        | some p =>
          obtain ⟨ret, s⟩ := p
          rw [hl] at h
          simp only [LookupResult.returned.injEq] at h
          obtain ⟨rfl, rfl, rfl⟩ := h
          exact ⟨c, ctx, rfl, hc, hq, hl⟩
      · rw [if_pos hq] at h
        simp only [LookupResult.returned.injEq] at h
        exact absurd h.1 (code_ne_good hq)

theorem getdns_pulls_last (n : Nat) (info : res_info) (state : dyn_getdns_addr_state) :
    getdns_pulls n info state .getdns_last = List.replicate n .eos := by
  induction n with
  | zero => rfl
  | succ n ih => simp [getdns_pulls, getdns_result, ih, List.replicate_succ]

theorem expected_pulls_nil (port n ttl : Nat) :
    expected_pulls port n ttl [] = List.replicate n .eos := by
  induction n with
  | zero => rfl
  | succ n ih => simp [expected_pulls, ih, List.replicate_succ]

/-- The pulls on a positioned cursor are the reference pulls over the address
records still pending. -/
theorem getdns_pulls_positioned {replies : List Reply} :
    ∀ (n : Nat) (info : res_info) (state : dyn_getdns_addr_state) (answers : List Record)
      (answerp : Token),
      Positioned state.todyn_getdns_srv_state replies answers →
      (answerp = .NULL ∨ answerp = .state_answer) →
      getdns_pulls n info state answerp =
        expected_pulls state.port n info.ttl
          ((pending state.todyn_getdns_srv_state).filter Record.has_address) := by
  intro n
  induction n with
  | zero => intros; rfl
  | succ n ih =>
    intro info state answers answerp h htok
    obtain ⟨hnone, hsome⟩ := getdns_result_positioned info state answerp h htok
    cases hf : (pending state.todyn_getdns_srv_state).filter Record.has_address with
    | nil =>
      obtain ⟨s1, hs1⟩ := hnone hf
      rw [getdns_pulls, hs1]
      simp only [expected_pulls]
      rw [getdns_pulls_last, expected_pulls_nil]
    | cons x more =>
      obtain ⟨s1, a1, h1, hp1, hport, _, _, hres⟩ := hsome x more hf
      rw [getdns_pulls, hres]
      simp only [expected_pulls]
      split_ifs
      · simp only [List.cons.injEq, true_and]
        rw [ih _ s1 a1 _ h1 (Or.inr rfl), hp1, hport]
      · simp only [List.cons.injEq, true_and]
        rw [ih _ s1 a1 _ h1 (Or.inr rfl), hp1, hport]
      · rfl

theorem drop_after_split {α : Type} (pre : List α) (a : α) (post : List α) :
    (pre ++ a :: post).drop (pre.length + 1) = post := by
  induction pre with
  | nil => rfl
  | cons b pre ih =>
    simp only [List.cons_append, List.length_cons, List.drop_succ_cons]
    exact ih

/-- A list splits in one way only into a run of elements with a property and a
rest that starts with an element without it. -/
theorem split_unique {α : Type} (P : α → Prop) {a : α} (ha : ¬ P a) :
    ∀ (p1 p2 t1 t2 : List α), p1 ++ a :: t1 = p2 ++ t2 → (∀ x ∈ p1, P x) → (∀ x ∈ p2, P x) →
      (∀ x ∈ t2, ¬ P x) → p1 = p2 ∧ a :: t1 = t2 := by
  intro p1
  induction p1 with
  | nil =>
    intro p2 t1 t2 h _ h2 _
    cases p2 with
    | nil => exact ⟨rfl, by simpa using h⟩
    | cons b p2 =>
      simp only [List.nil_append, List.cons_append, List.cons.injEq] at h
      exact absurd (h.1 ▸ h2 b (by simp)) ha
  | cons c p1 ih =>
    intro p2 t1 t2 h h1 h2 ht
    cases p2 with
    | nil =>
      simp only [List.nil_append, List.cons_append] at h
      exact absurd (h1 c (by simp)) (ht c (by rw [← h]; simp))
    | cons b p2 =>
      simp only [List.cons_append, List.cons.injEq] at h
      obtain ⟨hp, ht'⟩ := ih p2 t1 t2 h.2 (fun x hx => h1 x (List.mem_cons_of_mem _ hx))
        (fun x hx => h2 x (List.mem_cons_of_mem _ hx)) ht
      exact ⟨by rw [h.1, hp], ht'⟩

theorem getdns_result_null_token {info info1 : res_info} {state state1 : dyn_getdns_addr_state}
    {answerp answerp1 : Token}
    (h : getdns_result info state answerp = .null info1 state1 answerp1) :
    answerp1 = .getdns_last := by
  rw [getdns_result] at h
  by_cases h1 : answerp = .getdns_last
  · rw [if_pos h1] at h
    simp only [PullResult.null.injEq] at h; rw [← h.2.2]; exact h1
  rw [if_neg h1] at h
  by_cases h2 : state.answer ≥ state.n_answers ∧ state.reply ≥ state.n_replies
  · rw [if_pos h2] at h
    simp only [PullResult.null.injEq] at h; exact h.2.2.symm
  rw [if_neg h2] at h
  simp only [VSA_Build] at h
  generalize walk_loop addr_fields (walk_fuel state.todyn_getdns_srv_state)
    state.todyn_getdns_srv_state = w at h
  split_ifs at h
  all_goals
    cases w with
    | fatal => cases h
    | timeout => cases h
    | done s => simp only [PullResult.null.injEq] at h; exact h.2.2.symm
    | found s rr addr =>
      simp only at h
      split_ifs at h <;> simp_all

theorem getdns_srv_result_null {env : Env} {info info1 : srv_info}
    {state state1 : dyn_getdns_srv_state} {answerp answerp1 : Token}
    (h : getdns_srv_result env info state answerp = .null info1 state1 answerp1) :
    answerp1 = .getdns_last ∧ info1 = {} := by
  rw [getdns_srv_result] at h
  by_cases h0 : info.target ≠ none
  · rw [if_pos h0] at h; cases h
  rw [if_neg h0] at h
  simp only at h
  by_cases h1 : answerp = .getdns_last
  · rw [if_pos h1] at h
    simp only [PullResult.null.injEq] at h
    exact ⟨by rw [← h.2.2]; exact h1, h.1.symm⟩
  rw [if_neg h1] at h
  by_cases h2 : state.answer ≥ state.n_answers ∧ state.reply ≥ state.n_replies
  · rw [if_pos h2] at h
    simp only [PullResult.null.injEq] at h; exact ⟨h.2.2.symm, h.1.symm⟩
  rw [if_neg h2] at h
  generalize walk_loop srv_fields (walk_fuel state) state = w at h
  split_ifs at h
  all_goals
    cases w with
    | fatal => cases h
    | timeout => cases h
    | done s => simp only [PullResult.null.injEq] at h; exact ⟨h.2.2.symm, h.1.symm⟩
    | found s rr fields =>
      obtain ⟨target, port⟩ := fields
      simp only at h
      split at h <;> cases h

theorem srv_fields_eq_none {rr : Record} : srv_fields rr = none ↔ rr.is_srv = false := by
  cases ht : rr.type <;> cases hg : rr.target <;> cases hp : rr.port <;>
    simp [srv_fields, getdns_dict_get, Record.is_srv, ht, hg, hp]

theorem srv_fields_eq_some {rr : Record} {target : getdns_bindata} {port : Nat}
    (h : srv_fields rr = some (target, port)) :
    rr.is_srv = true ∧ rr.target = some target ∧ rr.port = some port := by
  cases ht : rr.type <;> cases hg : rr.target <;> cases hp : rr.port <;>
    simp_all [srv_fields, getdns_dict_get, Record.is_srv]

theorem filter_srv_none_of_unselected {L : List Record} (h : ∀ y ∈ L, srv_fields y = none) :
    L.filter Record.is_srv = [] := by
  rw [List.filter_eq_nil_iff]
  intro y hy
  simp [srv_fields_eq_none.mp (h y hy)]

theorem filter_srv_split_at_selected {pre rest : List Record} {x : Record}
    {fields : getdns_bindata × Nat}
    (hpre : ∀ y ∈ pre, srv_fields y = none) (hx : srv_fields x = some fields) :
    (pre ++ x :: rest).filter Record.is_srv = x :: rest.filter Record.is_srv := by
  rw [List.filter_append, filter_srv_none_of_unselected hpre, List.nil_append,
    List.filter_cons_of_pos (@srv_fields_eq_some x fields.1 fields.2 hx).1]

/-- One pull of `getdns_srv_result` on a positioned cursor, by the accepted
SRV records still pending. -/
theorem getdns_srv_result_positioned {replies : List Reply} {answers : List Record}
    (env : Env) (info : srv_info) (state : dyn_getdns_srv_state) (answerp : Token)
    (h : Positioned state replies answers)
    (htok : answerp = .NULL ∨ answerp = .state_answer) (hinfo : info.target = none) :
    ((pending state).filter Record.is_srv = [] →
        ∃ state1, getdns_srv_result env info state answerp = .null {} state1 .getdns_last) ∧
    (∀ x more, (pending state).filter Record.is_srv = x :: more →
        ∃ state1 answers1, Positioned state1 replies answers1 ∧
          (pending state1).filter Record.is_srv = more ∧
          state1.context = state.context ∧ state1.response = state.response ∧
          getdns_srv_result env info state answerp =
            match env.getdns_convert_dns_name_to_fqdn (x.target.getD []) with
            | .error _ => .fatal
            | .ok fqdn =>
              .item { target := some fqdn, port := x.port.getD 0, priority := x.priority.getD 0
                      weight := x.weight.getD 0, ttl := x.ttl.getD 0 } state1 .state_answer) := by
  have hne : answerp ≠ .getdns_last := by rcases htok with rfl | rfl <;> simp
  have htok' : (if answerp = .NULL then Token.state_answer else answerp) = .state_answer := by
    rcases htok with rfl | rfl <;> simp
  have hinfo' : ¬ info.target ≠ none := by simp [hinfo]
  by_cases hnil : pending state = []
  · have hpre := (pending_eq_nil_iff h).mp hnil
    constructor
    · intro _
      exact ⟨state, by simp [getdns_srv_result, hne, hpre, hinfo]⟩
    · intro x more hf
      rw [hnil] at hf; simp at hf
  · have hpre : ¬ (state.answer ≥ state.n_answers ∧ state.reply ≥ state.n_replies) :=
      fun hc => hnil ((pending_eq_nil_iff h).mpr hc)
    have hfuel : (pending state).length ≤ walk_fuel state := by simp [walk_fuel]
    rcases first_selected srv_fields (pending state) with
      hall | ⟨pre, x, fields, rest, hL, hpre', hx⟩
    · obtain ⟨s1, a1, hloop, _, _, _, _⟩ :=
        walk_loop_none srv_fields _ _ _ (walk_fuel state) h rfl hnil hfuel hall
      constructor
      · intro _
        refine ⟨s1, ?_⟩
        simp only [getdns_srv_result, if_neg hinfo', if_neg hne, if_neg hpre, htok', hloop]
        simp
      · intro y more hf
        rw [filter_srv_none_of_unselected hall] at hf; simp at hf
    · obtain ⟨s1, a1, hloop, h1, hp1, hc1, hr1⟩ :=
        walk_loop_some srv_fields hx pre _ _ (walk_fuel state) h hL (hL ▸ hfuel) hpre'
      have hfilter := @filter_srv_split_at_selected pre rest x fields hpre' hx
      rw [← hL] at hfilter
      obtain ⟨target, port⟩ := fields
      obtain ⟨_, htarget, hport⟩ := srv_fields_eq_some hx
      constructor
      · intro hf; rw [hfilter] at hf; simp at hf
      · intro y more hf
        rw [hfilter] at hf
        obtain ⟨rfl, rfl⟩ := List.cons.inj hf
        refine ⟨s1, a1, h1, by rw [hp1], hc1, hr1, ?_⟩
        simp only [getdns_srv_result, if_neg hinfo', if_neg hne, if_neg hpre, htok', hloop]
        simp only [htarget, hport, Option.getD_some, get_int_or_keep_eq]
        simp

theorem getdns_srv_pulls_last (env : Env) (n : Nat) (info : srv_info)
    (state : dyn_getdns_srv_state) (hinfo : info.target = none) :
    getdns_srv_pulls env n info state .getdns_last = List.replicate n .eos := by
  induction n generalizing info with
  | zero => rfl
  | succ n ih =>
    simp only [getdns_srv_pulls, getdns_srv_result, hinfo, List.replicate_succ]
    simp [ih {} rfl]

theorem expected_srv_pulls_nil (env : Env) (n : Nat) :
    expected_srv_pulls env n [] = List.replicate n .eos := by
  induction n with
  | zero => rfl
  | succ n ih => simp [expected_srv_pulls, ih, List.replicate_succ]

/-- The SRV pulls on a positioned cursor are the reference pulls over the
accepted SRV records still pending. -/
theorem getdns_srv_pulls_positioned (env : Env) {replies : List Reply} :
    ∀ (n : Nat) (info : srv_info) (state : dyn_getdns_srv_state) (answers : List Record)
      (answerp : Token),
      Positioned state replies answers →
      (answerp = .NULL ∨ answerp = .state_answer) → info.target = none →
      getdns_srv_pulls env n info state answerp =
        expected_srv_pulls env n ((pending state).filter Record.is_srv) := by
  intro n
  induction n with
  | zero => intros; rfl
  | succ n ih =>
    intro info state answers answerp h htok hinfo
    obtain ⟨hnone, hsome⟩ := getdns_srv_result_positioned env info state answerp h htok hinfo
    cases hf : (pending state).filter Record.is_srv with
    | nil =>
      obtain ⟨s1, hs1⟩ := hnone hf
      rw [getdns_srv_pulls, hs1]
      simp only [expected_srv_pulls]
      rw [getdns_srv_pulls_last env n {} s1 rfl, expected_srv_pulls_nil]
    | cons x more =>
      obtain ⟨s1, a1, h1, hp1, _, _, hres⟩ := hsome x more hf
      rw [getdns_srv_pulls, hres]
      simp only [expected_srv_pulls]
      cases env.getdns_convert_dns_name_to_fqdn (x.target.getD []) with
      | error e => rfl
      | ok fqdn =>
        simp only [List.cons.injEq, true_and]
        rw [ih _ s1 a1 _ h1 (Or.inr rfl) rfl, hp1]

/-- After a successful run of the shared part of a lookup over `k` empty
replies followed by non-empty ones, the cursor is positioned on the first of
the non-empty replies and every record of `tail` is pending. -/
theorem positioned_after_lookup {init s : dyn_getdns_srv_state} {k : Nat} {tail : List Reply}
    (h0 : init.reply = 0) (hinit : init.replies = none)
    (h : lookup_replies init = some (GETDNS_RETURN_GOOD, s))
    (hshape : s.replies = some (List.replicate k ⟨some []⟩ ++ tail))
    (htail : ∀ x ∈ tail, x.nonempty = true) :
    ∃ answers, Positioned s (List.replicate k ⟨some []⟩ ++ tail) answers ∧
      pending s = tail.flatMap Reply.records := by
  rcases lookup_replies_good_inv h0 h with ⟨_, _, _, rfl⟩ |
    ⟨resp, pre, y, l, post, _, _, _, hpre, rfl⟩
  · rw [hinit] at hshape; cases hshape
  · simp only [Option.some.injEq] at hshape
    obtain ⟨_, htl⟩ := split_unique (fun x : Reply => x.answer = some [])
      (show ¬ (⟨some (y :: l)⟩ : Reply).answer = some [] by simp)
      pre (List.replicate k ⟨some []⟩) post tail hshape hpre
      (fun x hx => by rw [List.eq_of_mem_replicate hx])
      (fun x hx hc => by have := htail x hx; simp [Reply.nonempty, hc] at this)
    have hpos : Positioned
        { init with
          replies := some (pre ++ ⟨some (y :: l)⟩ :: post)
          n_replies := (pre ++ ⟨some (y :: l)⟩ :: post).length
          reply := pre.length + 1, answers := some (y :: l)
          answer := 0, n_answers := (y :: l).length }
        (pre ++ ⟨some (y :: l)⟩ :: post) (y :: l) :=
      { replies_eq := rfl, n_replies_eq := rfl, answers_eq := rfl, n_answers_eq := rfl
        reply_le := by simp
        answer_le := by simp
        rest_nonempty := by
          intro x hx
          have hx' : x ∈ tail := by
            rw [← htl]
            refine List.mem_cons_of_mem _ ?_
            simpa only [drop_after_split] using hx
          have := htail x hx'
          rcases hxa : x.answer with _ | _ | ⟨z, zs⟩
          · simp [Reply.nonempty, hxa] at this
          · simp [Reply.nonempty, hxa] at this
          · exact ⟨_, rfl, by simp⟩ }
    refine ⟨y :: l, hshape ▸ hpos, ?_⟩
    rw [pending_of_positioned hpos, ← htl]
    simp only [drop_after_split, List.drop_zero, List.flatMap_cons, Reply.records,
      Option.getD_some]

/-! ## Totality -/

theorem pending_after_next_reply {state state1 : dyn_getdns_srv_state}
    (h : next_reply state = .ok state1) : (pending state1).length ≤ (pending state).length := by
  unfold next_reply at h
  split_ifs at h with hge
  · rcases hr : state.replies with _ | replies
    · simp [getdns_list_get_dict, hr] at h
    · rcases hk : replies[state.reply]? with _ | reply
      · simp [getdns_list_get_dict, hr, hk] at h
      · rcases ha : reply.answer with _ | l
        · simp [getdns_list_get_dict, hr, hk, getdns_dict_get, ha] at h
        · simp only [getdns_list_get_dict, hr, hk, getdns_dict_get, ha, getdns_list_get_length,
            Except.ok.injEq] at h
          subst h
          have hlt : state.reply < replies.length := by
            rcases List.getElem?_eq_some.mp hk with ⟨hlt, _⟩
            exact hlt
          have hget : replies[state.reply] = reply := by
            rcases List.getElem?_eq_some.mp hk with ⟨_, hg⟩
            exact hg
          simp only [pending, hr, Option.getD_some, List.drop_zero, List.length_append]
          rw [List.drop_eq_getElem_cons hlt, List.flatMap_cons, List.length_append, hget]
          simp only [Reply.records, ha, Option.getD_some]
          omega
  · simp only [Except.ok.injEq] at h
    rw [h]

theorem pending_after_read {state : dyn_getdns_srv_state} {rr : Record}
    (h : getdns_list_get_dict state.answers state.answer = .ok rr) :
    (pending { state with answer := state.answer + 1 }).length + 1 = (pending state).length := by
  rcases ha : state.answers with _ | answers
  · simp [getdns_list_get_dict, ha] at h
  · rcases hk : answers[state.answer]? with _ | x
    · simp [getdns_list_get_dict, ha, hk] at h
    · have hlt : state.answer < answers.length := by
        rcases List.getElem?_eq_some.mp hk with ⟨hlt, _⟩
        exact hlt
      simp only [pending, ha, Option.getD_some, List.length_append, List.length_drop]
      omega

/-- The loop of a walker never runs out of the fuel the walkers pass. -/
theorem walk_loop_total {β : Type} (sel : Record → Option β) :
    ∀ (fuel : Nat) (state : dyn_getdns_srv_state),
      (pending state).length < fuel → walk_loop sel fuel state ≠ .timeout := by
  intro fuel
  induction fuel with
  | zero => intro state h; exact absurd h (by simp)
  | succ fuel ih =>
    intro state hfuel
    rw [walk_loop]
    split
    · simp
    · rename_i state1 hnext
      have h1 := pending_after_next_reply hnext
      split
      · simp
      · rename_i rr hread
        have h2 := pending_after_read hread
        split
        · simp
        · simp only
          split_ifs
          · exact ih _ (by omega)
          · simp

/-- A pull of `getdns_result` never runs out of fuel. -/
theorem getdns_result_total (info : res_info) (state : dyn_getdns_addr_state) (answerp : Token) :
    getdns_result info state answerp ≠ .timeout := by
  have hw := walk_loop_total addr_fields (walk_fuel state.todyn_getdns_srv_state)
    state.todyn_getdns_srv_state (by simp [walk_fuel])
  rw [getdns_result]
  simp only [VSA_Build]
  generalize walk_loop addr_fields (walk_fuel state.todyn_getdns_srv_state)
    state.todyn_getdns_srv_state = w at hw
  split_ifs
  all_goals first
    | exact PullResult.noConfusion
    | (cases w with
       | fatal => exact PullResult.noConfusion
       | timeout => exact absurd rfl hw
       | done s => exact PullResult.noConfusion
       | found s rr addr =>
         simp only
         split_ifs <;> exact PullResult.noConfusion)

/-- A pull of `getdns_srv_result` never runs out of fuel. -/
theorem getdns_srv_result_total (env : Env) (info : srv_info) (state : dyn_getdns_srv_state)
    (answerp : Token) : getdns_srv_result env info state answerp ≠ .timeout := by
  have hw := walk_loop_total srv_fields (walk_fuel state) state (by simp [walk_fuel])
  rw [getdns_srv_result]
  by_cases h0 : info.target ≠ none
  · rw [if_pos h0]; simp
  rw [if_neg h0]
  simp only
  by_cases h1 : answerp = .getdns_last
  · rw [if_pos h1]; simp
  rw [if_neg h1]
  by_cases h2 : state.answer ≥ state.n_answers ∧ state.reply ≥ state.n_replies
  · rw [if_pos h2]; simp
  rw [if_neg h2]
  generalize walk_loop srv_fields (walk_fuel state) state = w at hw
  split_ifs
  all_goals
    cases w with
    | fatal => simp
    | timeout => exact absurd rfl hw
    | done s => simp
    | found s rr fields =>
      obtain ⟨target, port⟩ := fields
      rcases hconv : env.getdns_convert_dns_name_to_fqdn target with e | fqdn <;>
        simp [hconv]

/-- The lookups never run out of fuel. -/
theorem getdns_lookup_total (env : Env) (r : dynamic_resolver) (node service : String) :
    getdns_lookup env r node service ≠ .timeout ∧
      getdns_srv_lookup env r service ≠ .timeout := by
  constructor
  · rcases hport : lookup_port env service with _ | _ | port
    · simp [getdns_lookup, hport]
    · simp [getdns_lookup, hport]
    · rcases hctx : dyn_getdns_get_context r with _ | ⟨c, r1⟩
      · simp [getdns_lookup, hport, hctx]
      · rcases hc : c.context with _ | ctx
        · simp [getdns_lookup, hport, hctx, hc]
        · rw [getdns_lookup_at_query hport hctx hc]
          split_ifs
          · simp
          · have := lookup_replies_total
              { context := some c, response := (env.getdns_address_sync ctx node).2 } rfl
            rcases hl : lookup_replies
              { context := some c, response := (env.getdns_address_sync ctx node).2 }
              with _ | ⟨ret, s⟩
            · exact absurd hl this
            · simp
  · rcases hctx : dyn_getdns_get_context r with _ | ⟨c, r1⟩
    · simp [getdns_srv_lookup, hctx]
    · rcases hc : c.context with _ | ctx
      · simp [getdns_srv_lookup, hctx, hc]
      · rw [getdns_srv_lookup_at_query hctx hc]
        split_ifs
        · simp
        · have := lookup_replies_total
            { context := some c, response := (env.getdns_service_sync ctx service).2 } rfl
          rcases hl : lookup_replies
            { context := some c, response := (env.getdns_service_sync ctx service).2 }
            with _ | ⟨ret, s⟩
          · exact absurd hl this
          · simp

/-! ## The claims -/

/-- C1. Address walk, order and completeness: after a successful
`getdns_lookup` whose reply set is `k` empty replies followed by non-empty
ones (`tail`), `n` pulls of `getdns_result` from a fresh token return the
records of `tail` that carry an IPv6 or IPv4 address field, one per pull, in
reply order and then answer order, the others being skipped, and an end of
sequence for every pull after the last of them. -/
theorem getdns_address_walk (env : Env) (r r1 : dynamic_resolver) (node service : String)
    (state : dyn_getdns_addr_state) (k : Nat) (tail : List Reply) (n : Nat) (info : res_info)
    (hlookup : getdns_lookup env r node service = .returned GETDNS_RETURN_GOOD state r1)
    (hshape : state.replies = some (List.replicate k ⟨some []⟩ ++ tail))
    (htail : ∀ x ∈ tail, x.nonempty = true) :
    getdns_pulls n info state .NULL =
      expected_pulls state.port n info.ttl
        ((tail.flatMap Reply.records).filter Record.has_address) := by
  obtain ⟨port, c, ctx, s, _, _, _, _, hrep, rfl⟩ := getdns_lookup_good_inv hlookup
  obtain ⟨answers, hpos, hpending⟩ := positioned_after_lookup rfl rfl hrep hshape htail
  rw [getdns_pulls_positioned n info _ answers _ hpos (Or.inl rfl), hpending]

/-- C1 on the spec's example `[[], [A1, A2], [A3]]`: five pulls. -/
theorem getdns_address_walk_witness :
    getdns_lookup (ex_env ex_response) ex_pool "www.example." "8080"
        = .returned GETDNS_RETURN_GOOD ex_state ex_pool_lent ∧
      ex_state.replies
        = some (List.replicate 1 ⟨some []⟩ ++ [⟨some [ex_A1, ex_A2]⟩, ⟨some [ex_A3]⟩]) ∧
      (∀ x ∈ [(⟨some [ex_A1, ex_A2]⟩ : Reply), ⟨some [ex_A3]⟩], x.nonempty = true) ∧
      getdns_pulls 5 {} ex_state .NULL =
        [.item { sa := some { family := .AF_INET, port := ex_htons 8080, addr := [192, 0, 2, 1] },
                 ttl := 300 },
         .item { sa := some { family := .AF_INET6, port := ex_htons 8080,
                              addr := [32, 1, 13, 184, 0, 0, 0, 0, 0, 0, 0, 0, 0, 0, 0, 2] },
                 ttl := 60 },
         .item { sa := some { family := .AF_INET, port := ex_htons 8080, addr := [192, 0, 2, 3] },
                 ttl := 120 },
         .eos, .eos] :=
  ⟨by decide, by decide, by decide,
    getdns_address_walk (ex_env ex_response) ex_pool ex_pool_lent "www.example." "8080"
      ex_state 1 [⟨some [ex_A1, ex_A2]⟩, ⟨some [ex_A3]⟩] 5 {} (by decide) (by decide)
      (by decide)⟩

/-- C2. Empty replies in mid-walk, on the reply set `[[A1], [], [A3]]`: the
lookup succeeds and the first pull returns `A1`; the second pull, having used
up the first reply, fetches the empty second reply and then reads answer `0`
of its empty list, which fails and trips `AZ(ret)`.  The SRV walker does the
same on `[[SRV], [], [SRV]]`.  The pull does not advance to the third
reply. -/
theorem empty_reply_in_mid_walk_aborts :
    getdns_lookup (ex_env ex_response_gap) ex_pool "www.example." "8080"
        = .returned GETDNS_RETURN_GOOD ex_state_gap ex_pool_lent ∧
      getdns_result {} ex_state_gap .NULL
        = .item { sa := some { family := .AF_INET, port := ex_htons 8080, addr := [192, 0, 2, 1] },
                  ttl := 300 }
            { ex_state_gap with answer := 1 } .state_answer ∧
      getdns_result
          { sa := some { family := .AF_INET, port := ex_htons 8080, addr := [192, 0, 2, 1] },
            ttl := 300 }
          { ex_state_gap with answer := 1 } .state_answer = .fatal ∧
      getdns_srv_lookup (ex_env ex_srv_response_gap) ex_pool "_sip._udp.example."
        = .returned GETDNS_RETURN_GOOD ex_srv_state_gap ex_pool_lent ∧
      getdns_srv_result (ex_env ex_srv_response_gap) {} ex_srv_state_gap .NULL
        = .item { target := some "srv.example.", port := 5060, priority := 10, weight := 5,
                  ttl := 60 }
            { ex_srv_state_gap with answer := 1 } .state_answer ∧
      getdns_srv_result (ex_env ex_srv_response_gap) {} { ex_srv_state_gap with answer := 1 }
        .state_answer = .fatal := by
  decide
/-- C3. Exhaustion is terminal and idempotent.  For every state and buffer, a
pull of `getdns_result` with the token at the terminal sentinel returns `NULL`
and leaves state, buffer and token as they are; a pull of `getdns_result`
that returns `NULL` has set the token to the sentinel; so does every number of
further pulls.  The same holds for `getdns_srv_result` (which first asserts
that the buffer holds no target and clears it). -/
theorem exhaustion_is_terminal :
    (∀ (info : res_info) (state : dyn_getdns_addr_state),
      getdns_result info state .getdns_last = .null info state .getdns_last) ∧
    (∀ (info info1 : res_info) (state state1 : dyn_getdns_addr_state) (answerp answerp1 : Token),
      getdns_result info state answerp = .null info1 state1 answerp1 →
      answerp1 = .getdns_last ∧
        ∀ info2, getdns_result info2 state1 answerp1 = .null info2 state1 answerp1) ∧
    (∀ (n : Nat) (info : res_info) (state : dyn_getdns_addr_state),
      getdns_pulls n info state .getdns_last = List.replicate n .eos) ∧
    (∀ (env : Env) (info : srv_info) (state : dyn_getdns_srv_state), info.target = none →
      getdns_srv_result env info state .getdns_last = .null {} state .getdns_last) ∧
    (∀ (env : Env) (info info1 : srv_info) (state state1 : dyn_getdns_srv_state)
        (answerp answerp1 : Token),
      getdns_srv_result env info state answerp = .null info1 state1 answerp1 →
      answerp1 = .getdns_last ∧ info1.target = none ∧
        ∀ info2, info2.target = none →
          getdns_srv_result env info2 state1 answerp1 = .null {} state1 answerp1) := by
  refine ⟨fun _ _ => by simp [getdns_result], ?_, getdns_pulls_last,
    fun _ info _ hinfo => by simp [getdns_srv_result, hinfo], ?_⟩
  · intro info info1 state state1 answerp answerp1 h
    have := getdns_result_null_token h
    subst this
    exact ⟨rfl, fun _ => by simp [getdns_result]⟩
  · intro env info info1 state state1 answerp answerp1 h
    obtain ⟨h1, h2⟩ := getdns_srv_result_null h
    subst h1 h2
    exact ⟨rfl, rfl, fun _ hinfo => by simp [getdns_srv_result, hinfo]⟩

/-- C3 at an exhausted cursor of the spec's example, for both walkers. -/
theorem exhaustion_is_terminal_witness :
    getdns_result {} ex_state_done .state_answer = .null {} ex_state_done .getdns_last ∧
      (Token.getdns_last = Token.getdns_last ∧
        ∀ info2, getdns_result info2 ex_state_done .getdns_last
          = .null info2 ex_state_done .getdns_last) ∧
      ({ port := 7 } : srv_info).target = none ∧
      getdns_srv_result (ex_env ex_srv_response) { port := 7 } ex_srv_state_done .getdns_last
        = .null {} ex_srv_state_done .getdns_last ∧
      getdns_srv_result (ex_env ex_srv_response) {} ex_srv_state_done .state_answer
        = .null {} ex_srv_state_done .getdns_last ∧
      (Token.getdns_last = Token.getdns_last ∧ ({} : srv_info).target = none ∧
        ∀ info2, info2.target = none →
          getdns_srv_result (ex_env ex_srv_response) info2 ex_srv_state_done .getdns_last
            = .null {} ex_srv_state_done .getdns_last) :=
  ⟨by decide,
    exhaustion_is_terminal.2.1 {} {} ex_state_done ex_state_done .state_answer .getdns_last
      (by decide),
    rfl,
    exhaustion_is_terminal.2.2.2.1 (ex_env ex_srv_response) { port := 7 } ex_srv_state_done rfl,
    by decide,
    exhaustion_is_terminal.2.2.2.2 (ex_env ex_srv_response) {} {} ex_srv_state_done
      ex_srv_state_done .state_answer .getdns_last (by decide)⟩

/-- C4. SRV walk, filter and completeness: after a successful
`getdns_srv_lookup` whose reply set is `k` empty replies followed by non-empty
ones (`tail`), `n` pulls of `getdns_srv_result` from a fresh token and an empty
buffer return the records of `tail` whose type is SRV and whose target and
port are readable, one per pull, in reply order and then answer order, every
other record being skipped without ending the walk, and an end of sequence for
every pull after the last of them. -/
theorem getdns_srv_walk (env : Env) (r r1 : dynamic_resolver) (service : String)
    (state : dyn_getdns_srv_state) (k : Nat) (tail : List Reply) (n : Nat) (info : srv_info)
    (hlookup : getdns_srv_lookup env r service = .returned GETDNS_RETURN_GOOD state r1)
    (hshape : state.replies = some (List.replicate k ⟨some []⟩ ++ tail))
    (htail : ∀ x ∈ tail, x.nonempty = true) (hinfo : info.target = none) :
    getdns_srv_pulls env n info state .NULL =
      expected_srv_pulls env n ((tail.flatMap Reply.records).filter Record.is_srv) := by
  obtain ⟨c, ctx, _, _, _, hrep⟩ := getdns_srv_lookup_good_inv hlookup
  obtain ⟨answers, hpos, hpending⟩ := positioned_after_lookup rfl rfl hrep hshape htail
  rw [getdns_srv_pulls_positioned env n info _ answers _ hpos (Or.inl rfl) hinfo, hpending]

/-- C4 on the spec's example `[non-SRV, well-formed SRV, SRV missing port]`:
exactly one result, then end of sequence. -/
theorem getdns_srv_walk_witness :
    getdns_srv_lookup (ex_env ex_srv_response) ex_pool "_sip._udp.example."
        = .returned GETDNS_RETURN_GOOD ex_srv_state ex_pool_lent ∧
      ex_srv_state.replies
        = some (List.replicate 0 ⟨some []⟩ ++ [⟨some [ex_CNAME, ex_SRV, ex_SRV_no_port]⟩]) ∧
      (∀ x ∈ [(⟨some [ex_CNAME, ex_SRV, ex_SRV_no_port]⟩ : Reply)], x.nonempty = true) ∧
      getdns_srv_pulls (ex_env ex_srv_response) 3 {} ex_srv_state .NULL =
        [.item { target := some "srv.example.", port := 5060, priority := 10, weight := 5,
                 ttl := 60 }, .eos, .eos] :=
  ⟨by decide, by decide, by decide,
    getdns_srv_walk (ex_env ex_srv_response) ex_pool ex_pool_lent "_sip._udp.example."
      ex_srv_state 0 [⟨some [ex_CNAME, ex_SRV, ex_SRV_no_port]⟩] 3 {} (by decide) (by decide)
      (by decide) rfl⟩

theorem first_answer_cursor_of_good {init s : dyn_getdns_srv_state} (h0 : init.reply = 0)
    (hstatus : s.response.bind Response.status ≠ some 0)
    (h : lookup_replies init = some (GETDNS_RETURN_GOOD, s)) :
    first_answer_cursor s ∧ s.response = init.response ∧ s.context = init.context := by
  rcases lookup_replies_good_inv h0 h with ⟨resp, hresp, hs, rfl⟩ |
    ⟨resp, pre, y, l, post, _, _, _, hpre, rfl⟩
  · exact absurd (by rw [hresp]; exact hs) hstatus
  · refine ⟨⟨pre ++ ⟨some (y :: l)⟩ :: post, pre.length, y, l, rfl, rfl, ?_, ?_, rfl, rfl, rfl,
      rfl, ?_, ?_⟩, rfl, rfl⟩
    · rw [List.getElem?_append_right (le_refl _)]; simp
    · intro i hi
      rw [List.getElem?_append_left hi, List.getElem?_eq_getElem hi]
      have := hpre pre[i] (List.getElem_mem _)
      rcases hx : pre[i] with ⟨a⟩
      rw [hx] at this
      simp only at this
      rw [this]
    · simp [next_reply]
    · simp [getdns_list_get_dict]

/-- The checks of the shared part of the lookups, on a state fresh from the
engine call. -/
theorem lookup_replies_checks {init : dyn_getdns_srv_state} (h0 : init.reply = 0) :
    (∀ resp status, init.response = some resp → resp.status = some status →
      status ≠ GETDNS_RESPSTATUS_GOOD →
      lookup_replies init = some (.code status, init)) ∧
    (∀ resp replies, init.response = some resp → resp.status = some GETDNS_RESPSTATUS_GOOD →
      resp.replies_tree = some replies → (∀ x ∈ replies, x.answer = some []) →
      ∃ s, lookup_replies init = some (GETDNS_RETURN_NO_ANSWERS, s)) ∧
    (∀ resp replies, init.response = some resp → resp.status = some GETDNS_RESPSTATUS_GOOD →
      resp.replies_tree = some replies → (∀ x ∈ replies, x.answer ≠ none) →
      (∃ x ∈ replies, x.nonempty = true) →
      ∃ s, lookup_replies init = some (GETDNS_RETURN_GOOD, s)) ∧
    (∀ s, lookup_replies init = some (GETDNS_RETURN_GOOD, s) →
      init.response.bind Response.status ≠ some 0 →
      ∃ resp replies, init.response = some resp ∧ resp.status = some GETDNS_RESPSTATUS_GOOD ∧
        resp.replies_tree = some replies ∧ replies ≠ [] ∧ ∃ x ∈ replies, x.nonempty = true) := by
  refine ⟨fun resp status hresp hs hne => lookup_replies_bad_status hresp hs hne, ?_, ?_, ?_⟩
  · intro resp replies hresp hs htree hall
    obtain ⟨s, hs1, _, _⟩ := lookup_replies_all_empty hresp hs htree hall h0
    exact ⟨s, hs1⟩
  · intro resp replies hresp hs htree hlist hne
    rcases replies_shape replies with hall | ⟨pre, post, rfl, hpre⟩ | ⟨pre, y, l, post, rfl, hpre⟩
    · obtain ⟨x, hx, hxn⟩ := hne
      simp [Reply.nonempty, hall x hx] at hxn
    · exact absurd rfl (hlist ⟨none⟩ (by simp))
    · exact ⟨_, lookup_replies_first_nonempty hresp hs htree hpre h0⟩
  · intro s h hstatus
    rcases lookup_replies_good_inv h0 h with ⟨resp, hresp, hs, _⟩ |
      ⟨resp, pre, y, l, post, hresp, hs, htree, hpre, rfl⟩
    · exact absurd (by rw [hresp]; exact hs) hstatus
    · exact ⟨resp, _, hresp, hs, htree, by simp, ⟨some (y :: l)⟩, by simp, rfl⟩

theorem getdns_lookup_checks {env : Env} {r r1 : dynamic_resolver} {node service : String}
    {port ctx : Nat} {c : dynamic_resolver_context}
    (hport : lookup_port env service = some (.ok port))
    (hctx : dyn_getdns_get_context r = some (c, r1)) (hc : c.context = some ctx) :
    checks_in_order (env.getdns_address_sync ctx node) (getdns_lookup env r node service) r1 := by
  have hq := @getdns_lookup_at_query env r r1 node service port ctx c hport hctx hc
  obtain ⟨c1, c2, _, c4⟩ := @lookup_replies_checks
    { context := some c, response := (env.getdns_address_sync ctx node).2 } rfl
  refine ⟨?_, ?_, ?_, ?_, ?_⟩
  · intro h; rw [hq, if_pos h]; exact ⟨_, rfl⟩
  · intro h resp status hresp hs hne
    rw [hq, if_neg (by simpa using h), c1 resp status hresp hs hne]
    exact ⟨_, rfl⟩
  · intro h resp hresp hs htree
    obtain ⟨s, hs1⟩ := c2 resp [] hresp hs htree (by simp)
    rw [hq, if_neg (by simpa using h), hs1]
    exact ⟨_, rfl⟩
  · intro h resp replies hresp hs htree _ hall
    obtain ⟨s, hs1⟩ := c2 resp replies hresp hs htree hall
    rw [hq, if_neg (by simpa using h), hs1]
    exact ⟨_, rfl⟩
  · rintro ⟨state, hres⟩ hstatus
    obtain ⟨port', c', ctx', s, hport', hctx', hc', hq0, hrep, _⟩ := getdns_lookup_good_inv hres
    rw [hctx] at hctx'
    obtain ⟨rfl, _⟩ := Prod.mk.inj (Option.some.inj hctx')
    rw [hc] at hc'
    obtain rfl := Option.some.inj hc'
    exact ⟨hq0, c4 s hrep hstatus⟩

theorem getdns_srv_lookup_checks {env : Env} {r r1 : dynamic_resolver} {service : String}
    {ctx : Nat} {c : dynamic_resolver_context}
    (hctx : dyn_getdns_get_context r = some (c, r1)) (hc : c.context = some ctx) :
    checks_in_order (env.getdns_service_sync ctx service) (getdns_srv_lookup env r service)
      r1 := by
  have hq := @getdns_srv_lookup_at_query env r r1 service ctx c hctx hc
  obtain ⟨c1, c2, _, c4⟩ := @lookup_replies_checks
    { context := some c, response := (env.getdns_service_sync ctx service).2 } rfl
  refine ⟨?_, ?_, ?_, ?_, ?_⟩
  · intro h; rw [hq, if_pos h]; exact ⟨_, rfl⟩
  · intro h resp status hresp hs hne
    rw [hq, if_neg (by simpa using h), c1 resp status hresp hs hne]
    exact ⟨_, rfl⟩
  · intro h resp hresp hs htree
    obtain ⟨s, hs1⟩ := c2 resp [] hresp hs htree (by simp)
    rw [hq, if_neg (by simpa using h), hs1]
    exact ⟨_, rfl⟩
  · intro h resp replies hresp hs htree _ hall
    obtain ⟨s, hs1⟩ := c2 resp replies hresp hs htree hall
    rw [hq, if_neg (by simpa using h), hs1]
    exact ⟨_, rfl⟩
  · rintro ⟨state, hres⟩ hstatus
    obtain ⟨c', ctx', hctx', hc', hq0, hrep⟩ := getdns_srv_lookup_good_inv hres
    rw [hctx] at hctx'
    obtain ⟨rfl, _⟩ := Prod.mk.inj (Option.some.inj hctx')
    rw [hc] at hc'
    obtain rfl := Option.some.inj hc'
    exact ⟨hq0, c4 state hrep hstatus⟩

/-- C5. NoAnswers at lookup time: once the engine call has returned `0` with a
response of good status and a readable reply list, `getdns_lookup` returns
`GETDNS_RETURN_NO_ANSWERS` (which is not the success code) when the list is
empty or every reply has zero answers, and returns `GETDNS_RETURN_GOOD` when
every reply has an answer list and at least one of them is not empty.  The
same holds for `getdns_srv_lookup`. -/
theorem no_answers_at_lookup :
    GETDNS_RETURN_NO_ANSWERS ≠ GETDNS_RETURN_GOOD ∧
    (∀ (env : Env) (r r1 : dynamic_resolver) (node service : String) (port ctx : Nat)
        (c : dynamic_resolver_context) (resp : Response) (replies : List Reply),
      lookup_port env service = some (.ok port) →
      dyn_getdns_get_context r = some (c, r1) → c.context = some ctx →
      env.getdns_address_sync ctx node = (0, some resp) →
      resp.status = some GETDNS_RESPSTATUS_GOOD → resp.replies_tree = some replies →
      ((replies = [] ∨ ∀ x ∈ replies, x.answer = some []) →
        ∃ state, getdns_lookup env r node service
          = .returned GETDNS_RETURN_NO_ANSWERS state r1) ∧
      ((∀ x ∈ replies, x.answer ≠ none) → (∃ x ∈ replies, x.nonempty = true) →
        ∃ state, getdns_lookup env r node service = .returned GETDNS_RETURN_GOOD state r1)) ∧
    (∀ (env : Env) (r r1 : dynamic_resolver) (service : String) (ctx : Nat)
        (c : dynamic_resolver_context) (resp : Response) (replies : List Reply),
      dyn_getdns_get_context r = some (c, r1) → c.context = some ctx →
      env.getdns_service_sync ctx service = (0, some resp) →
      resp.status = some GETDNS_RESPSTATUS_GOOD → resp.replies_tree = some replies →
      ((replies = [] ∨ ∀ x ∈ replies, x.answer = some []) →
        ∃ state, getdns_srv_lookup env r service
          = .returned GETDNS_RETURN_NO_ANSWERS state r1) ∧
      ((∀ x ∈ replies, x.answer ≠ none) → (∃ x ∈ replies, x.nonempty = true) →
        ∃ state, getdns_srv_lookup env r service = .returned GETDNS_RETURN_GOOD state r1)) := by
  refine ⟨by decide, ?_, ?_⟩
  · intro env r r1 node service port ctx c resp replies hport hctx hc hq hs htree
    obtain ⟨_, c2, c3, _⟩ := @lookup_replies_checks { context := some c, response := some resp }
      rfl
    rw [getdns_lookup_at_query hport hctx hc, hq]
    simp only [ne_eq, not_true_eq_false, if_false]
    constructor
    · intro hall
      have hall' : ∀ x ∈ replies, x.answer = some [] := by
        rcases hall with rfl | hall
        · simp
        · exact hall
      obtain ⟨s, hs1⟩ := c2 resp replies rfl hs htree hall'
      rw [hs1]; exact ⟨_, rfl⟩
    · intro hlist hne
      obtain ⟨s, hs1⟩ := c3 resp replies rfl hs htree hlist hne
      rw [hs1]; exact ⟨_, rfl⟩
  · intro env r r1 service ctx c resp replies hctx hc hq hs htree
    obtain ⟨_, c2, c3, _⟩ := @lookup_replies_checks { context := some c, response := some resp }
      rfl
    rw [getdns_srv_lookup_at_query hctx hc, hq]
    simp only [ne_eq, not_true_eq_false, if_false]
    constructor
    · intro hall
      have hall' : ∀ x ∈ replies, x.answer = some [] := by
        rcases hall with rfl | hall
        · simp
        · exact hall
      obtain ⟨s, hs1⟩ := c2 resp replies rfl hs htree hall'
      rw [hs1]; exact ⟨_, rfl⟩
    · intro hlist hne
      obtain ⟨s, hs1⟩ := c3 resp replies rfl hs htree hlist hne
      rw [hs1]; exact ⟨_, rfl⟩

/-- C6. Initial cursor position: whenever `getdns_lookup` or
`getdns_srv_lookup` returns success on a response whose status is not the
number `0`, the state holds the answer list of the first reply with at least
one answer (index `k`, every reply before it empty), answer index `0`,
`n_answers` the non-zero length of that list and reply index `k + 1`; a pull
then leaves the cursor where it is and reads answer `0` of reply `k`. -/
theorem initial_cursor_position :
    (∀ (env : Env) (r r1 : dynamic_resolver) (node service : String)
        (state : dyn_getdns_addr_state),
      getdns_lookup env r node service = .returned GETDNS_RETURN_GOOD state r1 →
      state.response.bind Response.status ≠ some 0 →
      first_answer_cursor state.todyn_getdns_srv_state) ∧
    (∀ (env : Env) (r r1 : dynamic_resolver) (service : String) (state : dyn_getdns_srv_state),
      getdns_srv_lookup env r service = .returned GETDNS_RETURN_GOOD state r1 →
      state.response.bind Response.status ≠ some 0 →
      first_answer_cursor state) := by
  constructor
  · intro env r r1 node service state h hstatus
    obtain ⟨port, c, ctx, s, _, _, _, _, hrep, rfl⟩ := getdns_lookup_good_inv h
    exact (first_answer_cursor_of_good rfl hstatus hrep).1
  · intro env r r1 service state h hstatus
    obtain ⟨c, ctx, _, _, _, hrep⟩ := getdns_srv_lookup_good_inv h
    exact (first_answer_cursor_of_good rfl hstatus hrep).1

/-- C7. Lookup validation order and error mapping: once the port is resolved
and a context leased, `getdns_lookup` and `getdns_srv_lookup` check in this
order (1) the code of the engine call, returned as it is when not `0`; (2) the
response status, returned as the code when it is not `GETDNS_RESPSTATUS_GOOD`;
(3) zero replies and (4) only empty replies, both `GETDNS_RETURN_NO_ANSWERS`;
each result holds whatever the later checks would find; and the lookup
returns success only if all four pass (for a response status that is not the
number `0`). -/
theorem lookup_validation_order :
    (∀ (env : Env) (r r1 : dynamic_resolver) (node service : String) (port ctx : Nat)
        (c : dynamic_resolver_context),
      lookup_port env service = some (.ok port) →
      dyn_getdns_get_context r = some (c, r1) → c.context = some ctx →
      checks_in_order (env.getdns_address_sync ctx node) (getdns_lookup env r node service)
        r1) ∧
    (∀ (env : Env) (r r1 : dynamic_resolver) (service : String) (ctx : Nat)
        (c : dynamic_resolver_context),
      dyn_getdns_get_context r = some (c, r1) → c.context = some ctx →
      checks_in_order (env.getdns_service_sync ctx service) (getdns_srv_lookup env r service)
        r1) :=
  ⟨fun _ _ _ _ _ _ _ _ hport hctx hc => getdns_lookup_checks hport hctx hc,
    fun _ _ _ _ _ _ hctx hc => getdns_srv_lookup_checks hctx hc⟩

/-- C5 on the replies `[[], []]` and on the spec's examples with answers. -/
theorem no_answers_at_lookup_witness :
    (∃ state, getdns_lookup (ex_env ex_response_empty) ex_pool "www.example." "8080"
        = .returned GETDNS_RETURN_NO_ANSWERS state ex_pool_lent) ∧
    (∃ state, getdns_lookup (ex_env ex_response) ex_pool "www.example." "8080"
        = .returned GETDNS_RETURN_GOOD state ex_pool_lent) ∧
    (∃ state, getdns_srv_lookup (ex_env ex_response_empty) ex_pool "_sip._udp.example."
        = .returned GETDNS_RETURN_NO_ANSWERS state ex_pool_lent) ∧
    (∃ state, getdns_srv_lookup (ex_env ex_srv_response) ex_pool "_sip._udp.example."
        = .returned GETDNS_RETURN_GOOD state ex_pool_lent) :=
  ⟨(no_answers_at_lookup.2.1 (ex_env ex_response_empty) ex_pool ex_pool_lent "www.example."
      "8080" (ex_htons 8080) 1 ⟨some 1⟩ ex_response_empty [⟨some []⟩, ⟨some []⟩]
      rfl (by decide) (by decide) (by decide) (by decide) (by decide)).1
      (Or.inr (by decide)),
    (no_answers_at_lookup.2.1 (ex_env ex_response) ex_pool ex_pool_lent "www.example."
      "8080" (ex_htons 8080) 1 ⟨some 1⟩ ex_response
      [⟨some []⟩, ⟨some [ex_A1, ex_A2]⟩, ⟨some [ex_A3]⟩]
      rfl (by decide) (by decide) (by decide) (by decide) (by decide)).2
      (by decide) ⟨⟨some [ex_A3]⟩, by decide, by decide⟩,
    (no_answers_at_lookup.2.2 (ex_env ex_response_empty) ex_pool ex_pool_lent
      "_sip._udp.example." 1 ⟨some 1⟩ ex_response_empty [⟨some []⟩, ⟨some []⟩]
      (by decide) (by decide) (by decide) (by decide) (by decide)).1
      (Or.inr (by decide)),
    (no_answers_at_lookup.2.2 (ex_env ex_srv_response) ex_pool ex_pool_lent
      "_sip._udp.example." 1 ⟨some 1⟩ ex_srv_response
      [⟨some [ex_CNAME, ex_SRV, ex_SRV_no_port]⟩]
      (by decide) (by decide) (by decide) (by decide) (by decide)).2
      (by decide) ⟨⟨some [ex_CNAME, ex_SRV, ex_SRV_no_port]⟩, by decide, by decide⟩⟩

/-- C6 on the spec's examples: reply `1` for the address lookup, reply `0` for
the SRV lookup. -/
theorem initial_cursor_position_witness :
    first_answer_cursor ex_state.todyn_getdns_srv_state ∧ first_answer_cursor ex_srv_state :=
  ⟨initial_cursor_position.1 (ex_env ex_response) ex_pool ex_pool_lent "www.example." "8080"
      ex_state (by decide) (by decide),
    initial_cursor_position.2 (ex_env ex_srv_response) ex_pool ex_pool_lent
      "_sip._udp.example." ex_srv_state (by decide) (by decide)⟩

/-- C7 on a response with status 901 and on a response with empty replies. -/
theorem lookup_validation_order_witness :
    (∃ state, getdns_lookup (ex_env ex_response_no_name) ex_pool "www.example." "8080"
        = .returned (.code 901) state ex_pool_lent) ∧
    (∃ state, getdns_srv_lookup (ex_env ex_response_empty) ex_pool "_sip._udp.example."
        = .returned GETDNS_RETURN_NO_ANSWERS state ex_pool_lent) :=
  ⟨(lookup_validation_order.1 (ex_env ex_response_no_name) ex_pool ex_pool_lent "www.example."
      "8080" (ex_htons 8080) 1 ⟨some 1⟩ rfl (by decide) (by decide)).2.1 (by decide)
      ex_response_no_name 901 (by decide) (by decide) (by decide),
    (lookup_validation_order.2 (ex_env ex_response_empty) ex_pool ex_pool_lent
      "_sip._udp.example." 1 ⟨some 1⟩ (by decide) (by decide)).2.2.2.1 (by decide)
      ex_response_empty [⟨some []⟩, ⟨some []⟩] (by decide) (by decide) (by decide)
      (by decide) (by decide)⟩

/-- C8 as stated fails at the token `0`: it parses as the integer `0`, yet the
lookup resolves it through the service-name table: with a table that does not
know the name the lookup fails with `GETDNS_RETURN_NO_SERVBYNAME`, and with a
table that maps it to port `7` the stored port is `7`, not `htons 0`. -/
theorem numeric_token_zero_uses_table :
    parses_as_integer "0" = true ∧ atoi "0" = 0 ∧
    getdns_lookup (ex_env ex_response) ex_pool "www.example." "0"
      = .returned GETDNS_RETURN_NO_SERVBYNAME {} ex_pool ∧
    getdns_lookup { ex_env ex_response with getservbyname_r := fun _ => (0, some 7) } ex_pool
        "www.example." "0"
      = .returned GETDNS_RETURN_GOOD { ex_state with port := 7 } ex_pool_lent ∧
    (7 : Nat) ≠ ex_htons 0 := by
  decide

/-- The record a walker loop leaves with is one its selection accepts. -/
theorem walk_loop_found_sel {β : Type} (sel : Record → Option β) :
    ∀ (fuel : Nat) (state s : dyn_getdns_srv_state) (rr : Record) (fields : β),
      walk_loop sel fuel state = .found s rr fields → sel rr = some fields := by
  intro fuel
  induction fuel with
  | zero => intro state s rr fields h; simp [walk_loop] at h
  | succ fuel ih =>
    intro state s rr fields h
    rw [walk_loop] at h
    split at h
    · cases h
    · split at h
      · cases h
      · split at h
        · rename_i hsel
          simp only [WalkExit.found.injEq] at h
          obtain ⟨_, rfl, rfl⟩ := h
          exact hsel
        · simp only at h
          split_ifs at h
          exact ih _ _ _ _ h

/-- C8, amended.  For every service token whose `atoi` value (a C `int`),
reduced to 16 bits, is not zero, `getdns_lookup` stores `htons` of that 16-bit
value as the port and its result does not depend on the service-name table;
for every other token (the token `0`, and every token without leading digits)
the port is what the service-name table answers.  The token's value is taken
within `int`, where C defines `atoi`. -/
theorem numeric_service_token (env : Env) (table : String → Int × Option Nat)
    (r : dynamic_resolver) (node service : String)
    (_hint : -2147483648 ≤ atoi service ∧ atoi service ≤ 2147483647) :
    (to_uint16 (atoi service) ≠ 0 →
      lookup_port env service = some (.ok (env.htons (to_uint16 (atoi service)))) ∧
      getdns_lookup { env with getservbyname_r := table } r node service
        = getdns_lookup env r node service ∧
      ∀ ret state r1, getdns_lookup env r node service = .returned ret state r1 →
        state.port = env.htons (to_uint16 (atoi service))) ∧
    (to_uint16 (atoi service) = 0 →
      lookup_port env service =
        if (env.getservbyname_r service).1 ≠ 0 then some (.error GETDNS_RETURN_NO_SERVBYNAME)
        else (env.getservbyname_r service).2.map (fun s_port => .ok (s_port % 65536))) := by
  constructor
  · intro hp
    have h1 : ∀ e : Env, e.htons = env.htons →
        lookup_port e service = some (.ok (env.htons (to_uint16 (atoi service)))) := by
      intro e he
      simp [lookup_port, hp, he]
    refine ⟨h1 env rfl, ?_, ?_⟩
    · simp only [getdns_lookup, h1 env rfl, h1 { env with getservbyname_r := table } rfl]
    · intro ret state r1 h
      simp only [getdns_lookup, h1 env rfl] at h
      split at h
      · cases h
      · split at h
        · cases h
        · split_ifs at h
          · simp only [LookupResult.returned.injEq] at h
            rw [← h.2.1]
          · split at h
            · cases h
            · simp only [LookupResult.returned.injEq] at h
              rw [← h.2.1]
  · intro hp
    simp only [lookup_port, hp, ne_eq, not_true_eq_false, if_false]
    by_cases h : (env.getservbyname_r service).1 = 0
    · simp only [h, not_true_eq_false, if_false]
      cases (env.getservbyname_r service).2 <;> rfl
    · simp only [h, not_false_eq_true, if_true]

/-- C8, amended, on the token `8080`. -/
theorem numeric_service_token_witness :
    (-2147483648 ≤ atoi "8080" ∧ atoi "8080" ≤ 2147483647) ∧ to_uint16 (atoi "8080") ≠ 0 ∧
    (lookup_port (ex_env ex_response) "8080"
        = some (.ok ((ex_env ex_response).htons (to_uint16 (atoi "8080")))) ∧
      getdns_lookup { ex_env ex_response with getservbyname_r := fun _ => (0, some 7) } ex_pool
          "www.example." "8080"
        = getdns_lookup (ex_env ex_response) ex_pool "www.example." "8080" ∧
      ∀ ret state r1, getdns_lookup (ex_env ex_response) ex_pool "www.example." "8080"
          = .returned ret state r1 →
        state.port = (ex_env ex_response).htons (to_uint16 (atoi "8080"))) :=
  ⟨by decide, by decide,
    (numeric_service_token (ex_env ex_response) (fun _ => (0, some 7)) ex_pool "www.example."
      "8080" (by decide)).1 (by decide)⟩

/-- C9. Address materialization by raw length: when the loop of
`getdns_result` leaves with a matched record `rr` and its raw address `addr`,
the result is an `AF_INET` socket address with the 4 bytes of `addr` when
`addr` is 4 bytes long, an `AF_INET6` one with its 16 bytes when it is 16
bytes long, and the fatal path for every other length; the port of every
result is the port of the state, which no pull changes. -/
theorem address_by_raw_length :
    (∀ (info : res_info) (state : dyn_getdns_addr_state) (answerp : Token)
        (s : dyn_getdns_srv_state) (rr : Record) (addr : getdns_bindata),
      (answerp = .NULL ∨ answerp = .state_answer) →
      ¬ (state.answer ≥ state.n_answers ∧ state.reply ≥ state.n_replies) →
      walk_loop addr_fields (walk_fuel state.todyn_getdns_srv_state)
        state.todyn_getdns_srv_state = .found s rr addr →
      addr_fields rr = some addr ∧
      (addr.length = 4 →
        getdns_result info state answerp =
          .item { sa := some { family := .AF_INET, port := state.port, addr := addr },
                  ttl := get_int_or_keep rr.ttl info.ttl }
            { state with todyn_getdns_srv_state := s } .state_answer) ∧
      (addr.length = 16 →
        getdns_result info state answerp =
          .item { sa := some { family := .AF_INET6, port := state.port, addr := addr },
                  ttl := get_int_or_keep rr.ttl info.ttl }
            { state with todyn_getdns_srv_state := s } .state_answer) ∧
      (addr.length ≠ 4 → addr.length ≠ 16 → getdns_result info state answerp = .fatal)) ∧
    (∀ (info info1 : res_info) (state state1 : dyn_getdns_addr_state) (answerp answerp1 : Token),
      getdns_result info state answerp = .item info1 state1 answerp1 →
      state1.port = state.port ∧
        ∃ sa, info1.sa = some sa ∧ sa.port = state.port ∧
          ((sa.family = .AF_INET ∧ sa.addr.length = 4) ∨
            (sa.family = .AF_INET6 ∧ sa.addr.length = 16))) := by
  constructor
  · intro info state answerp s rr addr htok hmore hloop
    have hne : answerp ≠ .getdns_last := by rcases htok with rfl | rfl <;> simp
    have htok' : (if answerp = .NULL then Token.state_answer else answerp) = .state_answer := by
      rcases htok with rfl | rfl <;> simp
    refine ⟨walk_loop_found_sel _ _ _ _ _ _ hloop, ?_, ?_, ?_⟩
    · intro h4
      simp only [getdns_result, if_neg hne, if_neg hmore, htok', hloop]
      simp [VSA_Build, h4]
    · intro h16
      simp only [getdns_result, if_neg hne, if_neg hmore, htok', hloop]
      simp [VSA_Build, h16]
    · intro h4 h16
      simp only [getdns_result, if_neg hne, if_neg hmore, htok', hloop]
      simp [h4, h16]
  · intro info info1 state state1 answerp answerp1 h
    rw [getdns_result] at h
    by_cases h1 : answerp = .getdns_last
    · rw [if_pos h1] at h; cases h
    rw [if_neg h1] at h
    by_cases h2 : state.answer ≥ state.n_answers ∧ state.reply ≥ state.n_replies
    · rw [if_pos h2] at h; cases h
    rw [if_neg h2] at h
    simp only [VSA_Build] at h
    generalize walk_loop addr_fields (walk_fuel state.todyn_getdns_srv_state)
      state.todyn_getdns_srv_state = w at h
    split_ifs at h
    all_goals
      cases w with
      | fatal => cases h
      | timeout => cases h
      | done s => cases h
      | found s rr addr =>
        simp only at h
        split_ifs at h
        all_goals
          simp only [PullResult.item.injEq] at h
          obtain ⟨rfl, rfl, _⟩ := h
          refine ⟨rfl, _, rfl, rfl, ?_⟩
          simp_all

/-- C9 on the first pull of the spec's example. -/
theorem address_by_raw_length_witness :
    getdns_result {} ex_state .NULL =
        .item { sa := some { family := .AF_INET, port := ex_state.port, addr := [192, 0, 2, 1] },
                ttl := get_int_or_keep ex_A1.ttl 0 }
          { ex_state with answer := 1 } .state_answer ∧
      (ex_state.port = ex_state.port ∧
        ∃ sa, (some { family := .AF_INET, port := ex_state.port, addr := [192, 0, 2, 1] }
              : Option suckaddr) = some sa ∧ sa.port = ex_state.port ∧
          ((sa.family = .AF_INET ∧ sa.addr.length = 4) ∨
            (sa.family = .AF_INET6 ∧ sa.addr.length = 16))) :=
  ⟨((address_by_raw_length.1 {} ex_state .NULL { ex_state.todyn_getdns_srv_state with answer := 1 }
      ex_A1 [192, 0, 2, 1] (Or.inl rfl) (by decide) (by decide)).2.1 (by decide)),
    address_by_raw_length.2 {}
      { sa := some { family := .AF_INET, port := ex_state.port, addr := [192, 0, 2, 1] },
        ttl := 300 }
      ex_state { ex_state with answer := 1 } .NULL .state_answer (by decide)⟩

/-- C10 fails on the code: for the matched record `ex_A_no_ttl`, which has no
ttl field, a pull with a buffer whose ttl is `300` returns ttl `300`, not
zero; pulling over `[A1, ex_A_no_ttl]` with one buffer, the second result
carries the ttl of `A1`. -/
theorem address_ttl_keeps_buffer_value :
    ex_A_no_ttl.ttl = none ∧
    getdns_result { ttl := 300 } ex_state_no_ttl .state_answer
      = .item { sa := some { family := .AF_INET, port := ex_htons 8080, addr := [192, 0, 2, 9] },
                ttl := 300 }
          { ex_state_no_ttl with answer := 2 } .state_answer ∧
    getdns_pulls 3 {} { ex_state_no_ttl with answer := 0 } .NULL
      = [.item { sa := some { family := .AF_INET, port := ex_htons 8080, addr := [192, 0, 2, 1] },
                 ttl := 300 },
         .item { sa := some { family := .AF_INET, port := ex_htons 8080, addr := [192, 0, 2, 9] },
                 ttl := 300 },
         .eos] := by
  decide

/-! ## Lemmas on the state a pull leaves -/

theorem next_reply_ok_frame {state s : dyn_getdns_srv_state} (h : next_reply state = .ok s) :
    same_lease state s ∧ cursor_le state s := by
  unfold next_reply at h
  split_ifs at h with hge
  · rcases hr : getdns_list_get_dict state.replies state.reply with e | reply
    · simp [hr] at h
    · rcases ha : getdns_dict_get reply.answer with e | l
      · simp [hr, ha] at h
      · simp only [hr, ha, getdns_list_get_length, Except.ok.injEq] at h
        subst h
        exact ⟨⟨rfl, rfl, rfl, rfl⟩, Or.inl (Nat.lt_succ_self _)⟩
  · simp only [Except.ok.injEq] at h
    subst h
    exact ⟨⟨rfl, rfl, rfl, rfl⟩, Or.inr ⟨rfl, le_refl _⟩⟩

theorem next_reply_error_frame {state s : dyn_getdns_srv_state}
    (h : next_reply state = .error s) : same_lease state s ∧ cursor_le state s := by
  unfold next_reply at h
  split_ifs at h with hge
  rcases hr : getdns_list_get_dict state.replies state.reply with e | reply
  · simp only [hr, Except.error.injEq] at h
    subst h
    exact ⟨⟨rfl, rfl, rfl, rfl⟩, Or.inl (Nat.lt_succ_self _)⟩
  · rcases ha : getdns_dict_get reply.answer with e | l
    · simp only [hr, ha, Except.error.injEq] at h
      subst h
      exact ⟨⟨rfl, rfl, rfl, rfl⟩, Or.inl (Nat.lt_succ_self _)⟩
    · simp [hr, ha, getdns_list_get_length] at h

theorem cursor_le_trans {a b c : dyn_getdns_srv_state} (h1 : cursor_le a b)
    (h2 : cursor_le b c) : cursor_le a c := by
  unfold cursor_le at *
  omega

theorem cursor_lt_of_le_of_lt {a b c : dyn_getdns_srv_state} (h1 : cursor_le a b)
    (h2 : cursor_lt b c) : cursor_lt a c := by
  unfold cursor_le cursor_lt at *
  omega

theorem cursor_le_of_lt {a b : dyn_getdns_srv_state} (h : cursor_lt a b) : cursor_le a b := by
  unfold cursor_le cursor_lt at *
  omega

theorem same_lease_trans {a b c : dyn_getdns_srv_state} (h1 : same_lease a b)
    (h2 : same_lease b c) : same_lease a c := by
  unfold same_lease at *
  obtain ⟨h11, h12, h13, h14⟩ := h1
  obtain ⟨h21, h22, h23, h24⟩ := h2
  exact ⟨h21.trans h11, h22.trans h12, h23.trans h13, h24.trans h14⟩

/-- The loop of a walker keeps the lease and the reply list of the state, and
moves the cursor forward: strictly when it leaves with a record. -/
theorem walk_loop_frame {β : Type} (sel : Record → Option β) :
    ∀ (fuel : Nat) (state : dyn_getdns_srv_state),
      (∀ s, walk_loop sel fuel state = .done s → same_lease state s ∧ cursor_le state s) ∧
      (∀ s rr fields, walk_loop sel fuel state = .found s rr fields →
        same_lease state s ∧ cursor_lt state s) := by
  intro fuel
  induction fuel with
  | zero => intro state; constructor <;> intros <;> simp_all [walk_loop]
  | succ fuel ih =>
    intro state
    rw [walk_loop]
    rcases hn : next_reply state with s0 | s0
    · obtain ⟨hl, hc⟩ := next_reply_error_frame hn
      constructor
      · intro s h
        simp only [WalkExit.done.injEq] at h
        subst h
        exact ⟨hl, hc⟩
      · intro s rr fields h
        simp at h
    · obtain ⟨hl, hc⟩ := next_reply_ok_frame hn
      simp only
      rcases hg : getdns_list_get_dict s0.answers s0.answer with e | rr0
      · constructor <;> intros <;> simp_all
      · simp only
        have hstep : same_lease s0 { s0 with answer := s0.answer + 1 } ∧
            cursor_lt s0 { s0 with answer := s0.answer + 1 } :=
          ⟨⟨rfl, rfl, rfl, rfl⟩, Or.inr ⟨rfl, Nat.lt_succ_self _⟩⟩
        have hl1 := same_lease_trans hl hstep.1
        have hc1 := cursor_lt_of_le_of_lt hc hstep.2
        rcases hs : sel rr0 with _ | f
        · simp only
          split_ifs
          · obtain ⟨ih1, ih2⟩ := ih { s0 with answer := s0.answer + 1 }
            constructor
            · intro s h
              obtain ⟨a, b⟩ := ih1 s h
              exact ⟨same_lease_trans hl1 a, cursor_le_trans (cursor_le_of_lt hc1) b⟩
            · intro s rr fields h
              obtain ⟨a, b⟩ := ih2 s rr fields h
              exact ⟨same_lease_trans hl1 a, cursor_lt_of_le_of_lt (cursor_le_of_lt hc1) b⟩
          · constructor
            · intro s h
              simp only [WalkExit.done.injEq] at h
              subst h
              exact ⟨hl1, cursor_le_of_lt hc1⟩
            · intro s rr fields h
              simp at h
        · simp only
          constructor
          · intro s h
            simp at h
          · intro s rr fields h
            simp only [WalkExit.found.injEq] at h
            obtain ⟨rfl, _, _⟩ := h
            exact ⟨hl1, hc1⟩

/-- What a pull of `getdns_result` that returns `NULL` did to the state. -/
theorem getdns_result_null_inv {info info1 : res_info} {state state1 : dyn_getdns_addr_state}
    {answerp answerp1 : Token}
    (h : getdns_result info state answerp = .null info1 state1 answerp1) :
    state1 = state ∨
      ∃ s, walk_loop addr_fields (walk_fuel state.todyn_getdns_srv_state)
          state.todyn_getdns_srv_state = .done s ∧
        state1 = { state with todyn_getdns_srv_state := s } := by
  rw [getdns_result] at h
  by_cases h1 : answerp = .getdns_last
  · rw [if_pos h1] at h
    simp only [PullResult.null.injEq] at h; exact Or.inl h.2.1.symm
  rw [if_neg h1] at h
  by_cases h2 : state.answer ≥ state.n_answers ∧ state.reply ≥ state.n_replies
  · rw [if_pos h2] at h
    simp only [PullResult.null.injEq] at h; exact Or.inl h.2.1.symm
  rw [if_neg h2] at h
  simp only [VSA_Build] at h
  rcases hw : walk_loop addr_fields (walk_fuel state.todyn_getdns_srv_state)
    state.todyn_getdns_srv_state with _ | _ | s | ⟨s, rr, addr⟩
  all_goals rw [hw] at h
  all_goals split_ifs at h
  all_goals first
    | (simp only [PullResult.null.injEq] at h
       obtain ⟨_, rfl, _⟩ := h
       exact Or.inr ⟨s, rfl, rfl⟩)
    | (simp only at h; split_ifs at h <;> simp_all)

/-- What a pull of `getdns_result` that returns a result did. -/
theorem getdns_result_item_inv {info info1 : res_info} {state state1 : dyn_getdns_addr_state}
    {answerp answerp1 : Token}
    (h : getdns_result info state answerp = .item info1 state1 answerp1) :
    ∃ s rr addr family,
      walk_loop addr_fields (walk_fuel state.todyn_getdns_srv_state)
        state.todyn_getdns_srv_state = .found s rr addr ∧
      state1 = { state with todyn_getdns_srv_state := s } ∧
      info1 = { sa := some { family := family, port := state.port, addr := addr },
                ttl := get_int_or_keep rr.ttl info.ttl } ∧
      ((addr.length = 4 ∧ family = .AF_INET) ∨ (addr.length = 16 ∧ family = .AF_INET6)) := by
  rw [getdns_result] at h
  by_cases h1 : answerp = .getdns_last
  · rw [if_pos h1] at h; cases h
  rw [if_neg h1] at h
  by_cases h2 : state.answer ≥ state.n_answers ∧ state.reply ≥ state.n_replies
  · rw [if_pos h2] at h; cases h
  rw [if_neg h2] at h
  simp only [VSA_Build] at h
  rcases hw : walk_loop addr_fields (walk_fuel state.todyn_getdns_srv_state)
    state.todyn_getdns_srv_state with _ | _ | s | ⟨s, rr, addr⟩
  all_goals rw [hw] at h
  all_goals split_ifs at h
  all_goals
    simp only at h
    split_ifs at h with h4 h5 h16 h17
    all_goals
      simp only [PullResult.item.injEq] at h
      obtain ⟨rfl, rfl, _⟩ := h
      first
        | exact ⟨s, rr, addr, .AF_INET, rfl, rfl, rfl, Or.inl ⟨by assumption, rfl⟩⟩
        | exact ⟨s, rr, addr, .AF_INET6, rfl, rfl, rfl, Or.inr ⟨by assumption, rfl⟩⟩

/-- What a pull of `getdns_srv_result` that returns `NULL` did to the state. -/
theorem getdns_srv_result_null_inv {env : Env} {info info1 : srv_info}
    {state state1 : dyn_getdns_srv_state} {answerp answerp1 : Token}
    (h : getdns_srv_result env info state answerp = .null info1 state1 answerp1) :
    state1 = state ∨ walk_loop srv_fields (walk_fuel state) state = .done state1 := by
  rw [getdns_srv_result] at h
  by_cases h0 : info.target ≠ none
  · rw [if_pos h0] at h; cases h
  rw [if_neg h0] at h
  simp only at h
  by_cases h1 : answerp = .getdns_last
  · rw [if_pos h1] at h
    simp only [PullResult.null.injEq] at h; exact Or.inl h.2.1.symm
  rw [if_neg h1] at h
  by_cases h2 : state.answer ≥ state.n_answers ∧ state.reply ≥ state.n_replies
  · rw [if_pos h2] at h
    simp only [PullResult.null.injEq] at h; exact Or.inl h.2.1.symm
  rw [if_neg h2] at h
  rcases hw : walk_loop srv_fields (walk_fuel state) state with _ | _ | s | ⟨s, rr, ⟨t, p⟩⟩
  all_goals rw [hw] at h
  all_goals split_ifs at h
  all_goals first
    | (simp only [PullResult.null.injEq] at h
       obtain ⟨_, rfl, _⟩ := h
       exact Or.inr rfl)
    | (simp only at h; split at h <;> cases h)

/-- What a pull of `getdns_srv_result` that returns a result did. -/
theorem getdns_srv_result_item_inv {env : Env} {info info1 : srv_info}
    {state state1 : dyn_getdns_srv_state} {answerp answerp1 : Token}
    (h : getdns_srv_result env info state answerp = .item info1 state1 answerp1) :
    ∃ rr target port fqdn,
      walk_loop srv_fields (walk_fuel state) state = .found state1 rr (target, port) ∧
      env.getdns_convert_dns_name_to_fqdn target = .ok fqdn ∧
      info1 = { target := some fqdn, port := port, priority := rr.priority.getD 0
                weight := rr.weight.getD 0, ttl := rr.ttl.getD 0 } := by
  rw [getdns_srv_result] at h
  by_cases h0 : info.target ≠ none
  · rw [if_pos h0] at h; cases h
  rw [if_neg h0] at h
  simp only at h
  by_cases h1 : answerp = .getdns_last
  · rw [if_pos h1] at h; cases h
  rw [if_neg h1] at h
  by_cases h2 : state.answer ≥ state.n_answers ∧ state.reply ≥ state.n_replies
  · rw [if_pos h2] at h; cases h
  rw [if_neg h2] at h
  rcases hw : walk_loop srv_fields (walk_fuel state) state with _ | _ | s | ⟨s, rr, ⟨t, p⟩⟩
  all_goals rw [hw] at h
  all_goals split_ifs at h
  all_goals
    simp only at h
    rcases hconv : env.getdns_convert_dns_name_to_fqdn t with e | fqdn
    · rw [hconv] at h; cases h
    · rw [hconv] at h
      simp only [PullResult.item.injEq, get_int_or_keep_eq] at h
      obtain ⟨rfl, rfl, _⟩ := h
      exact ⟨rr, t, p, fqdn, rfl, hconv, rfl⟩

/-! ## The claims on results, cursor order, finalize and the pool -/

/-- C11. SRV field defaults: every result `getdns_srv_result` returns is built
from the record its loop accepted, and from nothing else: the port is the
record's port, the target the conversion of the record's target, and
priority, weight and ttl are the record's fields, zero when absent, whatever
the caller's buffer held and whatever the records skipped before contained. -/
theorem srv_field_defaults :
    (∀ (env : Env) (info info1 : srv_info) (state state1 : dyn_getdns_srv_state)
        (answerp answerp1 : Token),
      getdns_srv_result env info state answerp = .item info1 state1 answerp1 →
      ∃ rr target port fqdn,
        walk_loop srv_fields (walk_fuel state) state = .found state1 rr (target, port) ∧
        rr.type = some GETDNS_RRTYPE_SRV ∧ rr.target = some target ∧ rr.port = some port ∧
        env.getdns_convert_dns_name_to_fqdn target = .ok fqdn ∧
        info1 = { target := some fqdn, port := port, priority := rr.priority.getD 0
                  weight := rr.weight.getD 0, ttl := rr.ttl.getD 0 }) ∧
    (∀ (env : Env) (info : srv_info) (state s : dyn_getdns_srv_state) (answerp : Token)
        (rr : Record) (target : getdns_bindata) (port : Nat) (fqdn : String),
      info.target = none → (answerp = .NULL ∨ answerp = .state_answer) →
      ¬ (state.answer ≥ state.n_answers ∧ state.reply ≥ state.n_replies) →
      walk_loop srv_fields (walk_fuel state) state = .found s rr (target, port) →
      env.getdns_convert_dns_name_to_fqdn target = .ok fqdn →
      getdns_srv_result env info state answerp =
        .item { target := some fqdn, port := port, priority := rr.priority.getD 0
                weight := rr.weight.getD 0, ttl := rr.ttl.getD 0 } s .state_answer) := by
  constructor
  · intro env info info1 state state1 answerp answerp1 h
    obtain ⟨rr, target, port, fqdn, hloop, hconv, hinfo⟩ := getdns_srv_result_item_inv h
    have hsel := walk_loop_found_sel _ _ _ _ _ _ hloop
    obtain ⟨hsrv, htarget, hport⟩ := srv_fields_eq_some hsel
    refine ⟨rr, target, port, fqdn, hloop, ?_, htarget, hport, hconv, hinfo⟩
    simp only [Record.is_srv, Bool.and_eq_true, decide_eq_true_eq] at hsrv
    exact hsrv.1.1
  · intro env info state s answerp rr target port fqdn hinfo htok hmore hloop hconv
    have hne : answerp ≠ .getdns_last := by rcases htok with rfl | rfl <;> simp
    have htok' : (if answerp = .NULL then Token.state_answer else answerp) = .state_answer := by
      rcases htok with rfl | rfl <;> simp
    have hinfo' : ¬ info.target ≠ none := by simp [hinfo]
    simp only [getdns_srv_result, if_neg hinfo', if_neg hne, if_neg hmore, htok', hloop, hconv]
    simp [get_int_or_keep_eq]

/-- C11 on a record with target and port only, after a skipped record and
with a buffer full of nines. -/
theorem srv_field_defaults_witness :
    (∃ rr target port fqdn,
        walk_loop srv_fields (walk_fuel ex_srv_state_bare) ex_srv_state_bare
          = .found { ex_srv_state_bare with answer := 2 } rr (target, port) ∧
        rr.type = some GETDNS_RRTYPE_SRV ∧ rr.target = some target ∧ rr.port = some port ∧
        (ex_env ex_srv_response).getdns_convert_dns_name_to_fqdn target = .ok fqdn ∧
        ({ target := some "srv.example.", port := 443 } : srv_info) =
          { target := some fqdn, port := port, priority := rr.priority.getD 0
            weight := rr.weight.getD 0, ttl := rr.ttl.getD 0 }) ∧
      getdns_srv_result (ex_env ex_srv_response) { port := 9, priority := 9, weight := 9, ttl := 9 }
          ex_srv_state_bare .NULL =
        .item { target := some "srv.example.", port := 443, priority := 0, weight := 0, ttl := 0 }
          { ex_srv_state_bare with answer := 2 } .state_answer :=
  ⟨srv_field_defaults.1 (ex_env ex_srv_response) {} { target := some "srv.example.", port := 443 }
      ex_srv_state_bare { ex_srv_state_bare with answer := 2 } .NULL .state_answer (by decide),
    srv_field_defaults.2 (ex_env ex_srv_response) { port := 9, priority := 9, weight := 9, ttl := 9 }
      ex_srv_state_bare { ex_srv_state_bare with answer := 2 } .NULL ex_SRV_bare [1, 99, 0] 443
      "srv.example." rfl (Or.inl rfl) (by decide) (by decide) rfl⟩

/-- C17. IPv6 preference: the address read from a record is its IPv6 field
when it has one, and its IPv4 field only when the IPv6 field is absent; the
socket address of every result of `getdns_result` holds the bytes so
chosen. -/
theorem ipv6_preference :
    (∀ (rr : Record) (a6 : getdns_bindata), rr.ipv6_address = some a6 →
      addr_fields rr = some a6) ∧
    (∀ rr : Record, rr.ipv6_address = none → addr_fields rr = rr.ipv4_address) ∧
    (∀ (info info1 : res_info) (state state1 : dyn_getdns_addr_state) (answerp answerp1 : Token),
      getdns_result info state answerp = .item info1 state1 answerp1 →
      ∃ rr addr sa,
        walk_loop addr_fields (walk_fuel state.todyn_getdns_srv_state)
          state.todyn_getdns_srv_state = .found state1.todyn_getdns_srv_state rr addr ∧
        info1.sa = some sa ∧ sa.addr = addr ∧
        (∀ a6, rr.ipv6_address = some a6 → addr = a6) ∧
        (rr.ipv6_address = none → rr.ipv4_address = some addr)) := by
  have h6 : ∀ (rr : Record) (a6 : getdns_bindata), rr.ipv6_address = some a6 →
      addr_fields rr = some a6 := by
    intro rr a6 h; simp [addr_fields, getdns_dict_get, h]
  have h4 : ∀ rr : Record, rr.ipv6_address = none → addr_fields rr = rr.ipv4_address := by
    intro rr h
    cases h4 : rr.ipv4_address <;> simp [addr_fields, getdns_dict_get, h, h4]
  refine ⟨h6, h4, ?_⟩
  intro info info1 state state1 answerp answerp1 h
  obtain ⟨s, rr, addr, family, hloop, rfl, rfl, _⟩ := getdns_result_item_inv h
  have hsel := walk_loop_found_sel _ _ _ _ _ _ hloop
  refine ⟨rr, addr, _, hloop, rfl, rfl, ?_, ?_⟩
  · intro a6 ha
    rw [h6 rr a6 ha] at hsel
    exact (Option.some.inj hsel).symm
  · intro hn
    rw [h4 rr hn] at hsel
    exact hsel

/-- C17 on a record that has both fields. -/
theorem ipv6_preference_witness :
    addr_fields ex_A_both = some [32, 1, 13, 184, 0, 0, 0, 0, 0, 0, 0, 0, 0, 0, 0, 7] ∧
      addr_fields ex_A1 = ex_A1.ipv4_address ∧
      getdns_result {} ex_state_both .NULL =
        .item { sa := some { family := .AF_INET6, port := ex_htons 8080,
                             addr := [32, 1, 13, 184, 0, 0, 0, 0, 0, 0, 0, 0, 0, 0, 0, 7] },
                ttl := 60 }
          { ex_state_both with answer := 1 } .state_answer ∧
      ∃ rr addr sa,
        walk_loop addr_fields (walk_fuel ex_state_both.todyn_getdns_srv_state)
          ex_state_both.todyn_getdns_srv_state
          = .found { ex_state_both.todyn_getdns_srv_state with answer := 1 } rr addr ∧
        (some { family := .AF_INET6, port := ex_htons 8080,
                addr := [32, 1, 13, 184, 0, 0, 0, 0, 0, 0, 0, 0, 0, 0, 0, 7] }
          : Option suckaddr) = some sa ∧ sa.addr = addr ∧
        (∀ a6, rr.ipv6_address = some a6 → addr = a6) ∧
        (rr.ipv6_address = none → rr.ipv4_address = some addr) :=
  ⟨ipv6_preference.1 ex_A_both _ rfl, ipv6_preference.2.1 ex_A1 rfl, by decide,
    ipv6_preference.2.2 {}
      { sa := some { family := .AF_INET6, port := ex_htons 8080,
                     addr := [32, 1, 13, 184, 0, 0, 0, 0, 0, 0, 0, 0, 0, 0, 0, 7] },
        ttl := 60 }
      ex_state_both { ex_state_both with answer := 1 } .NULL .state_answer (by decide)⟩

/-- C15 as stated fails on the spec's example: the pull after `A2` fetches the
next reply, which sets the answer index back to `0`, and returns `A3` with the
answer index at `1`, below the `2` it had before the pull. -/
theorem answer_index_restarts :
    getdns_result {} ex_state_mid .state_answer =
        .item { sa := some { family := .AF_INET, port := ex_htons 8080, addr := [192, 0, 2, 3] },
                ttl := 120 }
          ex_state_last .state_answer ∧
      ex_state_last.answer < ex_state_mid.answer := by
  decide

/-- C15, amended.  Across every pull of `getdns_result` and
`getdns_srv_result` that returns, the reply index never decreases, and the
answer index never decreases while the reply index stays the same (it starts
again from `0` when the walker fetches the next reply). -/
theorem cursor_never_moves_back :
    (∀ (info info1 : res_info) (state state1 : dyn_getdns_addr_state) (answerp answerp1 : Token),
      (getdns_result info state answerp = .null info1 state1 answerp1 ∨
        getdns_result info state answerp = .item info1 state1 answerp1) →
      state.reply ≤ state1.reply ∧ (state1.reply = state.reply → state.answer ≤ state1.answer)) ∧
    (∀ (env : Env) (info info1 : srv_info) (state state1 : dyn_getdns_srv_state)
        (answerp answerp1 : Token),
      (getdns_srv_result env info state answerp = .null info1 state1 answerp1 ∨
        getdns_srv_result env info state answerp = .item info1 state1 answerp1) →
      state.reply ≤ state1.reply ∧
        (state1.reply = state.reply → state.answer ≤ state1.answer)) := by
  have key : ∀ a b : dyn_getdns_srv_state, cursor_le a b →
      a.reply ≤ b.reply ∧ (b.reply = a.reply → a.answer ≤ b.answer) := by
    intro a b h
    unfold cursor_le at h
    omega
  constructor
  · intro info info1 state state1 answerp answerp1 h
    apply key
    rcases h with h | h
    · rcases getdns_result_null_inv h with rfl | ⟨s, hloop, rfl⟩
      · exact Or.inr ⟨rfl, le_refl _⟩
      · exact ((walk_loop_frame addr_fields _ _).1 s hloop).2
    · obtain ⟨s, rr, addr, family, hloop, rfl, _, _⟩ := getdns_result_item_inv h
      exact cursor_le_of_lt ((walk_loop_frame addr_fields _ _).2 s rr addr hloop).2
  · intro env info info1 state state1 answerp answerp1 h
    apply key
    rcases h with h | h
    · rcases getdns_srv_result_null_inv h with rfl | hloop
      · exact Or.inr ⟨rfl, le_refl _⟩
      · exact ((walk_loop_frame srv_fields _ _).1 state1 hloop).2
    · obtain ⟨rr, target, port, fqdn, hloop, _, _⟩ := getdns_srv_result_item_inv h
      exact cursor_le_of_lt ((walk_loop_frame srv_fields _ _).2 state1 rr _ hloop).2

/-- C15, amended, on the third pull of the address example and the first pull
of the SRV example. -/
theorem cursor_never_moves_back_witness :
    (ex_state_mid.reply ≤ ex_state_last.reply ∧
        (ex_state_last.reply = ex_state_mid.reply → ex_state_mid.answer ≤ ex_state_last.answer)) ∧
      (ex_srv_state.reply ≤ ex_srv_state.reply ∧
        (ex_srv_state.reply = ex_srv_state.reply → ex_srv_state.answer ≤ 2)) :=
  ⟨cursor_never_moves_back.1 {}
      { sa := some { family := .AF_INET, port := ex_htons 8080, addr := [192, 0, 2, 3] },
        ttl := 120 }
      ex_state_mid ex_state_last .state_answer .state_answer (Or.inr (by decide)),
    cursor_never_moves_back.2 (ex_env ex_srv_response) {}
      { target := some "srv.example.", port := 5060, priority := 10, weight := 5, ttl := 60 }
      ex_srv_state { ex_srv_state with answer := 2 } .NULL .state_answer (Or.inr (by decide))⟩

/-- The results of the reference pulls: the `i`-th is built from the `i`-th
address record. -/
theorem results_expected_pulls (port : Nat) :
    ∀ (n ttl : Nat) (L : List Record),
      (results (expected_pulls port n ttl L)).length ≤ L.length ∧
      ∀ (i : Nat) (res : res_info), (results (expected_pulls port n ttl L))[i]? = some res →
        ∃ rr family, L[i]? = some rr ∧
          res.sa = some { family := family, port := port, addr := rr.address } := by
  intro n
  induction n with
  | zero => intro ttl L; simp [expected_pulls, results]
  | succ n ih =>
    intro ttl L
    cases L with
    | nil =>
      obtain ⟨h1, h2⟩ := ih ttl []
      simp only [expected_pulls, results, List.filterMap_cons] at h1 h2 ⊢
      exact ⟨h1, h2⟩
    | cons rr rest =>
      simp only [expected_pulls]
      split_ifs with h4 h16
      · obtain ⟨h1, h2⟩ := ih (rr.ttl.getD ttl) rest
        simp only [results, List.filterMap_cons, List.length_cons] at h1 h2 ⊢
        refine ⟨by omega, ?_⟩
        intro i res hi
        cases i with
        | zero =>
          simp only [List.getElem?_cons_zero, Option.some.injEq] at hi
          exact ⟨rr, .AF_INET, List.getElem?_cons_zero, by rw [← hi]⟩
        | succ i =>
          simp only [List.getElem?_cons_succ] at hi ⊢
          exact h2 i res hi
      · obtain ⟨h1, h2⟩ := ih (rr.ttl.getD ttl) rest
        simp only [results, List.filterMap_cons, List.length_cons] at h1 h2 ⊢
        refine ⟨by omega, ?_⟩
        intro i res hi
        cases i with
        | zero =>
          simp only [List.getElem?_cons_zero, Option.some.injEq] at hi
          exact ⟨rr, .AF_INET6, List.getElem?_cons_zero, by rw [← hi]⟩
        | succ i =>
          simp only [List.getElem?_cons_succ] at hi ⊢
          exact h2 i res hi
      · simp [results]

/-- The results of the reference SRV pulls: the `i`-th is built from the
`i`-th accepted record. -/
theorem results_expected_srv_pulls (env : Env) :
    ∀ (n : Nat) (L : List Record),
      (results (expected_srv_pulls env n L)).length ≤ L.length ∧
      ∀ (i : Nat) (res : srv_info), (results (expected_srv_pulls env n L))[i]? = some res →
        ∃ rr fqdn, L[i]? = some rr ∧
          env.getdns_convert_dns_name_to_fqdn (rr.target.getD []) = .ok fqdn ∧
          res.target = some fqdn ∧ res.port = rr.port.getD 0 := by
  intro n
  induction n with
  | zero => intro L; simp [expected_srv_pulls, results]
  | succ n ih =>
    intro L
    cases L with
    | nil =>
      obtain ⟨h1, h2⟩ := ih []
      simp only [expected_srv_pulls, results, List.filterMap_cons] at h1 h2 ⊢
      exact ⟨h1, h2⟩
    | cons rr rest =>
      simp only [expected_srv_pulls]
      rcases hconv : env.getdns_convert_dns_name_to_fqdn (rr.target.getD []) with e | fqdn
      · simp [results]
      · obtain ⟨h1, h2⟩ := ih rest
        simp only [results, List.filterMap_cons, List.length_cons] at h1 h2 ⊢
        refine ⟨by omega, ?_⟩
        intro i res hi
        cases i with
        | zero =>
          simp only [List.getElem?_cons_zero, Option.some.injEq] at hi
          exact ⟨rr, fqdn, List.getElem?_cons_zero, hconv, by rw [← hi], by rw [← hi]⟩
        | succ i =>
          simp only [List.getElem?_cons_succ] at hi ⊢
          exact h2 i res hi

/-- C18. Bounded walk: every pull terminates; a pull that returns a result
leaves the cursor strictly after where it was, by reply index and then answer
index; and after a successful lookup over empty replies followed by
non-empty ones, the results of any `n` pulls are at most as many as the answer
records of the response, the `i`-th result being built from the `i`-th
matching record, so that no record is returned twice. -/
theorem bounded_walk :
    (∀ (info : res_info) (state : dyn_getdns_addr_state) (answerp : Token),
      getdns_result info state answerp ≠ .timeout) ∧
    (∀ (env : Env) (info : srv_info) (state : dyn_getdns_srv_state) (answerp : Token),
      getdns_srv_result env info state answerp ≠ .timeout) ∧
    (∀ (info info1 : res_info) (state state1 : dyn_getdns_addr_state) (answerp answerp1 : Token),
      getdns_result info state answerp = .item info1 state1 answerp1 →
      cursor_lt state.todyn_getdns_srv_state state1.todyn_getdns_srv_state) ∧
    (∀ (env : Env) (info info1 : srv_info) (state state1 : dyn_getdns_srv_state)
        (answerp answerp1 : Token),
      getdns_srv_result env info state answerp = .item info1 state1 answerp1 →
      cursor_lt state state1) ∧
    (∀ (env : Env) (r r1 : dynamic_resolver) (node service : String)
        (state : dyn_getdns_addr_state) (k : Nat) (tail : List Reply) (n : Nat) (info : res_info),
      getdns_lookup env r node service = .returned GETDNS_RETURN_GOOD state r1 →
      state.replies = some (List.replicate k ⟨some []⟩ ++ tail) →
      (∀ x ∈ tail, x.nonempty = true) →
      (results (getdns_pulls n info state .NULL)).length ≤ (tail.flatMap Reply.records).length ∧
      ∀ (i : Nat) (res : res_info), (results (getdns_pulls n info state .NULL))[i]? = some res →
        ∃ rr family, ((tail.flatMap Reply.records).filter Record.has_address)[i]? = some rr ∧
          res.sa = some { family := family, port := state.port, addr := rr.address }) ∧
    (∀ (env : Env) (r r1 : dynamic_resolver) (service : String)
        (state : dyn_getdns_srv_state) (k : Nat) (tail : List Reply) (n : Nat) (info : srv_info),
      getdns_srv_lookup env r service = .returned GETDNS_RETURN_GOOD state r1 →
      state.replies = some (List.replicate k ⟨some []⟩ ++ tail) →
      (∀ x ∈ tail, x.nonempty = true) → info.target = none →
      (results (getdns_srv_pulls env n info state .NULL)).length
        ≤ (tail.flatMap Reply.records).length ∧
      ∀ (i : Nat) (res : srv_info),
        (results (getdns_srv_pulls env n info state .NULL))[i]? = some res →
        ∃ rr fqdn, ((tail.flatMap Reply.records).filter Record.is_srv)[i]? = some rr ∧
          env.getdns_convert_dns_name_to_fqdn (rr.target.getD []) = .ok fqdn ∧
          res.target = some fqdn ∧ res.port = rr.port.getD 0) := by
  refine ⟨getdns_result_total, getdns_srv_result_total, ?_, ?_, ?_, ?_⟩
  · intro info info1 state state1 answerp answerp1 h
    obtain ⟨s, rr, addr, family, hloop, rfl, _, _⟩ := getdns_result_item_inv h
    exact ((walk_loop_frame addr_fields _ _).2 s rr addr hloop).2
  · intro env info info1 state state1 answerp answerp1 h
    obtain ⟨rr, target, port, fqdn, hloop, _, _⟩ := getdns_srv_result_item_inv h
    exact ((walk_loop_frame srv_fields _ _).2 state1 rr _ hloop).2
  · intro env r r1 node service state k tail n info hlookup hshape htail
    obtain ⟨port, c, ctx, s, _, _, _, _, hrep, rfl⟩ := getdns_lookup_good_inv hlookup
    obtain ⟨answers, hpos, hpending⟩ := positioned_after_lookup rfl rfl hrep hshape htail
    rw [getdns_pulls_positioned n info _ answers _ hpos (Or.inl rfl), hpending]
    obtain ⟨h1, h2⟩ := results_expected_pulls port n info.ttl
      ((tail.flatMap Reply.records).filter Record.has_address)
    exact ⟨le_trans h1 (List.length_filter_le _ _), h2⟩
  · intro env r r1 service state k tail n info hlookup hshape htail hinfo
    obtain ⟨c, ctx, _, _, _, hrep⟩ := getdns_srv_lookup_good_inv hlookup
    obtain ⟨answers, hpos, hpending⟩ := positioned_after_lookup rfl rfl hrep hshape htail
    rw [getdns_srv_pulls_positioned env n info _ answers _ hpos (Or.inl rfl) hinfo, hpending]
    obtain ⟨h1, h2⟩ := results_expected_srv_pulls env n
      ((tail.flatMap Reply.records).filter Record.is_srv)
    exact ⟨le_trans h1 (List.length_filter_le _ _), h2⟩

/-- C18 on the spec's two examples, nine pulls each. -/
theorem bounded_walk_witness :
    cursor_lt ex_state_mid.todyn_getdns_srv_state ex_state_last.todyn_getdns_srv_state ∧
      cursor_lt ex_srv_state { ex_srv_state with answer := 2 } ∧
      (results (getdns_pulls 9 {} ex_state .NULL)).length
        ≤ (([⟨some [ex_A1, ex_A2]⟩, ⟨some [ex_A3]⟩] : List Reply).flatMap Reply.records).length ∧
      (results (getdns_srv_pulls (ex_env ex_srv_response) 9 {} ex_srv_state .NULL)).length
        ≤ (([⟨some [ex_CNAME, ex_SRV, ex_SRV_no_port]⟩] : List Reply).flatMap
            Reply.records).length :=
  ⟨bounded_walk.2.2.1 {}
      { sa := some { family := .AF_INET, port := ex_htons 8080, addr := [192, 0, 2, 3] },
        ttl := 120 }
      ex_state_mid ex_state_last .state_answer .state_answer (by decide),
    bounded_walk.2.2.2.1 (ex_env ex_srv_response) {}
      { target := some "srv.example.", port := 5060, priority := 10, weight := 5, ttl := 60 }
      ex_srv_state { ex_srv_state with answer := 2 } .NULL .state_answer (by decide),
    (bounded_walk.2.2.2.2.1 (ex_env ex_response) ex_pool ex_pool_lent "www.example." "8080"
      ex_state 1 [⟨some [ex_A1, ex_A2]⟩, ⟨some [ex_A3]⟩] 9 {} (by decide) (by decide)
      (by decide)).1,
    (bounded_walk.2.2.2.2.2 (ex_env ex_srv_response) ex_pool ex_pool_lent "_sip._udp.example."
      ex_srv_state 0 [⟨some [ex_CNAME, ex_SRV, ex_SRV_no_port]⟩] 9 {} (by decide) (by decide)
      (by decide) rfl).1⟩

/-- Pulls of `getdns_result` leave the context and the response of the state. -/
theorem getdns_after_pulls_lease :
    ∀ (args : List (res_info × Token)) (state state1 : dyn_getdns_addr_state),
      getdns_after_pulls args state = some state1 →
      state1.context = state.context ∧ state1.response = state.response := by
  intro args
  induction args with
  | nil =>
    intro state state1 h
    simp only [getdns_after_pulls, Option.some.injEq] at h
    subst h; exact ⟨rfl, rfl⟩
  | cons a rest ih =>
    intro state state1 h
    obtain ⟨info, answerp⟩ := a
    rw [getdns_after_pulls] at h
    rcases hp : getdns_result info state answerp with _ | _ | ⟨i1, s1, t1⟩ | ⟨i1, s1, t1⟩
    · rw [hp] at h; cases h
    · rw [hp] at h; cases h
    · rw [hp] at h
      obtain ⟨hc, hr⟩ := ih s1 state1 h
      rcases getdns_result_null_inv hp with rfl | ⟨s, hloop, rfl⟩
      · exact ⟨hc, hr⟩
      · obtain ⟨a1, a2, _, _⟩ := ((walk_loop_frame addr_fields _ _).1 s hloop).1
        exact ⟨hc.trans a1, hr.trans a2⟩
    · rw [hp] at h
      obtain ⟨hc, hr⟩ := ih s1 state1 h
      obtain ⟨s, rr, addr, family, hloop, rfl, _, _⟩ := getdns_result_item_inv hp
      obtain ⟨a1, a2, _, _⟩ := ((walk_loop_frame addr_fields _ _).2 s rr addr hloop).1
      exact ⟨hc.trans a1, hr.trans a2⟩

/-- Pulls of `getdns_srv_result` leave the context and the response of the
state. -/
theorem getdns_srv_after_pulls_lease (env : Env) :
    ∀ (args : List (srv_info × Token)) (state state1 : dyn_getdns_srv_state),
      getdns_srv_after_pulls env args state = some state1 →
      state1.context = state.context ∧ state1.response = state.response := by
  intro args
  induction args with
  | nil =>
    intro state state1 h
    simp only [getdns_srv_after_pulls, Option.some.injEq] at h
    subst h; exact ⟨rfl, rfl⟩
  | cons a rest ih =>
    intro state state1 h
    obtain ⟨info, answerp⟩ := a
    rw [getdns_srv_after_pulls] at h
    rcases hp : getdns_srv_result env info state answerp with
      _ | _ | ⟨i1, s1, t1⟩ | ⟨i1, s1, t1⟩
    · rw [hp] at h; cases h
    · rw [hp] at h; cases h
    · rw [hp] at h
      obtain ⟨hc, hr⟩ := ih s1 state1 h
      rcases getdns_srv_result_null_inv hp with rfl | hloop
      · exact ⟨hc, hr⟩
      · obtain ⟨a1, a2, _, _⟩ := ((walk_loop_frame srv_fields _ _).1 s1 hloop).1
        exact ⟨hc.trans a1, hr.trans a2⟩
    · rw [hp] at h
      obtain ⟨hc, hr⟩ := ih s1 state1 h
      obtain ⟨rr, target, port, fqdn, hloop, _, _⟩ := getdns_srv_result_item_inv hp
      obtain ⟨a1, a2, _, _⟩ := ((walk_loop_frame srv_fields _ _).2 s1 rr _ hloop).1
      exact ⟨hc.trans a1, hr.trans a2⟩

/-- After a successful run of the shared part of a lookup the state holds the
context and the response it started with, and the response is not `NULL`. -/
theorem lookup_replies_good_lease {init s : dyn_getdns_srv_state} (h0 : init.reply = 0)
    (h : lookup_replies init = some (GETDNS_RETURN_GOOD, s)) :
    s.context = init.context ∧ ∃ resp, init.response = some resp ∧ s.response = some resp := by
  rcases lookup_replies_good_inv h0 h with ⟨resp, hresp, _, rfl⟩ |
    ⟨resp, pre, y, l, post, hresp, _, _, _, rfl⟩
  · exact ⟨rfl, resp, hresp, hresp⟩
  · exact ⟨rfl, resp, hresp, hresp⟩

/-- A lease takes the head of the free queue. -/
theorem get_context_contexts {r r1 : dynamic_resolver} {c : dynamic_resolver_context}
    (h : dyn_getdns_get_context r = some (c, r1)) : r.contexts = c :: r1.contexts := by
  unfold dyn_getdns_get_context at h
  split at h
  · cases h
  · rename_i c0 rest hr
    simp only [Option.some.injEq, Prod.mk.injEq] at h
    obtain ⟨rfl, rfl⟩ := h
    exact hr

/-- C12. Finalize pairs with the lease: for the state of a successful
`getdns_lookup` or `getdns_srv_lookup`, with `c` the context the lookup
leased, and after any sequence of pulls that returned (none, some, or pulls
after exhaustion), the finalize hands the response to `getdns_dict_destroy`
once, returns `c` to the pool once and sets the caller's handle to `NULL`;
the pulls have no part in which context is returned. -/
theorem finalize_pairs_with_lease :
    (∀ (env : Env) (r r1 : dynamic_resolver) (node service : String)
        (state : dyn_getdns_addr_state),
      getdns_lookup env r node service = .returned GETDNS_RETURN_GOOD state r1 →
      ∃ c resp, dyn_getdns_get_context r = some (c, r1) ∧ r.contexts = c :: r1.contexts ∧
        state.context = some c ∧ state.response = some resp ∧
        ∀ (args : List (res_info × Token)) (state1 : dyn_getdns_addr_state),
          getdns_after_pulls args state = some state1 →
          getdns_fini r1 (some state1) = .done none [resp] (dyn_getdns_rel_context r1 c) ∧
          (dyn_getdns_rel_context r1 c).contexts = r1.contexts ++ [c]) ∧
    (∀ (env : Env) (r r1 : dynamic_resolver) (service : String) (state : dyn_getdns_srv_state),
      getdns_srv_lookup env r service = .returned GETDNS_RETURN_GOOD state r1 →
      ∃ c resp, dyn_getdns_get_context r = some (c, r1) ∧ r.contexts = c :: r1.contexts ∧
        state.context = some c ∧ state.response = some resp ∧
        ∀ (args : List (srv_info × Token)) (state1 : dyn_getdns_srv_state),
          getdns_srv_after_pulls env args state = some state1 →
          getdns_srv_fini r1 (some state1) = .done none [resp] (dyn_getdns_rel_context r1 c) ∧
          (dyn_getdns_rel_context r1 c).contexts = r1.contexts ++ [c]) := by
  constructor
  · intro env r r1 node service state h
    obtain ⟨port, c, ctx, s, _, hctx, _, _, hrep, rfl⟩ := getdns_lookup_good_inv h
    obtain ⟨hc, resp, _, hr⟩ := lookup_replies_good_lease rfl hrep
    refine ⟨c, resp, hctx, get_context_contexts hctx, hc, hr, ?_⟩
    intro args state1 hafter
    obtain ⟨a1, a2⟩ := getdns_after_pulls_lease args _ state1 hafter
    have b1 : state1.context = some c := a1.trans hc
    have b2 : state1.response = some resp := a2.trans hr
    exact ⟨by simp [getdns_fini, b1, b2], rfl⟩
  · intro env r r1 service state h
    obtain ⟨c, ctx, hctx, _, _, hrep⟩ := getdns_srv_lookup_good_inv h
    obtain ⟨hc, resp, _, hr⟩ := lookup_replies_good_lease rfl hrep
    refine ⟨c, resp, hctx, get_context_contexts hctx, hc, hr, ?_⟩
    intro args state1 hafter
    obtain ⟨a1, a2⟩ := getdns_srv_after_pulls_lease env args _ state1 hafter
    have b1 : state1.context = some c := a1.trans hc
    have b2 : state1.response = some resp := a2.trans hr
    exact ⟨by simp [getdns_srv_fini, b1, b2], rfl⟩

/-- C12 on the spec's examples: finalize after no pull and after five. -/
theorem finalize_pairs_with_lease_witness :
    (∃ c resp, dyn_getdns_get_context ex_pool = some (c, ex_pool_lent) ∧
        ex_pool.contexts = c :: ex_pool_lent.contexts ∧
        ex_state.context = some c ∧ ex_state.response = some resp ∧
        ∀ (args : List (res_info × Token)) (state1 : dyn_getdns_addr_state),
          getdns_after_pulls args ex_state = some state1 →
          getdns_fini ex_pool_lent (some state1)
            = .done none [resp] (dyn_getdns_rel_context ex_pool_lent c) ∧
          (dyn_getdns_rel_context ex_pool_lent c).contexts = ex_pool_lent.contexts ++ [c]) ∧
      getdns_after_pulls [] ex_state = some ex_state ∧
      getdns_fini ex_pool_lent (some ex_state) = .done none [ex_response] ex_pool ∧
      getdns_after_pulls [({}, .NULL), ({}, .state_answer), ({}, .state_answer),
          ({}, .state_answer), ({}, .getdns_last)] ex_state = some ex_state_last ∧
      getdns_fini ex_pool_lent (some ex_state_last) = .done none [ex_response] ex_pool ∧
      ∃ c resp, dyn_getdns_get_context ex_pool = some (c, ex_pool_lent) ∧
        ex_pool.contexts = c :: ex_pool_lent.contexts ∧
        ex_srv_state.context = some c ∧ ex_srv_state.response = some resp ∧
        ∀ (args : List (srv_info × Token)) (state1 : dyn_getdns_srv_state),
          getdns_srv_after_pulls (ex_env ex_srv_response) args ex_srv_state = some state1 →
          getdns_srv_fini ex_pool_lent (some state1)
            = .done none [resp] (dyn_getdns_rel_context ex_pool_lent c) ∧
          (dyn_getdns_rel_context ex_pool_lent c).contexts = ex_pool_lent.contexts ++ [c] :=
  ⟨finalize_pairs_with_lease.1 (ex_env ex_response) ex_pool ex_pool_lent "www.example." "8080"
      ex_state (by decide),
    by decide, by decide, by decide, by decide,
    finalize_pairs_with_lease.2 (ex_env ex_srv_response) ex_pool ex_pool_lent
      "_sip._udp.example." ex_srv_state (by decide)⟩

/-- C16 fails on the code.  After a lookup that fails with
`GETDNS_RETURN_NO_SERVBYNAME` the state holds no context, and `getdns_fini`
trips `AN(state->context)`; after an engine call that fails without a
response the state holds no response, and `getdns_fini` and `getdns_srv_fini`
trip `AN(state->response)`, the leased context staying out of the pool.
After `GETDNS_RETURN_NO_ANSWERS` the finalize completes and the pool is
whole again. -/
theorem finalize_after_failed_lookup_aborts :
    getdns_lookup (ex_env ex_response) ex_pool "www.example." "bogus-service"
        = .returned GETDNS_RETURN_NO_SERVBYNAME {} ex_pool ∧
      getdns_fini ex_pool (some {}) = .fatal ∧
      getdns_lookup ex_env_failing ex_pool "www.example." "8080"
        = .returned (.code 1) { context := some ⟨some 1⟩, port := ex_htons 8080 } ex_pool_lent ∧
      getdns_fini ex_pool_lent (some { context := some ⟨some 1⟩, port := ex_htons 8080 })
        = .fatal ∧
      getdns_srv_lookup ex_env_failing ex_pool "_sip._udp.example."
        = .returned (.code 1) { context := some ⟨some 1⟩ } ex_pool_lent ∧
      getdns_srv_fini ex_pool_lent (some { context := some ⟨some 1⟩ }) = .fatal ∧
      getdns_lookup (ex_env ex_response_empty) ex_pool "www.example." "8080"
        = .returned GETDNS_RETURN_NO_ANSWERS ex_state_empty ex_pool_lent ∧
      getdns_fini ex_pool_lent (some ex_state_empty) = .done none [ex_response_empty] ex_pool := by
  decide

/-- The construction loop when every creation succeeds. -/
theorem create_contexts_all (env : InitEnv) (set_from_os : Bool) :
    ∀ (remaining i : Nat) (contexts : List dynamic_resolver_context) (events : List PoolEvent),
      (∀ j, i ≤ j → j < i + remaining → (env.getdns_context_create j set_from_os).1 = 0) →
      create_contexts env set_from_os remaining i contexts events =
        (i + remaining,
          contexts ++ (List.range' i remaining).map
            (fun j => ⟨(env.getdns_context_create j set_from_os).2⟩),
          events ++ (List.range' i remaining).map PoolEvent.getdns_context_create) := by
  intro remaining
  induction remaining with
  | zero => intro i contexts events _; simp [create_contexts]
  | succ remaining ih =>
    intro i contexts events hok
    rw [create_contexts]
    simp only [hok i (le_refl _) (by omega), ne_eq, not_true_eq_false, if_false]
    rw [ih (i + 1) _ _ (fun j h1 h2 => hok j (by omega) (by omega))]
    simp only [List.range'_succ, List.map_cons, List.append_assoc, List.singleton_append,
      Prod.mk.injEq, and_self, and_true]
    omega

/-- The construction loop when the creation at slot `i + before` is the first
to fail. -/
theorem create_contexts_fails (env : InitEnv) (set_from_os : Bool) :
    ∀ (before i after : Nat) (contexts : List dynamic_resolver_context)
      (events : List PoolEvent),
      (∀ j, i ≤ j → j < i + before → (env.getdns_context_create j set_from_os).1 = 0) →
      (env.getdns_context_create (i + before) set_from_os).1 ≠ 0 →
      create_contexts env set_from_os (before + 1 + after) i contexts events =
        (i + before,
          contexts ++ (List.range' i before).map
            (fun j => ⟨(env.getdns_context_create j set_from_os).2⟩),
          events ++ (List.range' i (before + 1)).map PoolEvent.getdns_context_create
            ++ [.VRT_fail "dynamic.resolver context init failed"]) := by
  intro before
  induction before with
  | zero =>
    intro i after contexts events _ hfail
    rw [show 0 + 1 + after = after + 1 by omega, create_contexts]
    simp only [Nat.add_zero] at hfail
    simp [hfail]
  | succ before ih =>
    intro i after contexts events hok hfail
    rw [show before + 1 + 1 + after = (before + 1 + after) + 1 by omega, create_contexts]
    simp only [hok i (le_refl _) (by omega), ne_eq, not_true_eq_false, if_false]
    rw [ih (i + 1) after _ _ (fun j h1 h2 => hok j (by omega) (by omega))
      (by rw [show i + 1 + before = i + (before + 1) by omega]; exact hfail)]
    refine Prod.ext (by simp only; omega) (Prod.ext ?_ ?_)
    · simp [List.range'_succ]
    · simp [List.range'_succ]

/-- The rollback loop destroys the slots below `i`, the last created first. -/
theorem destroy_contexts_map (f : Nat → Option Nat) (rest : List dynamic_resolver_context) :
    ∀ (n i : Nat), i ≤ n →
      destroy_contexts ((List.range n).map (fun j => ⟨f j⟩) ++ rest) i =
        (List.range i).reverse.map (fun j => PoolEvent.getdns_context_destroy (f j)) := by
  intro n i
  induction i with
  | zero => intro _; rfl
  | succ i ih =>
    intro hi
    rw [destroy_contexts, ih (by omega), List.range_succ, List.reverse_append]
    have : ((List.range n).map (fun j => (⟨f j⟩ : dynamic_resolver_context)) ++ rest)[i]?
        = some ⟨f i⟩ := by
      rw [List.getElem?_append_left (by simp; omega)]
      simp [List.getElem?_range (by omega : i < n)]
    simp [this]

/-- When `VSTAILQ_FOREACH` is left its variable is `NULL`. -/
theorem VSTAILQ_FOREACH_var_eq (base : Nat) :
    ∀ (contexts : List dynamic_resolver_context) (j : Nat),
      VSTAILQ_FOREACH_var base j contexts = none := by
  intro contexts
  induction contexts with
  | nil => intro j; rfl
  | cons c rest ih => intro j; exact ih (j + 1)

/-- C13. Pool construction rejects bad parallelism: for `parallel < 1`,
`vmod_resolver__init` reports the failure, creates no context and leaves the
caller's handle `NULL`; for `parallel >= 1` within `int`, with the allocations
and every context creation succeeding, it hands out a pool whose free queue
holds the `parallel` contexts in creation order and whose `n_contexts` is
`parallel`. -/
theorem pool_construction_parallelism :
    (∀ (env : InitEnv) (vcl_name : String) (set_from_os : Bool) (parallel : Int),
      parallel < 1 →
      vmod_resolver__init env none vcl_name set_from_os parallel =
        .returned none [.VRT_fail "dynamic.resolver parallel must be 1 or higher"]) ∧
    (∀ (env : InitEnv) (vcl_name : String) (set_from_os : Bool) (parallel base : Nat),
      1 ≤ parallel → parallel ≤ 2147483647 →
      env.ALLOC_OBJ = true → env.REPLACE_vcl_name = true → env.malloc = some base →
      env.pthread_mutex_init = 0 → env.pthread_cond_init = 0 →
      (∀ j, j < parallel → (env.getdns_context_create j set_from_os).1 = 0) →
      ∃ r, vmod_resolver__init env none vcl_name set_from_os (parallel : Int) =
          .returned (some r) ((List.range parallel).map PoolEvent.getdns_context_create) ∧
        r.contexts = (List.range parallel).map
          (fun j => ⟨(env.getdns_context_create j set_from_os).2⟩) ∧
        r.contexts.length = parallel ∧ r.n_contexts = (parallel : Int)) := by
  constructor
  · intro env vcl_name set_from_os parallel h
    simp [vmod_resolver__init, h]
  · intro env vcl_name set_from_os parallel base h1 hmax halloc hname hmalloc hmutex hcond hok
    have hloop := create_contexts_all env set_from_os parallel 0 [] []
      (fun j _ h => hok j (by omega))
    simp only [Nat.zero_add, List.nil_append, ← List.range_eq_range'] at hloop
    have hint : to_int (parallel : Int) = (parallel : Int) := by
      unfold to_int
      omega
    refine ⟨{ n_contexts := to_int (parallel : Int), vcl_name := some vcl_name
              contexts := (List.range parallel).map
                (fun j => ⟨(env.getdns_context_create j set_from_os).2⟩)
              freeptr := none }, ?_, rfl,
      by simp only [List.length_map, List.length_range], hint⟩
    have hp : ¬ ((parallel : Int) < 1) := by omega
    simp only [vmod_resolver__init, ne_eq, not_true_eq_false, if_false, if_neg hp, halloc,
      hname, hmalloc, Int.toNat_ofNat, hloop, hmutex, hcond, VSTAILQ_FOREACH_var_eq,
      Bool.true_eq_false, lt_self_iff_false, hint]

/-- C13 for `parallel = 0` and `parallel = 3`. -/
theorem pool_construction_parallelism_witness :
    vmod_resolver__init (ex_init_env (some 0)) none "r1" true 0 =
        .returned none [.VRT_fail "dynamic.resolver parallel must be 1 or higher"] ∧
      ∃ r, vmod_resolver__init (ex_init_env none) none "r1" true ((3 : Nat) : Int) =
          .returned (some r) ((List.range 3).map PoolEvent.getdns_context_create) ∧
        r.contexts = (List.range 3).map
          (fun j => ⟨((ex_init_env none).getdns_context_create j true).2⟩) ∧
        r.contexts.length = 3 ∧ r.n_contexts = ((3 : Nat) : Int) :=
  ⟨pool_construction_parallelism.1 (ex_init_env (some 0)) "r1" true 0 (by decide),
    pool_construction_parallelism.2 (ex_init_env none) "r1" true 3 4096 (by decide) (by decide)
      rfl rfl rfl rfl rfl (fun j _ => by simp [ex_init_env])⟩

/-- C14. Pool construction rollback: when the creation at slot `i` is the
first to fail (of `i + 1 + after` slots), `vmod_resolver__init` destroys the
contexts of the slots `i - 1` down to `0`, each once and in that order, no
other slot, frees the array and leaves the caller's handle `NULL`. -/
theorem pool_construction_rollback (env : InitEnv) (vcl_name : String) (set_from_os : Bool)
    (i after base : Nat) (_hi : i ≤ 2147483647)
    (halloc : env.ALLOC_OBJ = true) (hname : env.REPLACE_vcl_name = true)
    (hmalloc : env.malloc = some base)
    (hok : ∀ j, j < i → (env.getdns_context_create j set_from_os).1 = 0)
    (hfail : (env.getdns_context_create i set_from_os).1 ≠ 0) :
    vmod_resolver__init env none vcl_name set_from_os ((i + 1 + after : Nat) : Int) =
      .returned none
        ((List.range (i + 1)).map PoolEvent.getdns_context_create
          ++ [.VRT_fail "dynamic.resolver context init failed"]
          ++ (List.range i).reverse.map
              (fun j => PoolEvent.getdns_context_destroy
                (env.getdns_context_create j set_from_os).2)
          ++ [.free (some base), .free_vcl_name, .FREE_OBJ]) := by
  have hloop := create_contexts_fails env set_from_os i 0 after [] []
    (fun j _ h => hok j (by omega)) (by simpa using hfail)
  simp only [Nat.zero_add, List.nil_append, ← List.range_eq_range'] at hloop
  have hdestroy := destroy_contexts_map
    (fun j => (env.getdns_context_create j set_from_os).2) [] i i (le_refl _)
  simp only [List.append_nil] at hdestroy
  have hp : ¬ (((i + 1 + after : Nat) : Int) < 1) := by omega
  have hlt : ((i : Nat) : Int) < ((i + 1 + after : Nat) : Int) := by omega
  simp only [vmod_resolver__init, ne_eq, not_true_eq_false, if_false, if_neg hp, halloc,
    hname, hmalloc, Int.toNat_ofNat, hloop, if_pos hlt, hdestroy, Bool.true_eq_false]

/-- C14 for four slots with the creation at slot `2` failing. -/
theorem pool_construction_rollback_witness :
    vmod_resolver__init (ex_init_env (some 2)) none "r1" true ((2 + 1 + 1 : Nat) : Int) =
      .returned none
        [.getdns_context_create 0, .getdns_context_create 1, .getdns_context_create 2,
          .VRT_fail "dynamic.resolver context init failed",
          .getdns_context_destroy (some 101), .getdns_context_destroy (some 100),
          .free (some 4096), .free_vcl_name, .FREE_OBJ] :=
  pool_construction_rollback (ex_init_env (some 2)) "r1" true 2 1 4096 (by decide) rfl rfl rfl
    (fun j hj => by
      have : j = 0 ∨ j = 1 := by omega
      rcases this with rfl | rfl <;> decide)
    (by decide)

/-- C19 fails on the code: after a successful `vmod_resolver__init` with
`parallel = 3`, for which `malloc` returned the array at `4096`, the pool's
`freeptr` is `NULL`, and `vmod_resolver__fini` calls `free(NULL)`: the array
is never released. -/
theorem freeptr_is_null_after_init :
    (ex_init_env none).malloc = some 4096 ∧
      vmod_resolver__init (ex_init_env none) none "r1" true 3 =
        .returned (some ex_pool3)
          [.getdns_context_create 0, .getdns_context_create 1, .getdns_context_create 2] ∧
      ex_pool3.freeptr = none ∧
      vmod_resolver__fini (some ex_pool3) =
        .returned none
          [.getdns_context_destroy (some 100), .getdns_context_destroy (some 101),
            .getdns_context_destroy (some 102), .free none, .free_vcl_name, .FREE_OBJ] := by
  decide

/-- Whatever pool `vmod_resolver__init` hands out, its `freeptr` is `NULL`. -/
theorem vmod_resolver__init_freeptr (env : InitEnv) (rp : Option dynamic_resolver)
    (vcl_name : String) (set_from_os : Bool) (parallel : Int) (r : dynamic_resolver)
    (events : List PoolEvent)
    (h : vmod_resolver__init env rp vcl_name set_from_os parallel = .returned (some r) events) :
    r.freeptr = none := by
  rcases rp with _ | r0
  swap
  · simp [vmod_resolver__init] at h
  unfold vmod_resolver__init at h
  simp only [ne_eq, not_true_eq_false, if_false] at h
  by_cases h2 : parallel < 1
  · rw [if_pos h2] at h; simp at h
  rw [if_neg h2] at h
  by_cases h3 : env.ALLOC_OBJ = false
  · rw [if_pos h3] at h; simp at h
  rw [if_neg h3] at h
  by_cases h4 : env.REPLACE_vcl_name = false
  · rw [if_pos h4] at h; simp at h
  rw [if_neg h4] at h
  rcases hm : env.malloc with _ | base
  · rw [hm] at h; simp at h
  rw [hm] at h
  simp only at h
  split_ifs at h
  · simp at h
  · simp only [PoolResult.returned.injEq, Option.some.injEq] at h
    rw [← h.1]
    exact VSTAILQ_FOREACH_var_eq _ _ _

end Dynamic
